import Mathlib

/-!
# LexicraftAI: response normalisation and shot / breakdown ingestion

A shallow embedding of `src/services/geminiAPI.js` (the `GeminiService` facade) and
of the handlers of `src/components/ShotListManager.js` and
`src/components/ScriptBreakdown.js` that consume its results.

* JavaScript strings are sequences of UTF-16 code units (`JSString`).
* JavaScript values are the inductive type `JValue`; an object is the list of its
  own enumerable properties in creation order.
* A function that can throw returns `Except JsError _`; `try { .. } catch` is a
  `match` on that result.
* The regular expressions of the source are values of type `Regex`, run by a
  backtracking matcher (`matchHere`, `regexMatch`, `removeMatches`).
* `JSON.parse` is the platform function; `jsonParse` is a recursive-descent model
  of the JSON grammar of ECMA-404.
* The clock and the random source are read through a `Platform`; the upstream model
  is a function from the prompt to the response text or an error (`GenAI`).

The definitions come first, then the supporting lemmas, then the claims `C1`, `C2`, ...
in order.
-/

namespace Lexicraft

set_option maxRecDepth 100000

/-! ## Strings -/

/-- A JavaScript string, as the sequence of its UTF-16 code units. -/
abbrev JSString := List Nat

/-- The UTF-16 code units of one Unicode scalar value. -/
def utf16Char (c : Char) : List Nat :=
  if c.toNat < 65536 then [c.toNat]
  else [55296 + (c.toNat - 65536) / 1024, 56320 + (c.toNat - 65536) % 1024]

/-- The JavaScript string written by a string literal. -/
def utf16 (s : String) : JSString :=
  (s.toList.map utf16Char).flatten

/-- The characters matched by `\s` in a regular expression, which are also the
characters removed by `String.prototype.trim` (WhiteSpace and LineTerminator). -/
def isSpace (c : Nat) : Bool :=
  c == 9 || c == 10 || c == 11 || c == 12 || c == 13 || c == 32 || c == 160 ||
  c == 5760 || (8192 ≤ c && c ≤ 8202) || c == 8232 || c == 8233 || c == 8239 ||
  c == 8287 || c == 12288 || c == 65279

/-- The class `[\s\S]`: every code unit. -/
def anyChar (_ : Nat) : Bool := true

/-- `String.prototype.trim`. -/
def trim (s : JSString) : JSString :=
  ((s.dropWhile isSpace).reverse.dropWhile isSpace).reverse

/-! ## Regular expressions -/

/-- One item of a regular expression: a literal character, a character class, or
a greedy `*` over a character class. These are the only constructs the source's patterns use. -/
inductive RegexItem where
  | chr (c : Nat)
  | cls (p : Nat → Bool)
  | star (p : Nat → Bool)

/-- A regular expression: a sequence of items. -/
abbrev Regex := List RegexItem

/-- The literal text `s` as a regular expression. -/
def Regex.lit (s : JSString) : Regex := s.map RegexItem.chr

/-- Greedy repetition of the class `p` followed by the continuation `k`: consume
a character when possible and fall back to `k` at the current position when the
rest fails. The result counts the characters matched from here on. -/
def starFrom (p : Nat → Bool) (k : JSString → Option Nat) : JSString → Option Nat
  | [] => k []
  | x :: s =>
    if p x then
      match starFrom p k s with
      | some n => some (n + 1)
      | none => k (x :: s)
    else k (x :: s)

/-- The length of the match of `r` anchored at the start of the text, if any
(backtracking, greedy). -/
def matchHere : Regex → JSString → Option Nat
  | [], _ => some 0
  | RegexItem.chr c :: r, s =>
    match s with
    | [] => none
    | x :: s' => if x = c then (matchHere r s').map (· + 1) else none
  | RegexItem.cls p :: r, s =>
    match s with
    | [] => none
    | x :: s' => if p x then (matchHere r s').map (· + 1) else none
  | RegexItem.star p :: r, s => starFrom p (matchHere r) s

/-- The result `m[0]` of `text.match(r)` for a non-global `r`: the leftmost
match, or `none` when `match` returns `null`. -/
def regexMatch (r : Regex) : JSString → Option JSString
  | [] => (matchHere r []).map fun n => List.take n []
  | x :: s =>
    match matchHere r (x :: s) with
    | some n => some ((x :: s).take n)
    | none => regexMatch r s

/-- Worker of `removeMatches`: `skip` counts the characters of the current match
that are still to be dropped. -/
def removeMatchesAux (r : Regex) : Nat → JSString → JSString
  | _, [] => []
  | skip + 1, _ :: s => removeMatchesAux r skip s
  | 0, x :: s =>
    match matchHere r (x :: s) with
    | some (n + 1) => removeMatchesAux r n s
    | _ => x :: removeMatchesAux r 0 s

/-- The result of `text.replace(r, '')` for a global `r`: every match, found left to
right without overlap, is deleted. -/
def removeMatches (r : Regex) (s : JSString) : JSString :=
  removeMatchesAux r 0 s

/-- The pattern ```` /```json\s*/g ````. -/
def reFenceJson : Regex :=
  Regex.lit (utf16 "```json") ++ [RegexItem.star isSpace]

/-- The pattern ```` /```\s*/g ````. -/
def reFence : Regex :=
  Regex.lit (utf16 "```") ++ [RegexItem.star isSpace]

/-- The pattern `/\{[\s\S]*\}/`. -/
def reObject : Regex :=
  [RegexItem.chr 123, RegexItem.star anyChar, RegexItem.chr 125]

/-- The pattern `/\[\s*\{[\s\S]*\}\s*\]/`. -/
def reArray : Regex :=
  [RegexItem.chr 91, RegexItem.star isSpace, RegexItem.chr 123, RegexItem.star anyChar,
   RegexItem.chr 125, RegexItem.star isSpace, RegexItem.chr 93]

/-! ## Values -/

/-- A JavaScript value. A number `num m e` is the decimal `m * 10 ^ e`, kept exactly
(the rounding of `JSON.parse` to a double is not modelled); an object is the list of
its own enumerable properties. -/
inductive JValue where
  | undef
  | null
  | bool (b : Bool)
  | num (mant : Int) (exp : Int)
  | str (s : JSString)
  | arr (items : List JValue)
  | obj (props : List (JSString × JValue))

/-- A thrown `Error` (or `SyntaxError`), with its `message`. -/
structure JsError where
  message : JSString

/-- The properties of an object under construction or inspection. -/
abbrev Props := List (JSString × JValue)

/-- The value of own property `k`, if there is one. -/
def Props.find (k : JSString) : Props → Option JValue
  | [] => none
  | (k', v) :: ps => if k' = k then some v else Props.find k ps

/-- `CreateDataProperty`: overwrite the value of `k` in place, or add `k` last. -/
def Props.set (k : JSString) (v : JValue) : Props → Props
  | [] => [(k, v)]
  | (k', v') :: ps => if k' = k then (k', v) :: ps else (k', v') :: Props.set k v ps

/-- The own property `k` exists. -/
def Props.has (k : JSString) (ps : Props) : Bool :=
  (Props.find k ps).isSome

/-- Property access `o[k]` on the properties of an object: `undefined` when absent. -/
def Props.get (k : JSString) (ps : Props) : JValue :=
  match Props.find k ps with
  | some v => v
  | none => JValue.undef

/-- `ToBoolean`: the values that count as true in `a || b`, `!a` and `if (a)`. -/
def JValue.truthy : JValue → Bool
  | JValue.undef => false
  | JValue.null => false
  | JValue.bool b => b
  | JValue.num m _ => m != 0
  | JValue.str s => !s.isEmpty
  | JValue.arr _ => true
  | JValue.obj _ => true

/-- The operator `a || b`. -/
def JValue.or (a b : JValue) : JValue :=
  if a.truthy then a else b

/-- `Array.isArray`. -/
def JValue.isArray : JValue → Bool
  | JValue.arr _ => true
  | _ => false

/-- The value is an object that is not an array. -/
def JValue.isObject : JValue → Bool
  | JValue.obj _ => true
  | _ => false

/-! ## JSON.parse -/

/-- JSON whitespace: space, tab, line feed, carriage return. -/
def isJsonWs (c : Nat) : Bool :=
  c == 32 || c == 9 || c == 10 || c == 13

/-- Skip JSON whitespace. -/
def skipWs (s : JSString) : JSString :=
  s.dropWhile isJsonWs

/-- The value of a hexadecimal digit. -/
def hexVal (c : Nat) : Option Nat :=
  if 48 ≤ c ∧ c ≤ 57 then some (c - 48)
  else if 97 ≤ c ∧ c ≤ 102 then some (c - 87)
  else if 65 ≤ c ∧ c ≤ 70 then some (c - 55)
  else none

/-- The code unit written by the four hexadecimal digits of a `\u` escape. -/
def hex4 (a b c d : Nat) : Option Nat :=
  match hexVal a, hexVal b, hexVal c, hexVal d with
  | some x, some y, some z, some w => some (((x * 16 + y) * 16 + z) * 16 + w)
  | _, _, _, _ => none

/-- The character written by a one-letter escape `\c`. -/
def escapeChar (c : Nat) : Option Nat :=
  if c = 34 then some 34
  else if c = 92 then some 92
  else if c = 47 then some 47
  else if c = 98 then some 8
  else if c = 102 then some 12
  else if c = 110 then some 10
  else if c = 114 then some 13
  else if c = 116 then some 9
  else none

/-- A JSON string after its opening quote: the decoded text and the input after the
closing quote. -/
def parseStringBody : JSString → Option (JSString × JSString)
  | [] => none
  | c :: rest =>
    if c = 34 then some ([], rest)
    else if c = 92 then
      match rest with
      | [] => none
      | e :: rest' =>
        if e = 117 then
          match rest' with
          | a :: b :: c' :: d :: rest'' =>
            match hex4 a b c' d, parseStringBody rest'' with
            | some u, some (t, r) => some (u :: t, r)
            | _, _ => none
          | _ => none
        else
          match escapeChar e, parseStringBody rest' with
          | some u, some (t, r) => some (u :: t, r)
          | _, _ => none
    else if c < 32 then none
    else
      match parseStringBody rest with
      | some (t, r) => some (c :: t, r)
      | none => none

/-- A decimal digit. -/
def isDigit (c : Nat) : Bool :=
  48 ≤ c && c ≤ 57

/-- The number written by a sequence of decimal digits. -/
def digitsVal (ds : JSString) : Nat :=
  ds.foldl (fun acc d => acc * 10 + (d - 48)) 0

/-- The integer part of a JSON number: `0`, or a non-zero digit followed by digits. -/
def parseIntPart (s : JSString) : Option (JSString × JSString) :=
  match s with
  | [] => none
  | c :: rest =>
    if c = 48 then some ([48], rest)
    else if isDigit c then some (c :: rest.takeWhile isDigit, rest.dropWhile isDigit)
    else none

/-- The optional fraction of a JSON number: its digits and the remaining input. -/
def parseFrac (s : JSString) : Option (JSString × JSString) :=
  match s with
  | c :: rest =>
    if c = 46 then
      if (rest.takeWhile isDigit).isEmpty then none
      else some (rest.takeWhile isDigit, rest.dropWhile isDigit)
    else some ([], s)
  | [] => some ([], s)

/-- The digits of an exponent, after its `e` and optional sign. -/
def parseExpDigits (neg : Bool) (s : JSString) : Option (Int × JSString) :=
  if (s.takeWhile isDigit).isEmpty then none
  else
    let v : Int := digitsVal (s.takeWhile isDigit)
    some (if neg then -v else v, s.dropWhile isDigit)

/-- The optional exponent of a JSON number. -/
def parseExp (s : JSString) : Option (Int × JSString) :=
  match s with
  | c :: rest =>
    if c = 101 ∨ c = 69 then
      match rest with
      | sg :: rest' =>
        if sg = 43 then parseExpDigits false rest'
        else if sg = 45 then parseExpDigits true rest'
        else parseExpDigits false rest
      | [] => none
    else some (0, s)
  | [] => some (0, s)

/-- An unsigned JSON number. -/
def parseUnsigned (neg : Bool) (s : JSString) : Option (JValue × JSString) :=
  match parseIntPart s with
  | none => none
  | some (ip, r1) =>
    match parseFrac r1 with
    | none => none
    | some (fp, r2) =>
      match parseExp r2 with
      | none => none
      | some (e, r3) =>
        let m : Int := digitsVal (ip ++ fp)
        some (JValue.num (if neg then -m else m) (e - fp.length), r3)

/-- A JSON number: its value and the remaining input. -/
def parseNumber (s : JSString) : Option (JValue × JSString) :=
  match s with
  | c :: rest => if c = 45 then parseUnsigned true rest else parseUnsigned false s
  | [] => none

/-- The input after the keyword `kw`, when the input starts with it. -/
def dropKeyword (kw s : JSString) : Option JSString :=
  if kw.isPrefixOf s then some (s.drop kw.length) else none

mutual

/-- A JSON value at the start of the input (no leading whitespace): the value and the
remaining input. The first argument bounds the number of nested calls. -/
def parseValue : Nat → JSString → Option (JValue × JSString)
  | 0, _ => none
  | fuel + 1, s =>
    match s with
    | [] => none
    | c :: rest =>
      if c = 123 then
        match skipWs rest with
        | [] => none
        | d :: rest' =>
          if d = 125 then some (JValue.obj [], rest')
          else
            match parseMembers fuel (d :: rest') [] with
            | some (ps, r) => some (JValue.obj ps, r)
            | none => none
      else if c = 91 then
        match skipWs rest with
        | [] => none
        | d :: rest' =>
          if d = 93 then some (JValue.arr [], rest')
          else
            match parseElements fuel (d :: rest') [] with
            | some (vs, r) => some (JValue.arr vs, r)
            | none => none
      else if c = 34 then
        match parseStringBody rest with
        | some (t, r) => some (JValue.str t, r)
        | none => none
      else if c = 116 then (dropKeyword (utf16 "true") s).map fun r => (JValue.bool true, r)
      else if c = 102 then (dropKeyword (utf16 "false") s).map fun r => (JValue.bool false, r)
      else if c = 110 then (dropKeyword (utf16 "null") s).map fun r => (JValue.null, r)
      else parseNumber s

/-- The elements of a non-empty array, from the first element to the closing
bracket; `acc` holds the elements read so far. -/
def parseElements : Nat → JSString → List JValue → Option (List JValue × JSString)
  | 0, _, _ => none
  | fuel + 1, s, acc =>
    match parseValue fuel s with
    | none => none
    | some (v, r) =>
      match skipWs r with
      | [] => none
      | d :: r' =>
        if d = 44 then parseElements fuel (skipWs r') (acc ++ [v])
        else if d = 93 then some (acc ++ [v], r')
        else none

/-- The members of a non-empty object, from the first key to the closing brace; a
repeated key keeps its first position and takes the last value. -/
def parseMembers : Nat → JSString → Props → Option (Props × JSString)
  | 0, _, _ => none
  | fuel + 1, s, acc =>
    match s with
    | [] => none
    | q :: r0 =>
      if q = 34 then
        match parseStringBody r0 with
        | none => none
        | some (k, r1) =>
          match skipWs r1 with
          | [] => none
          | col :: r2 =>
            if col = 58 then
              match parseValue fuel (skipWs r2) with
              | none => none
              | some (v, r3) =>
                match skipWs r3 with
                | [] => none
                | d :: r4 =>
                  if d = 44 then parseMembers fuel (skipWs r4) (Props.set k v acc)
                  else if d = 125 then some (Props.set k v acc, r4)
                  else none
            else none
      else none

end

/-- `JSON.parse(text)`: the value written by the whole text, or a `SyntaxError`
(whose message is engine-specific). Every nested call of the parser consumes
input first, so the bound `2 * length + 2` is never reached on a text that is JSON. -/
def jsonParse (text : JSString) : Except JsError JValue :=
  match parseValue (2 * text.length + 2) (skipWs text) with
  | some (v, r) =>
    if (skipWs r).isEmpty then Except.ok v
    else Except.error ⟨utf16 "Unexpected non-whitespace character after JSON"⟩
  | none => Except.error ⟨utf16 "Unexpected token in JSON"⟩

/-! ## Helpers of the standard library used by the facade -/

/-- A template literal's rendering of a variable that is either unassigned
(`undefined`) or holds a string. -/
def templateText : Option JSString → JSString
  | some s => s
  | none => utf16 "undefined"

/-- `Array.prototype.join` on an array of strings. -/
def joinWith (sep : JSString) : List JSString → JSString
  | [] => []
  | [x] => x
  | x :: y :: rest => x ++ sep ++ joinWith sep (y :: rest)

/-- `String.prototype.substring(start, end)` for non-negative integer arguments. -/
def substring (a b : Nat) (s : JSString) : JSString :=
  (s.take (max a b)).drop (min a b)

/-- `String.prototype.split` on a one-character separator. -/
def splitOn (sep : Nat) : JSString → List JSString
  | [] => [[]]
  | c :: s =>
    if c = sep then [] :: splitOn sep s
    else
      match splitOn sep s with
      | [] => [[c]]
      | h :: t => (c :: h) :: t

/-- `f` applied to each element together with its index, counting from `i`. -/
def mapFrom {α β : Type} (f : Nat → α → β) : Nat → List α → List β
  | _, [] => []
  | i, x :: xs => f i x :: mapFrom f (i + 1) xs

/-- The same with a callback that can throw: the first error ends the iteration. -/
def mapFromE {α β : Type} (f : Nat → α → Except JsError β) : Nat → List α → Except JsError (List β)
  | _, [] => Except.ok []
  | i, x :: xs =>
    match f i x with
    | Except.error e => Except.error e
    | Except.ok y =>
      match mapFromE f (i + 1) xs with
      | Except.error e => Except.error e
      | Except.ok ys => Except.ok (y :: ys)

/-- The key of array index `i`. -/
def indexKey (i : Nat) : JSString :=
  utf16 (toString i)

/-- The own enumerable string-keyed properties of a value, in enumeration order:
what object spread `{...v}` reads. `null`, `undefined`, numbers and booleans have
none; an array or a string has its indices. -/
def JValue.ownProps : JValue → Props
  | JValue.obj ps => ps.map fun kv => (kv.1, Props.get kv.1 ps)
  | JValue.arr vs => mapFrom (fun i v => (indexKey i, v)) 0 vs
  | JValue.str s => mapFrom (fun i c => (indexKey i, JValue.str [c])) 0 s
  | _ => []

/-- `CopyDataProperties`: the object spread `...v` into the object literal whose
properties so far are `target`. -/
def spreadInto (target : Props) (v : JValue) : Props :=
  v.ownProps.foldl (fun acc kv => Props.set kv.1 kv.2 acc) target

/-- Property access `v.k` where `k` is neither `length` nor an index: a `TypeError`
on `null` and `undefined`, the own property on an object, `undefined` otherwise. -/
def JValue.getProp (v : JValue) (k : JSString) : Except JsError JValue :=
  match v with
  | JValue.undef => Except.error ⟨utf16 "Cannot read properties of undefined"⟩
  | JValue.null => Except.error ⟨utf16 "Cannot read properties of null"⟩
  | JValue.obj ps => Except.ok (Props.get k ps)
  | _ => Except.ok JValue.undef

/-- A string value written by a literal. -/
def jstr (s : String) : JValue := JValue.str (utf16 s)

/-- An integer number value. -/
def jnum (n : Int) : JValue := JValue.num n 0

/-! ## Prompt Builder -/

/-- The prompt of `checkGrammarAdvanced` (the template literal at lines 92-115). -/
def grammarPrompt (text level : JSString) (analysisDepth : Option JSString) : JSString :=
  utf16 "Perform a " ++
  level ++
  utf16 (" grammar and style analysis of the following text.\n" ++
    "    \n" ++
    "    ") ++
  templateText analysisDepth ++
  utf16 ("\n" ++
    "    \n" ++
    "    Text: \"") ++
  text ++
  utf16 ("\"\n" ++
    "    \n" ++
    "    Respond with ONLY a valid JSON object (no markdown formatting) in this exact format:\n" ++
    "    \x7b\n" ++
    "      \"overallScore\": 85,\n" ++
    "      \"issues\": [\n" ++
    "        \x7b\n" ++
    "          \"type\": \"Grammar\",\n" ++
    "          \"severity\": \"critical\",\n" ++
    "          \"originalText\": \"exact text with issue\",\n" ++
    "          \"description\": \"explanation of the issue\",\n" ++
    "          \"suggestion\": \"corrected version\"\n" ++
    "        \x7d\n" ++
    "      ],\n" ++
    "      \"readability\": \"Grade level or description\",\n" ++
    "      \"sentenceVariety\": \"Assessment of sentence structure variety\",\n" ++
    "      \"vocabularyLevel\": \"Assessment of vocabulary complexity\",\n" ++
    "      \"passiveVoiceUsage\": 15,\n" ++
    "      \"styleNotes\": \"Overall style assessment\"\n" ++
    "    \x7d")

/-- The prompt of `analyzeCharacter` (the template literal at lines 163-180). -/
def characterPrompt (text characterName : JSString) (analysisPrompt : Option JSString) : JSString :=
  utf16 "Analyze the character \"" ++
  characterName ++
  utf16 ("\" in the following text.\n" ++
    "    \n" ++
    "    Focus: ") ++
  templateText analysisPrompt ++
  utf16 ("\n" ++
    "    \n" ++
    "    Text: \"") ++
  text ++
  utf16 ("\"\n" ++
    "    \n" ++
    "    Respond with ONLY a valid JSON object (no markdown formatting) in this exact format:\n" ++
    "    \x7b\n" ++
    "      \"traits\": [\"trait1\", \"trait2\", \"trait3\"],\n" ++
    "      \"voiceTone\": \"description of speaking style\",\n" ++
    "      \"speechPattern\": \"characteristic speech patterns\",\n" ++
    "      \"vocabularyLevel\": \"assessment of vocabulary used\",\n" ++
    "      \"emotionalRange\": \"range of emotions displayed\",\n" ++
    "      \"developmentNotes\": \"character development observations\",\n" ++
    "      \"inconsistencies\": [\"issue1\", \"issue2\"],\n" ++
    "      \"strengths\": [\"strength1\", \"strength2\"],\n" ++
    "      \"improvementAreas\": [\"area1\", \"area2\"]\n" ++
    "    \x7d")

/-- The prompt of `generateCharacterSuggestions` (the template literal at lines 211-224). -/
def characterSuggestionsPrompt (characterName : JSString) (traits : List JSString) (focusArea : JSString) : JSString :=
  utf16 "Generate creative enhancement suggestions for the character \"" ++
  characterName ++
  utf16 "\" with traits: " ++
  joinWith (utf16 ", ") traits ++
  utf16 (".\n" ++
    "    \n" ++
    "    Focus area: ") ++
  focusArea ++
  utf16 ("\n" ++
    "    \n" ++
    "    Provide practical, creative suggestions for character development.\n" ++
    "    \n" ++
    "    Respond with ONLY a valid JSON array (no markdown formatting) in this exact format:\n" ++
    "    [\n" ++
    "      \x7b\n" ++
    "        \"category\": \"Dialogue\",\n" ++
    "        \"description\": \"detailed suggestion\",\n" ++
    "        \"example\": \"example implementation\"\n" ++
    "      \x7d\n" ++
    "    ]")

/-- The prompt of `analyzePlotStructure` (the template literal at lines 275-301). -/
def plotPrompt (text structureGuide : JSString) : JSString :=
  utf16 "Analyze the plot structure of the following story using " ++
  structureGuide ++
  utf16 (".\n" ++
    "    \n" ++
    "    Text: \"") ++
  text ++
  utf16 ("\"\n" ++
    "    \n" ++
    "    Respond with ONLY a valid JSON object (no markdown formatting) in this exact format:\n" ++
    "    \x7b\n" ++
    "      \"overallScore\": 85,\n" ++
    "      \"stages\": [\n" ++
    "        \x7b\n" ++
    "          \"name\": \"stage name\",\n" ++
    "          \"completion\": 80,\n" ++
    "          \"description\": \"assessment of this stage\",\n" ++
    "          \"suggestions\": [\"improvement1\", \"improvement2\"]\n" ++
    "        \x7d\n" ++
    "      ],\n" ++
    "      \"pacing\": \"assessment of story pacing\",\n" ++
    "      \"conflict\": \"analysis of conflict development\",\n" ++
    "      \"characterArc\": \"character development assessment\",\n" ++
    "      \"themeDevelopment\": \"theme analysis\",\n" ++
    "      \"recommendations\": [\n" ++
    "        \x7b\n" ++
    "          \"priority\": \"high\",\n" ++
    "          \"title\": \"recommendation title\",\n" ++
    "          \"description\": \"detailed recommendation\"\n" ++
    "        \x7d\n" ++
    "      ]\n" ++
    "    \x7d")

/-- The prompt of `analyzeManuscript` (the template literal at lines 343-364). -/
def manuscriptPrompt (chaptersJson : JSString) : JSString :=
  utf16 ("Analyze this manuscript structure and provide insights:\n" ++
    "    \n" ++
    "    Chapters: ") ++
  chaptersJson ++
  utf16 ("\n" ++
    "    \n" ++
    "    Respond with ONLY a valid JSON object (no markdown formatting) in this exact format:\n" ++
    "    \x7b\n" ++
    "      \"overallProgress\": 65,\n" ++
    "      \"totalWordCount\": 50000,\n" ++
    "      \"averageChapterLength\": 2500,\n" ++
    "      \"paceAnalysis\": \"analysis of pacing across chapters\",\n" ++
    "      \"consistencyIssues\": [\"issue1\", \"issue2\"],\n" ++
    "      \"suggestions\": [\"suggestion1\", \"suggestion2\"],\n" ++
    "      \"readabilityScore\": 85,\n" ++
    "      \"chapterInsights\": [\n" ++
    "        \x7b\n" ++
    "          \"chapterNumber\": 1,\n" ++
    "          \"strengths\": [\"strength1\"],\n" ++
    "          \"improvements\": [\"improvement1\"],\n" ++
    "          \"paceRating\": \"good\"\n" ++
    "        \x7d\n" ++
    "      ]\n" ++
    "    \x7d")

/-- The prompt of `analyzeScene` (the template literal at lines 394-417). -/
def scenePrompt (sceneText sceneType : JSString) : JSString :=
  utf16 ("Analyze this scene for conflict, tension, and effectiveness:\n" ++
    "    \n" ++
    "    Scene Type: ") ++
  sceneType ++
  utf16 ("\n" ++
    "    Scene Text: \"") ++
  sceneText ++
  utf16 ("\"\n" ++
    "    \n" ++
    "    Respond with ONLY a valid JSON object (no markdown formatting) in this exact format:\n" ++
    "    \x7b\n" ++
    "      \"conflictLevel\": 85,\n" ++
    "      \"tensionRating\": 90,\n" ++
    "      \"paceRating\": 75,\n" ++
    "      \"dialogueQuality\": 80,\n" ++
    "      \"characterDevelopment\": 70,\n" ++
    "      \"conflictTypes\": [\"internal\", \"external\"],\n" ++
    "      \"tensionTechniques\": [\"technique1\", \"technique2\"],\n" ++
    "      \"strengths\": [\"strength1\", \"strength2\"],\n" ++
    "      \"improvements\": [\"improvement1\", \"improvement2\"],\n" ++
    "      \"suggestions\": [\n" ++
    "        \x7b\n" ++
    "          \"type\": \"Conflict\",\n" ++
    "          \"description\": \"suggestion description\",\n" ++
    "          \"example\": \"example implementation\"\n" ++
    "        \x7d\n" ++
    "      ]\n" ++
    "    \x7d")

/-- The prompt of `analyzeReadability` (the template literal at lines 455-476). -/
def readabilityPrompt (text targetAudience : JSString) : JSString :=
  utf16 "Analyze the readability of this text for target audience: " ++
  targetAudience ++
  utf16 ("\n" ++
    "    \n" ++
    "    Text: \"") ++
  text ++
  utf16 ("\"\n" ++
    "    \n" ++
    "    Respond with ONLY a valid JSON object (no markdown formatting) in this exact format:\n" ++
    "    \x7b\n" ++
    "      \"readabilityScore\": 85,\n" ++
    "      \"gradeLevel\": \"8th Grade\",\n" ++
    "      \"targetMatch\": true,\n" ++
    "      \"wordComplexity\": \"appropriate\",\n" ++
    "      \"sentenceLength\": \"good\",\n" ++
    "      \"vocabularyLevel\": \"suitable\",\n" ++
    "      \"improvements\": [\n" ++
    "        \x7b\n" ++
    "          \"issue\": \"issue description\",\n" ++
    "          \"suggestion\": \"how to fix\",\n" ++
    "          \"example\": \"example fix\"\n" ++
    "        \x7d\n" ++
    "      ],\n" ++
    "      \"strengths\": [\"strength1\", \"strength2\"],\n" ++
    "      \"optimizedVersion\": \"optimized text version\"\n" ++
    "    \x7d")

/-- The prompt of `analyzeTone` (the template literal at lines 597-608). -/
def tonePrompt (text : JSString) : JSString :=
  utf16 ("Analyze the tone of the following text.\n" ++
    "    \n" ++
    "    Text: \"") ++
  text ++
  utf16 ("\"\n" ++
    "    \n" ++
    "    Respond with ONLY a valid JSON object (no markdown formatting) in this exact format:\n" ++
    "    \x7b\n" ++
    "      \"overallTone\": \"description\",\n" ++
    "      \"sentiment\": \"positive\",\n" ++
    "      \"confidence\": \"high\",\n" ++
    "      \"emotions\": [\"emotion1\", \"emotion2\"],\n" ++
    "      \"suggestions\": \"improvement suggestions\"\n" ++
    "    \x7d")

/-- The prompt of `getSynonyms` (the template literal at lines 634-635). -/
def synonymsPrompt (word context : JSString) : JSString :=
  utf16 "Provide 8 synonyms for the word \"" ++
  word ++
  utf16 "\" in this context: \"" ++
  context ++
  utf16 ("\". \n" ++
    "    Return ONLY a JSON array of synonyms: [\"synonym1\", \"synonym2\", \"synonym3\", \"synonym4\", \"synonym5\", \"synonym6\", \"synonym7\", \"synonym8\"]")

/-- The prompt of `analyzeScriptBreakdown` (the template literal at lines 678-707). -/
def breakdownPrompt (scriptText : JSString) : JSString :=
  utf16 ("Analyze this screenplay and identify production elements in these categories:\n" ++
    "    - props: Physical items handled or seen\n" ++
    "    - wardrobe: Clothing items and accessories\n" ++
    "    - cast: Character names\n" ++
    "    - locations: All settings and locations\n" ++
    "    - sfx: Sound effects and audio elements\n" ++
    "    - vehicles: Cars, trucks, planes, etc.\n" ++
    "    - animals: Any animals mentioned\n" ++
    "    - stunts: Physical action sequences\n" ++
    "    - makeup: Special makeup requirements\n" ++
    "    - equipment: Special filmmaking equipment needed\n" ++
    "    - extras: Background performers needed\n" ++
    "    \n" ++
    "    Script:\n" ++
    "    \"") ++
  scriptText ++
  utf16 ("\"\n" ++
    "    \n" ++
    "    Respond with ONLY a valid JSON object (no markdown formatting) in this exact format:\n" ++
    "    \x7b\n" ++
    "      \"props\": [\"prop1\", \"prop2\"],\n" ++
    "      \"wardrobe\": [\"item1\", \"item2\"],\n" ++
    "      \"cast\": [\"character1\", \"character2\"],\n" ++
    "      \"locations\": [\"location1\", \"location2\"],\n" ++
    "      \"sfx\": [\"effect1\", \"effect2\"],\n" ++
    "      \"vehicles\": [\"vehicle1\", \"vehicle2\"],\n" ++
    "      \"animals\": [\"animal1\", \"animal2\"],\n" ++
    "      \"stunts\": [\"stunt1\", \"stunt2\"],\n" ++
    "      \"makeup\": [\"makeup1\", \"makeup2\"],\n" ++
    "      \"equipment\": [\"equipment1\", \"equipment2\"],\n" ++
    "      \"extras\": [\"extra1\", \"extra2\"]\n" ++
    "    \x7d")

/-- The prompt of `generateShotList` (the template literal at lines 740-773). -/
def shotListPrompt (scriptText : JSString) : JSString :=
  utf16 ("Based on this screenplay, create a detailed shot list with appropriate camera setups.\n" ++
    "    For each key moment in the script, suggest a specific shot with these technical details:\n" ++
    "    - scene number\n" ++
    "    - shot number\n" ++
    "    - shot description\n" ++
    "    - shot type (CU, MS, WS, etc.)\n" ++
    "    - camera angle\n" ++
    "    - camera movement\n" ++
    "    - equipment needed\n" ++
    "    - lens recommendation\n" ++
    "    - estimated duration\n" ++
    "    - frame rate\n" ++
    "  \n" ++
    "    Script:\n" ++
    "    \"") ++
  substring 0 15000 scriptText ++
  utf16 ("\"\n" ++
    "  \n" ++
    "    Generate at least 5 shots for this scene.\n" ++
    "    Respond with ONLY a valid JSON array (no markdown formatting) in this exact format:\n" ++
    "    [\n" ++
    "      \x7b\n" ++
    "        \"scene\": \"1\",\n" ++
    "        \"shotNumber\": \"1\",\n" ++
    "        \"description\": \"Description of the shot content\",\n" ++
    "        \"type\": \"MS\",\n" ++
    "        \"angle\": \"Eye Level\",\n" ++
    "        \"movement\": \"Static\",\n" ++
    "        \"equipment\": \"Tripod\",\n" ++
    "        \"lens\": \"50mm\",\n" ++
    "        \"framing\": \"Medium\",\n" ++
    "        \"notes\": \"Additional technical notes\",\n" ++
    "        \"duration\": \"5s\",\n" ++
    "        \"frameRate\": \"24 fps\"\n" ++
    "      \x7d\n" ++
    "    ]")

/-- The part of the template of `generateShotList` before the embedded script. -/
def shotListPromptHead : JSString :=
  utf16 ("Based on this screenplay, create a detailed shot list with appropriate camera setups.\n" ++
    "    For each key moment in the script, suggest a specific shot with these technical details:\n" ++
    "    - scene number\n" ++
    "    - shot number\n" ++
    "    - shot description\n" ++
    "    - shot type (CU, MS, WS, etc.)\n" ++
    "    - camera angle\n" ++
    "    - camera movement\n" ++
    "    - equipment needed\n" ++
    "    - lens recommendation\n" ++
    "    - estimated duration\n" ++
    "    - frame rate\n" ++
    "  \n" ++
    "    Script:\n" ++
    "    \"")

/-- The part of the template of `generateShotList` after the embedded script. -/
def shotListPromptTail : JSString :=
  utf16 ("\"\n" ++
    "  \n" ++
    "    Generate at least 5 shots for this scene.\n" ++
    "    Respond with ONLY a valid JSON array (no markdown formatting) in this exact format:\n" ++
    "    [\n" ++
    "      \x7b\n" ++
    "        \"scene\": \"1\",\n" ++
    "        \"shotNumber\": \"1\",\n" ++
    "        \"description\": \"Description of the shot content\",\n" ++
    "        \"type\": \"MS\",\n" ++
    "        \"angle\": \"Eye Level\",\n" ++
    "        \"movement\": \"Static\",\n" ++
    "        \"equipment\": \"Tripod\",\n" ++
    "        \"lens\": \"50mm\",\n" ++
    "        \"framing\": \"Medium\",\n" ++
    "        \"notes\": \"Additional technical notes\",\n" ++
    "        \"duration\": \"5s\",\n" ++
    "        \"frameRate\": \"24 fps\"\n" ++
    "      \x7d\n" ++
    "    ]")

/-! ## GeminiService -/

/-- Helper function to clean and parse AI responses (lines 13-28). -/
def cleanAndParseResponse (responseText : JSString) : Except JsError JValue :=
  let cleanText := removeMatches reFence (removeMatches reFenceJson responseText)
  match regexMatch reObject cleanText with
  | some jsonMatch =>
    match jsonParse jsonMatch with
    | Except.ok v => Except.ok v
    | Except.error _ => Except.ok JValue.null
  | none => Except.ok JValue.null

/-- The configured client `this.genAI`, as the one thing the facade does with it:
`getGenerativeModel`, `generateContent(prompt)`, `await result.response` and
`response.text()`, giving the response text or throwing. -/
abbrev GenAI := JSString → Except JsError JSString

/-- The service object: `genAI` is `null` until `setApiKey` is called. -/
structure GeminiService where
  genAI : Option GenAI

/-- The constructor (lines 4-6). -/
def GeminiService.new : GeminiService := ⟨none⟩

/-- What one call of a facade method does: the value its promise resolves to, or the
error it rejects with, and the prompts it sent upstream, in order. -/
structure Outcome where
  result : Except JsError JValue
  calls : List JSString

/-- The call resolved to an envelope whose `success` is `true`. -/
def Outcome.success (o : Outcome) : Bool :=
  match o.result with
  | Except.ok v =>
    match v.getProp (utf16 "success") with
    | Except.ok (JValue.bool true) => true
    | _ => false
  | Except.error _ => false

/-- The call failed with a configuration error before anything was sent upstream: the
message of the error begins `API key not set` and no prompt was issued. -/
def Outcome.missingKey (o : Outcome) : Bool :=
  match o.result with
  | Except.error e => (utf16 "API key not set").isPrefixOf e.message && o.calls.isEmpty
  | Except.ok _ => false

/-- The call issued exactly the one upstream request `prompt` and failed with the
message `message`. -/
def Outcome.failedOnce (o : Outcome) (prompt message : JSString) : Prop :=
  o.result = Except.error ⟨message⟩ ∧ o.calls = [prompt]

/-- The frame every facade method shares: the credential check, then inside `try`
the upstream call followed by the method's own handling `k` of the response text;
an error thrown inside `try` is rethrown as `new Error(failure + error.message)`. -/
def GeminiService.request (svc : GeminiService) (failure prompt : JSString)
    (k : JSString → Except JsError JValue) : Outcome :=
  match svc.genAI with
  | none => ⟨Except.error ⟨utf16 "API key not set"⟩, []⟩
  | some generate =>
    ⟨match generate prompt with
      | Except.error e => Except.error ⟨failure ++ e.message⟩
      | Except.ok responseText =>
        match k responseText with
        | Except.error e => Except.error ⟨failure ++ e.message⟩
        | Except.ok v => Except.ok v,
     [prompt]⟩

/-- The envelope `{ success: true, <key>: payload }`. -/
def envelope (key : String) (payload : JValue) : JValue :=
  JValue.obj [(utf16 "success", JValue.bool true), (utf16 key, payload)]

/-- The handling shared by the object-shaped tasks:
`const analysis = this.cleanAndParseResponse(response.text()) || fallback;
return { success: true, analysis }`. -/
def analysisOr (fallback : JValue) (responseText : JSString) : Except JsError JValue :=
  match cleanAndParseResponse responseText with
  | Except.error e => Except.error e
  | Except.ok parsed => Except.ok (envelope "analysis" (parsed.or fallback))


/-- An object literal with the given keys and values. -/
def jobj (l : List (String × JValue)) : JValue :=
  JValue.obj (l.map fun kv => (utf16 kv.1, kv.2))

/-- An array literal of strings. -/
def jstrs (l : List String) : JValue :=
  JValue.arr (l.map jstr)

/-- The `switch (level)` of `checkGrammarAdvanced` (lines 76-90): `analysisDepth`
stays unassigned when no case matches. -/
def grammarDepth (level : JSString) : Option JSString :=
  if level = utf16 "basic" then
    some (utf16 "Focus only on grammar errors and basic punctuation")
  else if level = utf16 "standard" then
    some (utf16 "Check grammar, punctuation, style, and clarity issues")
  else if level = utf16 "comprehensive" then
    some (utf16 "Comprehensive analysis including grammar, style, flow, consistency, and literary quality")
  else if level = utf16 "literary" then
    some (utf16 "Literary analysis focusing on creative writing, narrative voice, character consistency, and artistic expression")
  else none

/-- The fallback of `checkGrammarAdvanced` (lines 122-130). -/
def grammarDefault : JValue :=
  jobj [("overallScore", jnum 75), ("issues", JValue.arr []),
    ("readability", jstr "Analysis completed successfully"),
    ("sentenceVariety", jstr "Standard variety observed"),
    ("vocabularyLevel", jstr "Appropriate for intended audience"),
    ("passiveVoiceUsage", jnum 0),
    ("styleNotes", jstr "Text analyzed for style and structure")]

/-- Advanced grammar and style checking (lines 71-136). -/
def checkGrammarAdvanced (svc : GeminiService) (text level : JSString) : Outcome :=
  svc.request (utf16 "Grammar check failed: ")
    (grammarPrompt text level (grammarDepth level)) (analysisOr grammarDefault)

/-- The `switch (analysisType)` of `analyzeCharacter` (lines 144-161). -/
def characterFocus (analysisType : JSString) : Option JSString :=
  if analysisType = utf16 "voice" then
    some (utf16 "Analyze the character\x27s unique voice, speech patterns, vocabulary, and dialogue style")
  else if analysisType = utf16 "development" then
    some (utf16 "Analyze character development, growth, motivations, and character arc")
  else if analysisType = utf16 "consistency" then
    some (utf16 "Check for consistency in character behavior, voice, and personality traits")
  else if analysisType = utf16 "dialogue" then
    some (utf16 "Focus on dialogue quality, authenticity, and character-specific speech patterns")
  else if analysisType = utf16 "backstory" then
    some (utf16 "Analyze implied backstory and suggest areas for character depth")
  else none

/-- The fallback of `analyzeCharacter` (lines 187-197). -/
def characterDefault : JValue :=
  jobj [("traits", jstrs ["Character analyzed"]),
    ("voiceTone", jstr "Analysis completed successfully"),
    ("speechPattern", jstr "Patterns identified"),
    ("vocabularyLevel", jstr "Appropriate level"),
    ("emotionalRange", jstr "Emotions observed"),
    ("developmentNotes", jstr "Character development noted"),
    ("inconsistencies", JValue.arr []),
    ("strengths", jstrs ["Character strengths identified"]),
    ("improvementAreas", jstrs ["Areas for development noted"])]

/-- Character analysis and development (lines 139-203). -/
def analyzeCharacter (svc : GeminiService) (text characterName analysisType : JSString) :
    Outcome :=
  svc.request (utf16 "Character analysis failed: ")
    (characterPrompt text characterName (characterFocus analysisType))
    (analysisOr characterDefault)

/-- The fallback of `generateCharacterSuggestions` (lines 233-239). -/
def suggestionsDefault : JValue :=
  JValue.arr [jobj [("category", jstr "General Development"),
    ("description", jstr "Character enhancement suggestions generated"),
    ("example", jstr "See detailed analysis for specific recommendations")]]

/-- The handling of the response in `generateCharacterSuggestions` (lines 231-242). -/
def suggestionsFromResponse (responseText : JSString) : Except JsError JValue :=
  match cleanAndParseResponse responseText with
  | Except.error e => Except.error e
  | Except.ok suggestions =>
    Except.ok (envelope "suggestions"
      (if !suggestions.isArray then suggestionsDefault else suggestions))

/-- Generate character enhancement suggestions (lines 206-246). -/
def generateCharacterSuggestions (svc : GeminiService) (characterName : JSString)
    (traits : List JSString) (focusArea : JSString) : Outcome :=
  svc.request (utf16 "Character suggestions failed: ")
    (characterSuggestionsPrompt characterName traits focusArea) suggestionsFromResponse

/-- The `switch (plotType)` of `analyzePlotStructure` (lines 254-273). -/
def plotGuide (plotType : JSString) : JSString :=
  if plotType = utf16 "three-act" then
    utf16 "Three-Act Structure: Setup (25%), Confrontation (50%), Resolution (25%)"
  else if plotType = utf16 "heros-journey" then
    utf16 "Hero\x27s Journey: Ordinary World, Call to Adventure, Refusal, Meeting Mentor, Crossing Threshold, Tests, Ordeal, Reward, Road Back, Resurrection, Return"
  else if plotType = utf16 "seven-point" then
    utf16 "Seven-Point Structure: Hook, Plot Turn 1, Pinch Point 1, Midpoint, Pinch Point 2, Plot Turn 2, Resolution"
  else if plotType = utf16 "freytag" then
    utf16 "Freytag\x27s Pyramid: Exposition, Rising Action, Climax, Falling Action, Denouement"
  else if plotType = utf16 "fichtean" then
    utf16 "Fichtean Curve: Series of crises building to climax"
  else utf16 "Custom analysis of narrative structure"

/-- The fallback of `analyzePlotStructure` (lines 308-329). -/
def plotDefault : JValue :=
  jobj [("overallScore", jnum 75),
    ("stages", JValue.arr [jobj [("name", jstr "Structure Analysis"), ("completion", jnum 75),
      ("description", jstr "Plot structure analyzed successfully"),
      ("suggestions", jstrs ["Continue developing your story structure"])]]),
    ("pacing", jstr "Pacing analysis completed"),
    ("conflict", jstr "Conflict development noted"),
    ("characterArc", jstr "Character development observed"),
    ("themeDevelopment", jstr "Themes identified"),
    ("recommendations", JValue.arr [jobj [("priority", jstr "medium"),
      ("title", jstr "General Development"),
      ("description", jstr "Continue refining your plot structure")]])]

/-- Plot structure analysis (lines 249-335). -/
def analyzePlotStructure (svc : GeminiService) (text plotType : JSString) : Outcome :=
  svc.request (utf16 "Plot analysis failed: ") (plotPrompt text (plotGuide plotType))
    (analysisOr plotDefault)

/-- The fallback of `analyzeManuscript` (lines 371-380). -/
def manuscriptDefault : JValue :=
  jobj [("overallProgress", jnum 0), ("totalWordCount", jnum 0),
    ("averageChapterLength", jnum 0), ("paceAnalysis", jstr "Analysis in progress"),
    ("consistencyIssues", JValue.arr []),
    ("suggestions", jstrs ["Continue writing your manuscript"]),
    ("readabilityScore", jnum 75), ("chapterInsights", JValue.arr [])]

/-- Manuscript Manager (lines 338-386). The argument is the text
`JSON.stringify(chapters)` that the prompt embeds. -/
def analyzeManuscript (svc : GeminiService) (chaptersJson : JSString) : Outcome :=
  svc.request (utf16 "Manuscript analysis failed: ") (manuscriptPrompt chaptersJson)
    (analysisOr manuscriptDefault)

/-- The fallback of `analyzeScene` (lines 424-441). -/
def sceneDefault : JValue :=
  jobj [("conflictLevel", jnum 50), ("tensionRating", jnum 50), ("paceRating", jnum 50),
    ("dialogueQuality", jnum 50), ("characterDevelopment", jnum 50),
    ("conflictTypes", jstrs ["general"]), ("tensionTechniques", jstrs ["basic tension"]),
    ("strengths", jstrs ["Scene analyzed"]), ("improvements", jstrs ["Continue developing"]),
    ("suggestions", JValue.arr [jobj [("type", jstr "General"),
      ("description", jstr "Scene analysis completed"),
      ("example", jstr "Continue refining your scene")]])]

/-- Scene Builder (lines 389-447). -/
def analyzeScene (svc : GeminiService) (sceneText sceneType : JSString) : Outcome :=
  svc.request (utf16 "Scene analysis failed: ") (scenePrompt sceneText sceneType)
    (analysisOr sceneDefault)

/-- The fallback of `analyzeReadability` (lines 483-499). -/
def readabilityDefault (text : JSString) : JValue :=
  jobj [("readabilityScore", jnum 75), ("gradeLevel", jstr "General Adult"),
    ("targetMatch", JValue.bool true), ("wordComplexity", jstr "appropriate"),
    ("sentenceLength", jstr "good"), ("vocabularyLevel", jstr "suitable"),
    ("improvements", JValue.arr [jobj [("issue", jstr "Analysis completed"),
      ("suggestion", jstr "Continue refining text"),
      ("example", jstr "Keep developing your writing")]]),
    ("strengths", jstrs ["Text analyzed successfully"]),
    ("optimizedVersion", JValue.str text)]

/-- Readability Optimizer (lines 450-505). -/
def analyzeReadability (svc : GeminiService) (text targetAudience : JSString) : Outcome :=
  svc.request (utf16 "Readability analysis failed: ") (readabilityPrompt text targetAudience)
    (analysisOr (readabilityDefault text))

/-- The fallback of `analyzeTone` (lines 615-621). -/
def toneDefault : JValue :=
  jobj [("overallTone", jstr "Neutral tone detected"), ("sentiment", jstr "neutral"),
    ("confidence", jstr "medium"), ("emotions", jstrs ["general"]),
    ("suggestions", jstr "Tone analysis completed successfully")]

/-- Tone analysis (lines 592-627). -/
def analyzeTone (svc : GeminiService) (text : JSString) : Outcome :=
  svc.request (utf16 "Tone analysis failed: ") (tonePrompt text) (analysisOr toneDefault)

/-- The pattern `/['"]/g`. -/
def reQuote : Regex :=
  [RegexItem.cls fun c => c == 39 || c == 34]

/-- The handling of the response in `getSynonyms` (lines 642-647). -/
def synonymsFromResponse (responseText : JSString) : Except JsError JValue :=
  match cleanAndParseResponse responseText with
  | Except.error e => Except.error e
  | Except.ok synonyms =>
    Except.ok (envelope "synonyms"
      (if !synonyms.isArray then
        JValue.arr ((((splitOn 44 responseText).map fun s =>
          JValue.str (removeMatches reQuote (trim s))).take 8))
      else synonyms))

/-- Synonyms of a word in context (lines 629-651). -/
def getSynonyms (svc : GeminiService) (word context : JSString) : Outcome :=
  svc.request (utf16 "Synonyms failed: ") (synonymsPrompt word context) synonymsFromResponse

/-- The eleven breakdown categories, in the order of the source. -/
def breakdownCategories : List String :=
  ["props", "wardrobe", "cast", "locations", "sfx", "vehicles", "animals", "stunts",
   "makeup", "equipment", "extras"]

/-- The fallback of `analyzeScriptBreakdown` (lines 714-726). -/
def breakdownDefault : JValue :=
  jobj [("props", JValue.arr []), ("wardrobe", JValue.arr []), ("cast", JValue.arr []),
    ("locations", JValue.arr []), ("sfx", JValue.arr []), ("vehicles", JValue.arr []),
    ("animals", JValue.arr []), ("stunts", JValue.arr []), ("makeup", JValue.arr []),
    ("equipment", JValue.arr []), ("extras", JValue.arr [])]

/-- The shape the breakdown analysis is expected to have: each of the eleven
category keys is present and holds an array. -/
def breakdownShape (analysis : JValue) : Bool :=
  breakdownCategories.all fun c =>
    match analysis.getProp (utf16 c) with
    | Except.ok v => v.isArray
    | Except.error _ => false

/-- Script Breakdown Analysis (lines 673-732). -/
def analyzeScriptBreakdown (svc : GeminiService) (scriptText : JSString) : Outcome :=
  svc.request (utf16 "Script breakdown failed: ") (breakdownPrompt scriptText)
    (analysisOr breakdownDefault)

/-- The platform's clock and random source as read by the callback of an
`Array.prototype.map`: at index `i`, `Date.now()` gives `now i`,
`Math.floor(Math.random() * 1000)` gives `rand1000 i` and
`Math.floor(Math.random() * 10000)` gives `rand10000 i`. -/
structure Platform where
  now : Nat → Nat
  rand1000 : Nat → Fin 1000
  rand10000 : Nat → Fin 10000

/-- The object literal of lines 804-817 before the spread: the generated id and
the twelve defaults. -/
def shotDefaults (id : JValue) : Props :=
  [(utf16 "id", id), (utf16 "scene", jstr "1"), (utf16 "shotNumber", jstr "1"),
   (utf16 "description", jstr "Shot description"), (utf16 "type", jstr "MS"),
   (utf16 "angle", jstr "Eye Level"), (utf16 "movement", jstr "Static"),
   (utf16 "equipment", jstr "Tripod"), (utf16 "lens", jstr "50mm"),
   (utf16 "framing", jstr "Medium"), (utf16 "notes", jstr ""),
   (utf16 "duration", jstr "5s"), (utf16 "frameRate", jstr "24 fps")]

/-- The thirteen fields of a ShotRecord. -/
def shotFields : List String :=
  ["id", "scene", "shotNumber", "description", "type", "angle", "movement", "equipment",
   "lens", "framing", "notes", "duration", "frameRate"]

/-- The documented defaults of the twelve fields of a ShotRecord other than the
identifier, as the specification lists them. -/
def shotFieldDefaults : List (String × String) :=
  [("scene", "1"), ("shotNumber", "1"), ("description", "Shot description"), ("type", "MS"),
   ("angle", "Eye Level"), ("movement", "Static"), ("equipment", "Tripod"), ("lens", "50mm"),
   ("framing", "Medium"), ("notes", ""), ("duration", "5s"), ("frameRate", "24 fps")]

/-- The callback of `shots.map` (lines 804-819) at index `i`. -/
def ingestShot (p : Platform) (i : Nat) (shot : JValue) : JValue :=
  JValue.obj (spreadInto (shotDefaults (jnum ((p.now i + (p.rand1000 i).val : Nat) : Int))) shot)

/-- Shot Ingestion, `shots.map(shot => ...)` (lines 804-819): a `TypeError` when
`shots` is not an array. -/
def ingestShots (p : Platform) (shots : JValue) : Except JsError JValue :=
  match shots with
  | JValue.arr items => Except.ok (JValue.arr (mapFrom (ingestShot p) 0 items))
  | _ => Except.error ⟨utf16 "shots.map is not a function"⟩

/-- The array recovery of lines 786-801: kept when `shots` is an array, else the
raw response is searched for an array literal, and `[]` is used when there is none
or it does not parse. -/
def recoverShots (shots : JValue) (responseText : JSString) : JValue :=
  if !shots.isArray then
    match regexMatch reArray responseText with
    | some jsonArrayMatch =>
      match jsonParse jsonArrayMatch with
      | Except.ok v => v
      | Except.error _ => JValue.arr []
    | none => JValue.arr []
  else shots

/-- The handling of the response in `generateShotList` (lines 779-821). -/
def shotListFromResponse (p : Platform) (responseText : JSString) : Except JsError JValue :=
  match cleanAndParseResponse responseText with
  | Except.error e => Except.error e
  | Except.ok shots =>
    match ingestShots p (recoverShots shots responseText) with
    | Except.error e => Except.error e
    | Except.ok shots' => Except.ok (envelope "shots" shots')

/-- Generate Shot List (lines 735-826). -/
def generateShotList (svc : GeminiService) (p : Platform) (scriptText : JSString) : Outcome :=
  svc.request (utf16 "Shot list generation failed: ") (shotListPrompt scriptText)
    (shotListFromResponse p)

/-! ## ShotListManager -/

/-- The state of the `ShotListManager` component (lines 7-31). -/
structure ShotListState where
  script : JSString
  shots : List JValue
  currentScene : JSString
  currentShot : JValue
  showShotEditor : Bool
  editingShotId : JValue
  activeTab : JSString
  loading : Bool
  selectedScriptSegment : JSString
  scriptSelection : Nat × Nat
  error : JSString

/-- The message set when the service returns no shots (line 169). -/
def msgNoShots : JSString :=
  utf16 "AI could not generate any shots from this script. Try adding more descriptive scene content."

/-- The message set when the envelope is not of the expected form (line 182). -/
def msgInvalidFormat : JSString :=
  utf16 "Received invalid response format from AI service. Please try again."

/-- The callback of `response.shots.map` (lines 172-176) at index `i`. -/
def processShot (ui : Platform) (currentScene : JSString) (i : Nat) (shot : JValue) :
    Except JsError JValue :=
  match shot.getProp (utf16 "scene") with
  | Except.error e => Except.error e
  | Except.ok scene =>
    match shot.getProp (utf16 "id") with
    | Except.error e => Except.error e
    | Except.ok id =>
      Except.ok (JValue.obj
        (Props.set (utf16 "id")
          (if id.truthy then id else jnum ((ui.now i + (ui.rand10000 i).val : Nat) : Int))
          (Props.set (utf16 "scene") (scene.or (JValue.str currentScene))
            (spreadInto [] shot))))

/-- The body of the `try` block of `runAiShotSuggestions` (lines 164-183), from the
state `st` in which `loading` and `error` have been set. -/
def handleShotListResponse (ui : Platform) (st : ShotListState) (response : JValue) :
    Except JsError ShotListState :=
  match response.getProp (utf16 "success") with
  | Except.error e => Except.error e
  | Except.ok success =>
    if !success.truthy then Except.ok { st with error := msgInvalidFormat }
    else
      match response.getProp (utf16 "shots") with
      | Except.error e => Except.error e
      | Except.ok shots =>
        match shots with
        | JValue.arr items =>
          if items.length = 0 then Except.ok { st with error := msgNoShots }
          else
            match mapFromE (processShot ui st.currentScene) 0 items with
            | Except.error e => Except.error e
            | Except.ok processedShots =>
              Except.ok { st with shots := st.shots ++ processedShots,
                                  activeTab := utf16 "shot-list" }
        | _ => Except.ok { st with error := msgInvalidFormat }

/-- The handler `runAiShotSuggestions` (lines 157-190): the state after all of its
updates have been applied. `api` is the platform as read by the service, `ui` as
read by this handler. -/
def runAiShotSuggestions (svc : GeminiService) (api ui : Platform) (st : ShotListState) :
    ShotListState :=
  if (trim st.script).isEmpty then st
  else
    let st1 := { st with loading := true, error := [] }
    let st2 :=
      match (generateShotList svc api st.script).result with
      | Except.error e =>
        { st1 with error := utf16 "Shot list generation failed: " ++ e.message }
      | Except.ok response =>
        match handleShotListResponse ui st1 response with
        | Except.error e =>
          { st1 with error := utf16 "Shot list generation failed: " ++ e.message }
        | Except.ok st' => st'
    { st2 with loading := false }

/-! ## GeminiService: the plain-text methods -/

/-- The `options` argument of `advancedParaphrase`, each field as the template literal
renders it. -/
structure ParaphraseOptions where
  mode : JSString
  writingStyle : JSString
  targetAudience : JSString
  preserveDialogue : JSString

/-- The prompt of `advancedParaphrase` (the template literal at lines 38-52). -/
def advancedParaphrasePrompt (text : JSString) (options : ParaphraseOptions) : JSString :=
  utf16 ("Transform the following text with these specifications:\n" ++
    "    - Literary Mode: ") ++
  options.mode ++
  utf16 ("\n" ++
    "    - Writing Style: ") ++
  options.writingStyle ++
  utf16 ("\n" ++
    "    - Target Audience: ") ++
  options.targetAudience ++
  utf16 ("\n" ++
    "    - Preserve Dialogue: ") ++
  options.preserveDialogue ++
  utf16 ("\n" ++
    "    \n" ++
    "    Focus on:\n" ++
    "    1. Enhancing literary quality while maintaining meaning\n" ++
    "    2. Improving sentence variety and flow\n" ++
    "    3. Elevating vocabulary appropriately\n" ++
    "    4. Maintaining character voice consistency\n" ++
    "    \n" ++
    "    Text: \"") ++
  text ++
  utf16 ("\"\n" ++
    "    \n" ++
    "    Provide ONLY the refined version without any explanations or formatting.")

/-- The prompt of `humanizeText` (the template literal at lines 658-660). -/
def humanizePrompt (text : JSString) : JSString :=
  utf16 ("Make the following AI-generated text sound more natural and human-written. Provide ONLY the humanized version without explanations:\n" ++
    "    \n" ++
    "    Text: \"") ++
  text ++
  utf16 "\""

/-- The `switch (mode)` of `paraphraseText` that builds its prompt (lines 508-540). -/
def paraphrasePrompt (text mode customPrompt : JSString) : JSString :=
  if mode = utf16 "Formal" then
    utf16 "Rewrite the following text in a formal, professional tone while maintaining the original meaning. Provide ONLY the rewritten text without explanations: \"" ++
    text ++
    utf16 "\""
  else if mode = utf16 "Academic" then
    utf16 "Rewrite the following text in an academic, scholarly style with appropriate terminology. Provide ONLY the rewritten text: \"" ++
    text ++
    utf16 "\""
  else if mode = utf16 "Simple" then
    utf16 "Simplify the following text to make it easier to read and understand. Provide ONLY the simplified text: \"" ++
    text ++
    utf16 "\""
  else if mode = utf16 "Creative" then
    utf16 "Creatively rewrite the following text with fresh, original phrasing and style. Provide ONLY the creative version: \"" ++
    text ++
    utf16 "\""
  else if mode = utf16 "Shorten" then
    utf16 "Condense the following text while retaining all main points. Provide ONLY the shortened text: \"" ++
    text ++
    utf16 "\""
  else if mode = utf16 "Expand" then
    utf16 "Expand the following text by adding more detail and elaboration. Provide ONLY the expanded text: \"" ++
    text ++
    utf16 "\""
  else if mode = utf16 "Custom" then
    customPrompt ++
    utf16 ". Provide ONLY the result: \"" ++
    text ++
    utf16 "\""
  else
    utf16 "Paraphrase the following text. Provide ONLY the paraphrased version: \"" ++
    text ++
    utf16 "\""

/-- The `switch (length)` of `summarizeText` that builds its prompt (lines 557-574). -/
def summarizePrompt (text length : JSString) : JSString :=
  if length = utf16 "short" then
    utf16 "Provide a brief summary (2-3 sentences) of the following text. Provide ONLY the summary: \"" ++
    text ++
    utf16 "\""
  else if length = utf16 "long" then
    utf16 "Provide a detailed summary with key points and supporting details. Provide ONLY the summary: \"" ++
    text ++
    utf16 "\""
  else
    utf16 "Provide a concise summary of the following text. Provide ONLY the summary: \"" ++
    text ++
    utf16 "\""

/-- The handling of the response in `advancedParaphrase` (lines 59-64) and in
`paraphraseText` (lines 544-551), whose `newLength` is the length of the text as
received and of the trimmed text, respectively. -/
def paraphraseEnvelope (text result : JSString) (newLength : Nat) : JValue :=
  jobj [("success", JValue.bool true), ("result", JValue.str result),
    ("originalLength", jnum text.length), ("newLength", jnum newLength)]

/-- Enhanced paraphrasing with literary styles (lines 31-68). -/
def advancedParaphrase (svc : GeminiService) (text : JSString) (options : ParaphraseOptions) :
    Outcome :=
  svc.request (utf16 "Advanced paraphrasing failed: ") (advancedParaphrasePrompt text options)
    fun responseText =>
      Except.ok (paraphraseEnvelope text (trim responseText) responseText.length)

/-- Paraphrasing in a given mode (lines 508-555); its message for a missing key differs
from that of the other methods. -/
def paraphraseText (svc : GeminiService) (text mode customPrompt : JSString) : Outcome :=
  match svc.genAI with
  | none => ⟨Except.error ⟨utf16 "API key not set. Please configure your Gemini API key."⟩, []⟩
  | some _ =>
    svc.request (utf16 "Paraphrasing failed: ") (paraphrasePrompt text mode customPrompt)
      fun responseText =>
        Except.ok (paraphraseEnvelope text (trim responseText) (trim responseText).length)

/-- Summarising (lines 557-590). `ratio a b` is the text of
`((a - b) / a * 100).toFixed(1)`, a floating-point computation of the platform. -/
def summarizeText (svc : GeminiService) (ratio : Nat → Nat → JSString)
    (text length : JSString) : Outcome :=
  svc.request (utf16 "Summarization failed: ") (summarizePrompt text length)
    fun responseText =>
      Except.ok (jobj [("success", JValue.bool true), ("summary", JValue.str (trim responseText)),
        ("originalLength", jnum text.length),
        ("summaryLength", jnum (trim responseText).length),
        ("compressionRatio", JValue.str (ratio text.length (trim responseText).length))])

/-- Humanising (lines 653-670). -/
def humanizeText (svc : GeminiService) (text : JSString) : Outcome :=
  svc.request (utf16 "Humanization failed: ") (humanizePrompt text)
    fun responseText =>
      Except.ok (jobj [("success", JValue.bool true), ("result", JValue.str (trim responseText))])

/-! ## Replacement with a non-empty text, and CSV quoting -/

/-- Worker of `replaceMatches`: `skip` counts the characters of the current match
that are still to be dropped. -/
def replaceMatchesAux (r : Regex) (rep : JSString) : Nat → JSString → JSString
  | 0, [] =>
    match matchHere r [] with
    | some _ => rep
    | none => []
  | _ + 1, [] => []
  | skip + 1, _ :: s => replaceMatchesAux r rep skip s
  | 0, x :: s =>
    match matchHere r (x :: s) with
    | some (n + 1) => rep ++ replaceMatchesAux r rep n s
    | some 0 => rep ++ x :: replaceMatchesAux r rep 0 s
    | none => x :: replaceMatchesAux r rep 0 s

/-- The result of `text.replace(r, rep)` for a global `r` and a replacement text
without `$` patterns: every match, found left to right without overlap, is replaced. -/
def replaceMatches (r : Regex) (rep s : JSString) : JSString :=
  replaceMatchesAux r rep 0 s

/-- The pattern `/"/g`. -/
def reDquote : Regex :=
  [RegexItem.chr 34]

/-- The template fragment `"${v.replace(/"/g, '""')}"` of both exports: a `TypeError`
when `v` is not a string (it has no `replace`, or is `null` or `undefined`). -/
def csvQuoted (v : JValue) : Except JsError JSString :=
  match v with
  | JValue.str s => Except.ok ([34] ++ replaceMatches reDquote [34, 34] s ++ [34])
  | _ => Except.error ⟨utf16 "replace is not a function"⟩

/-- The text a template literal shows for `${v}`. `other` is the platform's rendering
of numbers, arrays and objects. -/
def templateValue (other : JValue → JSString) : JValue → JSString
  | JValue.str s => s
  | JValue.undef => utf16 "undefined"
  | JValue.null => utf16 "null"
  | JValue.bool true => utf16 "true"
  | JValue.bool false => utf16 "false"
  | v => other v

/-! ## ScriptBreakdown -/

/-- The state of the `ScriptBreakdown` component (lines 7-27), without the pixel
position of the tag popup. -/
structure BreakdownState where
  script : JSString
  breakdownElements : Props
  selectedText : JSString
  elementType : JSString
  showTagPopup : Bool
  activeTab : JSString
  loading : Bool
  aiSuggestions : JValue

/-- The initial `breakdownElements` (lines 8-20). -/
def initialBreakdownElements : Props :=
  [(utf16 "props", JValue.arr []), (utf16 "wardrobe", JValue.arr []),
   (utf16 "cast", JValue.arr []), (utf16 "locations", JValue.arr []),
   (utf16 "sfx", JValue.arr []), (utf16 "vehicles", JValue.arr []),
   (utf16 "animals", JValue.arr []), (utf16 "stunts", JValue.arr []),
   (utf16 "makeup", JValue.arr []), (utf16 "equipment", JValue.arr []),
   (utf16 "extras", JValue.arr [])]

/-- The initial state of the component. -/
def BreakdownState.initial : BreakdownState :=
  { script := [], breakdownElements := initialBreakdownElements, selectedText := [],
    elementType := utf16 "props", showTagPopup := false, activeTab := utf16 "script",
    loading := false, aiSuggestions := JValue.null }

/-- The code points of a string, each as a string: what iterating a string yields. -/
def codePoints : JSString → List JSString
  | [] => []
  | [c] => [[c]]
  | c :: d :: rest =>
    if 55296 ≤ c ∧ c ≤ 56319 ∧ 56320 ≤ d ∧ d ≤ 57343 then [c, d] :: codePoints rest
    else [c] :: codePoints (d :: rest)

/-- The array spread `[...v]`: the elements of an array, the code points of a string,
a `TypeError` for a value that is not iterable. For a key that an object only
inherits (`constructor`, `toString`, ...) the model's `undefined` stands for a
function or `Object.prototype`, which are not iterable either. -/
def JValue.iterate : JValue → Except JsError (List JValue)
  | JValue.arr items => Except.ok items
  | JValue.str s => Except.ok ((codePoints s).map JValue.str)
  | _ => Except.error ⟨utf16 "is not iterable"⟩

/-- The updater `prev => ({ ...prev, [category]: [...prev[category], item] })` of
`tagElement` (lines 102-105) and `acceptAiSuggestion` (lines 140-143). -/
def appendToCategory (category : JSString) (item : JValue) (prev : Props) :
    Except JsError Props :=
  match (Props.get category prev).iterate with
  | Except.error e => Except.error e
  | Except.ok items =>
    Except.ok (Props.set category (JValue.arr (items ++ [item])) (spreadInto [] (JValue.obj prev)))

/-- `Array.prototype.filter` with a predicate on the index, counting from `i`. -/
def filterFrom {α : Type} (keep : Nat → Bool) : Nat → List α → List α
  | _, [] => []
  | i, x :: xs => if keep i then x :: filterFrom keep (i + 1) xs else filterFrom keep (i + 1) xs

/-- The updater `prev => ({ ...prev, [category]: prev[category].filter((_, i) => i !== index) })`
of the remove button (lines 333-336): a `TypeError` when `prev[category]` is not an
array. -/
def removeFromCategory (category : JSString) (index : Nat) (prev : Props) :
    Except JsError Props :=
  match Props.get category prev with
  | JValue.arr items =>
    Except.ok (Props.set category (JValue.arr (filterFrom (fun i => i != index) 0 items))
      (spreadInto [] (JValue.obj prev)))
  | _ => Except.error ⟨utf16 "filter is not a function"⟩

/-- The handler `tagElement` (lines 98-119), without its formatting of the selection in
the editor. -/
def tagElement (st : BreakdownState) : Except JsError BreakdownState :=
  if st.selectedText.isEmpty || st.elementType.isEmpty then Except.ok st
  else
    match appendToCategory st.elementType (JValue.str (trim st.selectedText))
        st.breakdownElements with
    | Except.error e => Except.error e
    | Except.ok elements =>
      Except.ok { st with breakdownElements := elements, showTagPopup := false }

/-- The handler `acceptAiSuggestion` (lines 139-144). -/
def acceptAiSuggestion (category : JSString) (item : JValue) (st : BreakdownState) :
    Except JsError BreakdownState :=
  match appendToCategory category item st.breakdownElements with
  | Except.error e => Except.error e
  | Except.ok elements => Except.ok { st with breakdownElements := elements }

/-- The click handler of the remove button of item `index` of `category`
(lines 332-337). -/
def removeItem (category : JSString) (index : Nat) (st : BreakdownState) :
    Except JsError BreakdownState :=
  match removeFromCategory category index st.breakdownElements with
  | Except.error e => Except.error e
  | Except.ok elements => Except.ok { st with breakdownElements := elements }

/-- An operation on the breakdown: tagging the selection `selectedText` as
`elementType`, accepting an AI suggestion, removing an item. -/
inductive BreakdownOp where
  | tag (selectedText elementType : JSString)
  | accept (category : JSString) (item : JValue)
  | remove (category : JSString) (index : Nat)

/-- One operation: for `tag`, the selection and the element type are first set as the
editor and the select box do. -/
def BreakdownOp.apply (op : BreakdownOp) (st : BreakdownState) : Except JsError BreakdownState :=
  match op with
  | BreakdownOp.tag selectedText elementType =>
    tagElement { st with selectedText := selectedText, elementType := elementType }
  | BreakdownOp.accept category item => acceptAiSuggestion category item st
  | BreakdownOp.remove category index => removeItem category index st

/-- A sequence of operations, each of which succeeds: `none` as soon as one throws. -/
def applyOps : List BreakdownOp → BreakdownState → Option BreakdownState
  | [], st => some st
  | op :: ops, st =>
    match op.apply st with
    | Except.ok st' => applyOps ops st'
    | Except.error _ => none

/-- The rows that `items.forEach` adds for one category (lines 153-155). -/
def breakdownRows (category : JSString) : List JValue → Except JsError JSString
  | [] => Except.ok []
  | item :: rest =>
    match csvQuoted item with
    | Except.error e => Except.error e
    | Except.ok field =>
      match breakdownRows category rest with
      | Except.error e => Except.error e
      | Except.ok rows => Except.ok (category ++ [44] ++ field ++ [10] ++ rows)

/-- The rows that `Object.entries(breakdownElements).forEach` adds (lines 152-156): a
`TypeError` when the value of a category is not an array. -/
def breakdownCsvBody : Props → Except JsError JSString
  | [] => Except.ok []
  | (category, items) :: rest =>
    match items with
    | JValue.arr xs =>
      match breakdownRows category xs with
      | Except.error e => Except.error e
      | Except.ok rows =>
        match breakdownCsvBody rest with
        | Except.error e => Except.error e
        | Except.ok more => Except.ok (rows ++ more)
    | _ => Except.error ⟨utf16 "items.forEach is not a function"⟩

/-- The text `csvContent` that `exportBreakdown` (lines 146-168) puts in the file. -/
def exportBreakdown (breakdownElements : Props) : Except JsError JSString :=
  match breakdownCsvBody breakdownElements with
  | Except.error e => Except.error e
  | Except.ok rows => Except.ok (utf16 "Category,Element\n" ++ rows)

/-! ## ShotListManager: export -/

/-- The row that the callback of `shots.forEach` adds for one shot (line 199). -/
def shotRow (other : JValue → JSString) (shot : JValue) : Except JsError JSString := do
  let scene ← shot.getProp (utf16 "scene")
  let shotNumber ← shot.getProp (utf16 "shotNumber")
  let description ← shot.getProp (utf16 "description")
  let descriptionField ← csvQuoted description
  let type ← shot.getProp (utf16 "type")
  let angle ← shot.getProp (utf16 "angle")
  let movement ← shot.getProp (utf16 "movement")
  let equipment ← shot.getProp (utf16 "equipment")
  let equipmentField ← csvQuoted equipment
  let lens ← shot.getProp (utf16 "lens")
  let framing ← shot.getProp (utf16 "framing")
  let duration ← shot.getProp (utf16 "duration")
  let frameRate ← shot.getProp (utf16 "frameRate")
  let notes ← shot.getProp (utf16 "notes")
  let notesField ← csvQuoted notes
  pure (templateValue other scene ++ [44] ++ templateValue other shotNumber ++ [44] ++
    descriptionField ++ [44] ++ templateValue other type ++ [44] ++
    templateValue other angle ++ [44] ++ templateValue other movement ++ [44] ++
    equipmentField ++ [44] ++ templateValue other lens ++ [44] ++
    templateValue other framing ++ [44] ++ templateValue other duration ++ [44] ++
    templateValue other frameRate ++ [44] ++ notesField ++ [10])

/-- The rows that `shots.forEach` adds (lines 198-200). -/
def shotRows (other : JValue → JSString) : List JValue → Except JsError JSString
  | [] => Except.ok []
  | shot :: rest =>
    match shotRow other shot with
    | Except.error e => Except.error e
    | Except.ok row =>
      match shotRows other rest with
      | Except.error e => Except.error e
      | Except.ok rows => Except.ok (row ++ rows)

/-- The header line of the shot-list export (line 196). -/
def shotListHeader : JSString :=
  utf16 "Scene,Shot,Description,Type,Angle,Movement,Equipment,Lens,Framing,Duration,Frame Rate,Notes\n"

/-- The text `csvContent` that `exportShotList` (lines 192-212) puts in the file. -/
def exportShotList (other : JValue → JSString) (shots : List JValue) : Except JsError JSString :=
  match shotRows other shots with
  | Except.error e => Except.error e
  | Except.ok rows => Except.ok (shotListHeader ++ rows)

/-! ## The CSV reader of the specification -/

/-- The field of the specification for an item: a double quote, the item with each
double quote replaced by two, and a closing double quote. -/
def csvField (item : JSString) : JSString :=
  [34] ++ (item.map fun c => if c = 34 then [34, 34] else [c]).flatten ++ [34]

/-- Where a reader of CSV text stands inside a record. -/
inductive CsvMode where
  | fieldStart
  | unquoted
  | quoted
  | quoteSeen

/-- A reader of CSV text after RFC 4180: fields are separated by commas and records
by line feeds (a carriage return before the line feed belongs to the break); a field
that starts with a double quote runs to its closing double quote, may hold commas
and line breaks, and holds a double quote for every two in the text. `field` and
`record` are the field and the record being read, `records` the records read. -/
def csvReadAux : CsvMode → JSString → List JSString → List (List JSString) → JSString →
    List (List JSString)
  | CsvMode.fieldStart, _, [], records, [] => records
  | _, field, record, records, [] => records ++ [record ++ [field]]
  | CsvMode.quoted, field, record, records, c :: rest =>
    if c = 34 then csvReadAux CsvMode.quoteSeen field record records rest
    else csvReadAux CsvMode.quoted (field ++ [c]) record records rest
  | CsvMode.quoteSeen, field, record, records, c :: rest =>
    if c = 34 then csvReadAux CsvMode.quoted (field ++ [34]) record records rest
    else if c = 44 then csvReadAux CsvMode.fieldStart [] (record ++ [field]) records rest
    else if c = 10 then csvReadAux CsvMode.fieldStart [] [] (records ++ [record ++ [field]]) rest
    else if c = 13 ∧ rest.head? = some 10 then
      csvReadAux CsvMode.quoteSeen field record records rest
    else csvReadAux CsvMode.unquoted (field ++ [c]) record records rest
  | CsvMode.fieldStart, field, record, records, c :: rest =>
    if c = 34 then csvReadAux CsvMode.quoted [] record records rest
    else if c = 44 then csvReadAux CsvMode.fieldStart [] (record ++ [field]) records rest
    else if c = 10 then csvReadAux CsvMode.fieldStart [] [] (records ++ [record ++ [field]]) rest
    else if c = 13 ∧ rest.head? = some 10 then
      csvReadAux CsvMode.fieldStart field record records rest
    else csvReadAux CsvMode.unquoted (field ++ [c]) record records rest
  | CsvMode.unquoted, field, record, records, c :: rest =>
    if c = 44 then csvReadAux CsvMode.fieldStart [] (record ++ [field]) records rest
    else if c = 10 then csvReadAux CsvMode.fieldStart [] [] (records ++ [record ++ [field]]) rest
    else if c = 13 ∧ rest.head? = some 10 then
      csvReadAux CsvMode.unquoted field record records rest
    else csvReadAux CsvMode.unquoted (field ++ [c]) record records rest

/-- The records of a CSV text. -/
def csvRead (text : JSString) : List (List JSString) :=
  csvReadAux CsvMode.fieldStart [] [] [] text

/-- The data records of a CSV text with a header line. -/
def csvDataRows (text : JSString) : List (List JSString) :=
  (csvRead text).tail

/-- The items that the two-column data records `rows` list for `category`, in order. -/
def itemsOf (category : JSString) (rows : List (List JSString)) : List JSString :=
  rows.filterMap fun row =>
    match row with
    | [c, item] => if c = category then some item else none
    | _ => none

/-! ## The object scan of the specification -/

/-- The scan as the specification words it: the text from the first `{` to the last
`}`, when some `}` occurs after the first `{`, and nothing otherwise. -/
def objectSpan (s : JSString) : Option JSString :=
  match s.dropWhile fun c => c != 123 with
  | [] => none
  | _ :: rest =>
    if 125 ∈ rest then some (123 :: (rest.reverse.dropWhile fun c => c != 125).reverse)
    else none

/-! ## ShotListManager: adding, updating and deleting shots -/

/-- The numbers `m * 10 ^ e` and `m' * 10 ^ e'` are equal. -/
def numEq (m e m' e' : Int) : Bool :=
  m * 10 ^ (e - min e e').toNat == m' * 10 ^ (e' - min e e').toNat

/-- The value is a primitive: not an object and not an array. -/
def JValue.isPrimitive : JValue → Bool
  | JValue.arr _ => false
  | JValue.obj _ => false
  | _ => true

/-- The operator `a === b`. Two objects (or arrays) are `===` only when they are one
and the same object; a value of this model does not record which object it is, and two
objects are taken to be different ones, so the answer is that of JavaScript whenever
one operand is a primitive, as identifiers and scene labels are. -/
def JValue.strictEq : JValue → JValue → Bool
  | JValue.undef, JValue.undef => true
  | JValue.null, JValue.null => true
  | JValue.bool a, JValue.bool b => a == b
  | JValue.num m e, JValue.num m' e' => numEq m e m' e'
  | JValue.str a, JValue.str b => a == b
  | _, _ => false

/-- `Number.prototype.toString` on a non-negative integer below `10 ^ 21`: its decimal
digits. -/
def numberToString (n : Nat) : JSString :=
  utf16 (toString n)

/-- The form of the shot editor, as the literal of lines 10-24 and again of lines
124-138 builds it. -/
def blankShot (id : Nat) (scene shotNumber : JSString) : JValue :=
  JValue.obj [(utf16 "id", jnum id), (utf16 "scene", JValue.str scene),
    (utf16 "shotNumber", JValue.str shotNumber), (utf16 "description", jstr ""),
    (utf16 "type", jstr "MS"), (utf16 "angle", jstr "Eye Level"),
    (utf16 "movement", jstr "Static"), (utf16 "equipment", jstr ""),
    (utf16 "lens", jstr "50mm"), (utf16 "framing", jstr "Medium"), (utf16 "notes", jstr ""),
    (utf16 "duration", jstr "5s"), (utf16 "frameRate", jstr "24 fps")]

/-- The initial state of the component (lines 7-31), with nothing saved in
`localStorage`; `now` is the value of `Date.now()` at the first render. -/
def ShotListState.initial (now : Nat) : ShotListState :=
  { script := [], shots := [], currentScene := utf16 "1",
    currentShot := blankShot now (utf16 "1") (utf16 "1"), showShotEditor := false,
    editingShotId := JValue.null, activeTab := utf16 "script", loading := false,
    selectedScriptSegment := [], scriptSelection := (0, 0), error := [] }

/-- `Array.prototype.filter` with a callback that can throw: the first error ends the
iteration. -/
def filterE {α : Type} (f : α → Except JsError Bool) : List α → Except JsError (List α)
  | [] => Except.ok []
  | x :: xs =>
    match f x with
    | Except.error e => Except.error e
    | Except.ok keep =>
      match filterE f xs with
      | Except.error e => Except.error e
      | Except.ok ys => Except.ok (if keep then x :: ys else ys)

/-- The object `newShot` of `addShot` (lines 104-109); `now` is the value of
`Date.now()`, read only when `editingShotId` is falsy. -/
def newShot (now : Nat) (st : ShotListState) : JValue :=
  JValue.obj
    (Props.set (utf16 "scriptSelection")
      (jobj [("start", jnum st.scriptSelection.1), ("end", jnum st.scriptSelection.2)])
      (Props.set (utf16 "scriptSegment") (JValue.str st.selectedScriptSegment)
        (Props.set (utf16 "id") (st.editingShotId.or (jnum now))
          (spreadInto [] st.currentShot))))

/-- The callback `shot => shot.id === editingShotId ? newShot : shot` (lines 113-115). -/
def replaceIfId (editingShotId record : JValue) (shot : JValue) : Except JsError JValue :=
  match shot.getProp (utf16 "id") with
  | Except.error e => Except.error e
  | Except.ok id => Except.ok (if id.strictEq editingShotId then record else shot)

/-- The callback `s => s.scene === currentScene` (line 127). -/
def inScene (currentScene : JSString) (s : JValue) : Except JsError Bool :=
  match s.getProp (utf16 "scene") with
  | Except.error e => Except.error e
  | Except.ok scene => Except.ok (scene.strictEq (JValue.str currentScene))

/-- The handler `addShot` (lines 103-142): the state after all of its updates have been
applied, or the `TypeError` that one of its callbacks throws. `clock k` is the value of
the call number `k` of `Date.now()` that the handler makes; `shots.filter` in the reset
of the form reads the list of the render in which the handler was created, which is the
list before the update. -/
def addShot (clock : Nat → Nat) (st : ShotListState) : Except JsError ShotListState :=
  let record := newShot (clock 0) st
  let calls := if st.editingShotId.truthy then 0 else 1
  match (if st.editingShotId.truthy then
      mapFromE (fun _ shot => replaceIfId st.editingShotId record shot) 0 st.shots
    else Except.ok (st.shots ++ [record])) with
  | Except.error e => Except.error e
  | Except.ok shots =>
    match filterE (inScene st.currentScene) st.shots with
    | Except.error e => Except.error e
    | Except.ok sameScene =>
      Except.ok { st with
        shots := shots
        editingShotId := if st.editingShotId.truthy then JValue.null else st.editingShotId
        currentShot := blankShot (clock calls) st.currentScene
          (numberToString (sameScene.length + 1))
        showShotEditor := false
        selectedScriptSegment := [] }

/-- The callback `shot => shot.id !== id` (line 154). -/
def hasOtherId (id : JValue) (shot : JValue) : Except JsError Bool :=
  match shot.getProp (utf16 "id") with
  | Except.error e => Except.error e
  | Except.ok shotId => Except.ok (!shotId.strictEq id)

/-- The handler `deleteShot` (lines 153-155). -/
def deleteShot (id : JValue) (st : ShotListState) : Except JsError ShotListState :=
  match filterE (hasOtherId id) st.shots with
  | Except.error e => Except.error e
  | Except.ok shots => Except.ok { st with shots := shots }

/-- The identifier of a record of the shot list: `shot.id`, with `undefined` for a
value that has no properties to read. -/
def shotId (shot : JValue) : JValue :=
  match shot.getProp (utf16 "id") with
  | Except.ok id => id
  | Except.error _ => JValue.undef

/-- The identifiers of the records are pairwise distinct: no two records of the list
have identifiers that are `===`. -/
def distinctIds (shots : List JValue) : Prop :=
  shots.Pairwise fun a b => (shotId a).strictEq (shotId b) = false

/-- A service with a key configured whose upstream model answers every prompt with
`text`. -/
def GeminiService.answering (text : String) : GeminiService :=
  ⟨some fun _ => Except.ok (utf16 text)⟩

/-- A platform whose clock reads `now` at every call and whose random source always
gives the same draws. -/
def Platform.constant (now : Nat) : Platform :=
  ⟨fun _ => now, fun _ => 5, fun _ => 7⟩

/-! ## Lemmas: The matcher -/

theorem starFrom_nil_regex (p : Nat → Bool) (s : JSString) :
    starFrom p (matchHere []) s = some (s.takeWhile p).length := by
  induction s with
  | nil => simp [starFrom, matchHere]
  | cons x s ih =>
    by_cases hx : p x = true
    · simp [starFrom, hx, ih, List.takeWhile]
    · simp [starFrom, hx, matchHere, List.takeWhile]

theorem starFrom_some_suffix (p : Nat → Bool) (k : JSString → Option Nat) (s : JSString) (n : Nat)
    (h : starFrom p k s = some n) : ∃ t m, t <:+ s ∧ k t = some m := by
  induction s generalizing n with
  | nil => exact ⟨[], n, List.suffix_refl _, by simpa [starFrom] using h⟩
  | cons x s ih =>
    unfold starFrom at h
    split at h
    · split at h
      · next m hm =>
        obtain ⟨t, m', ht, hk⟩ := ih m hm
        exact ⟨t, m', ht.trans (List.suffix_cons x s), hk⟩
      · exact ⟨x :: s, n, List.suffix_refl _, h⟩
    · exact ⟨x :: s, n, List.suffix_refl _, h⟩

theorem starFrom_none (p : Nat → Bool) (k : JSString → Option Nat) (s : JSString)
    (h : ∀ t, t <:+ s → k t = none) : starFrom p k s = none := by
  induction s with
  | nil => simpa [starFrom] using h [] (List.suffix_refl _)
  | cons x s ih =>
    have h1 := ih fun t ht => h t (ht.trans (List.suffix_cons x s))
    have h2 := h (x :: s) (List.suffix_refl _)
    simp [starFrom, h1, h2]

theorem starFrom_anyChar_append (k : JSString → Option Nat) (a b : JSString) (n : Nat)
    (h : starFrom anyChar k b = some n) :
    starFrom anyChar k (a ++ b) = some (a.length + n) := by
  induction a with
  | nil => simpa using h
  | cons x a ih =>
    have e : starFrom anyChar k (x :: a ++ b)
        = match starFrom anyChar k (a ++ b) with
          | some n => some (n + 1)
          | none => k (x :: (a ++ b)) := by
      simp [starFrom, anyChar]
    rw [e, ih]
    exact congrArg some (by simp only [List.length_cons]; omega)

theorem matchHere_chr_some (c : Nat) (r : Regex) (t : JSString) (n : Nat)
    (h : matchHere (RegexItem.chr c :: r) t = some n) :
    ∃ t' m, t = c :: t' ∧ matchHere r t' = some m ∧ n = m + 1 := by
  cases t with
  | nil => simp [matchHere] at h
  | cons x t' =>
    simp only [matchHere] at h
    split at h
    · next hx =>
      simp only [Option.map_eq_some'] at h
      obtain ⟨m, hm, rfl⟩ := h
      exact ⟨t', m, by rw [hx], hm, rfl⟩
    · exact absurd h (by simp)

theorem matchHere_lit_some (p : JSString) (r : Regex) (t : JSString) (n : Nat)
    (h : matchHere (Regex.lit p ++ r) t = some n) : p <+: t := by
  induction p generalizing t n with
  | nil => exact List.nil_prefix
  | cons c p ih =>
    obtain ⟨t', m, rfl, hm, -⟩ := matchHere_chr_some c (Regex.lit p ++ r) t n h
    exact (List.prefix_cons_inj c).mpr (ih t' m hm)

theorem matchHere_lit_append (p : JSString) (r : Regex) (t : JSString) :
    matchHere (Regex.lit p ++ r) (p ++ t) = (matchHere r t).map (· + p.length) := by
  induction p with
  | nil => simp [Regex.lit]
  | cons c p ih =>
    have : matchHere (Regex.lit (c :: p) ++ r) (c :: p ++ t)
        = (matchHere (Regex.lit p ++ r) (p ++ t)).map (· + 1) := by
      simp [Regex.lit, matchHere]
    rw [this, ih]
    cases matchHere r t <;> simp [Nat.add_assoc]

theorem removeMatchesAux_skip (r : Regex) (k : Nat) (s : JSString) :
    removeMatchesAux r k s = removeMatchesAux r 0 (s.drop k) := by
  induction k generalizing s with
  | zero => simp
  | succ k ih =>
    cases s with
    | nil => simp [removeMatchesAux]
    | cons x s => simp [removeMatchesAux, ih s]

theorem removeMatchesAux_sublist (r : Regex) (k : Nat) (s : JSString) :
    (removeMatchesAux r k s).Sublist s := by
  induction s generalizing k with
  | nil => cases k <;> simp [removeMatchesAux]
  | cons x s ih =>
    cases k with
    | succ k => simpa [removeMatchesAux] using (ih k).cons x
    | zero =>
      unfold removeMatchesAux
      split
      · exact (ih _).cons x
      · exact (ih 0).cons₂ x

theorem removeMatches_sublist (r : Regex) (s : JSString) : (removeMatches r s).Sublist s :=
  removeMatchesAux_sublist r 0 s

theorem removeMatchesAux_append_noMatch (r : Regex) (a b : JSString)
    (h : ∀ t, t <:+ a → t ≠ [] → matchHere r (t ++ b) = none) :
    removeMatchesAux r 0 (a ++ b) = a ++ removeMatchesAux r 0 b := by
  induction a with
  | nil => rfl
  | cons x a ih =>
    have hx := h (x :: a) (List.suffix_refl _) (by simp)
    have ih' := ih fun t ht hne => h t (ht.trans (List.suffix_cons x a)) hne
    simp only [List.cons_append] at hx ⊢
    simp only [removeMatchesAux, hx, ih']

theorem regexMatch_some (r : Regex) (s m : JSString) (h : regexMatch r s = some m) :
    ∃ t n, t <:+ s ∧ matchHere r t = some n ∧ m = t.take n := by
  induction s with
  | nil =>
    simp only [regexMatch, Option.map_eq_some'] at h
    obtain ⟨n, hn, rfl⟩ := h
    exact ⟨[], n, List.suffix_refl _, hn, rfl⟩
  | cons x s ih =>
    unfold regexMatch at h
    split at h
    · next n hn =>
      exact ⟨x :: s, n, List.suffix_refl _, hn, (Option.some.inj h).symm⟩
    · obtain ⟨t, n, ht, hn, hm⟩ := ih h
      exact ⟨t, n, ht.trans (List.suffix_cons x s), hn, hm⟩

theorem regexMatch_infix (r : Regex) (s m : JSString) (h : regexMatch r s = some m) :
    m <:+: s := by
  obtain ⟨t, n, ht, -, rfl⟩ := regexMatch_some r s m h
  exact (List.take_prefix n t).isInfix.trans ht.isInfix

/-! ## Lemmas: The patterns of the source -/

/-- A match of `/\{[\s\S]*\}/` starts at a `{` that has a `}` somewhere after it. -/
theorem matchHere_reObject_some (t : JSString) (n : Nat) (h : matchHere reObject t = some n) :
    ∃ t', t = 123 :: t' ∧ 125 ∈ t' := by
  obtain ⟨t', m, rfl, hm, -⟩ := matchHere_chr_some _ _ _ _ h
  refine ⟨t', rfl, ?_⟩
  have hm' : starFrom anyChar (matchHere [RegexItem.chr 125]) t' = some m := hm
  obtain ⟨u, k, hu, hk⟩ := starFrom_some_suffix _ _ _ _ hm'
  obtain ⟨u', -, rfl, -, -⟩ := matchHere_chr_some _ _ _ _ hk
  exact hu.subset (List.mem_cons_self _ _)

theorem regexMatch_reObject_sublist (s m : JSString) (h : regexMatch reObject s = some m) :
    List.Sublist [123, 125] s := by
  obtain ⟨t, n, ht, hn, -⟩ := regexMatch_some _ _ _ h
  obtain ⟨t', rfl, h125⟩ := matchHere_reObject_some t n hn
  have h1 : List.Sublist [125] t' := List.singleton_sublist.mpr h125
  exact (h1.cons₂ 123).trans ht.sublist

theorem regexMatch_reObject_head (s m : JSString) (h : regexMatch reObject s = some m) :
    ∃ m', m = 123 :: m' := by
  obtain ⟨t, n, -, hn, rfl⟩ := regexMatch_some _ _ _ h
  obtain ⟨t', k, rfl, -, rfl⟩ := matchHere_chr_some _ _ _ _ hn
  exact ⟨t'.take k, by simp⟩

theorem regexMatch_reArray_head (s m : JSString) (h : regexMatch reArray s = some m) :
    ∃ m', m = 91 :: m' := by
  obtain ⟨t, n, -, hn, rfl⟩ := regexMatch_some _ _ _ h
  obtain ⟨t', k, rfl, -, rfl⟩ := matchHere_chr_some _ _ _ _ hn
  exact ⟨t'.take k, by simp⟩

theorem matchHere_reFenceJson_prefix (t : JSString) (n : Nat)
    (h : matchHere reFenceJson t = some n) : [96, 96, 96] <+: t := by
  have h1 : utf16 "```json" <+: t := matchHere_lit_some _ _ _ _ h
  have h2 : [96, 96, 96] <+: utf16 "```json" := by decide
  exact h2.trans h1

theorem matchHere_reFence_prefix (t : JSString) (n : Nat)
    (h : matchHere reFence t = some n) : [96, 96, 96] <+: t :=
  matchHere_lit_some (utf16 "```") _ _ _ h

theorem matchHere_none_of_not_prefix (r : Regex) (t : JSString)
    (hr : ∀ n, matchHere r t = some n → [96, 96, 96] <+: t) (h : ¬ [96, 96, 96] <+: t) :
    matchHere r t = none := by
  cases hm : matchHere r t with
  | none => rfl
  | some n => exact absurd (hr n hm) h

theorem matchHere_chr125_none_of_space (t : JSString) (h : ∀ c ∈ t, isSpace c = true) :
    matchHere [RegexItem.chr 125] t = none := by
  cases t with
  | nil => rfl
  | cons x t' =>
    have hx := h x (List.mem_cons_self _ _)
    have : x ≠ 125 := by
      rintro rfl
      exact absurd hx (by decide)
    simp [matchHere, this]

/-- On an object text followed by whitespace, `/\{[\s\S]*\}/` matches the object text. -/
theorem regexMatch_reObject_body (body w : JSString) (hw : ∀ c ∈ w, isSpace c = true) :
    regexMatch reObject (123 :: body ++ [125] ++ w) = some (123 :: body ++ [125]) := by
  have hstar : starFrom anyChar (matchHere [RegexItem.chr 125]) (125 :: w) = some 1 := by
    have hnone : starFrom anyChar (matchHere [RegexItem.chr 125]) w = none :=
      starFrom_none _ _ _ fun t ht =>
        matchHere_chr125_none_of_space t fun c hc => hw c (ht.subset hc)
    have hk1 : matchHere [RegexItem.chr 125] (125 :: w) = some 1 := by simp [matchHere]
    rw [starFrom]
    simp only [anyChar, if_true]
    rw [hnone]
    exact hk1
  have h2 := starFrom_anyChar_append (matchHere [RegexItem.chr 125]) body (125 :: w) 1 hstar
  have hm : matchHere reObject (123 :: (body ++ 125 :: w)) = some (body.length + 1 + 1) := by
    have : matchHere reObject (123 :: (body ++ 125 :: w))
        = (starFrom anyChar (matchHere [RegexItem.chr 125]) (body ++ 125 :: w)).map (· + 1) := by
      simp [reObject, matchHere]
    rw [this, h2]
    rfl
  have hl : 123 :: body ++ [125] ++ w = 123 :: (body ++ 125 :: w) := by simp
  rw [hl, regexMatch, hm]
  simp only [Option.some.injEq]
  rw [show body.length + 1 + 1 = (123 :: (body ++ [125])).length by simp]
  rw [show 123 :: (body ++ 125 :: w) = (123 :: (body ++ [125])) ++ w by simp, List.take_left]
  simp

/-! ## Lemmas: JSON.parse: the shape of the result -/

theorem parseValue_brace (fuel : Nat) (s r : JSString) (v : JValue)
    (h : parseValue fuel (123 :: s) = some (v, r)) : ∃ ps, v = JValue.obj ps := by
  cases fuel with
  | zero => simp [parseValue] at h
  | succ fuel =>
    simp only [parseValue, if_true] at h
    split at h
    · exact absurd h (by simp)
    · split at h
      · simp only [Option.some.injEq, Prod.mk.injEq] at h
        exact ⟨[], h.1.symm⟩
      · split at h
        · simp only [Option.some.injEq, Prod.mk.injEq] at h
          exact ⟨_, h.1.symm⟩
        · exact absurd h (by simp)

theorem parseValue_bracket (fuel : Nat) (s r : JSString) (v : JValue)
    (h : parseValue fuel (91 :: s) = some (v, r)) : ∃ vs, v = JValue.arr vs := by
  cases fuel with
  | zero => simp [parseValue] at h
  | succ fuel =>
    simp only [parseValue, if_true] at h
    simp only [show ¬ (91 = 123) by decide, if_false] at h
    split at h
    · exact absurd h (by simp)
    · split at h
      · simp only [Option.some.injEq, Prod.mk.injEq] at h
        exact ⟨[], h.1.symm⟩
      · split at h
        · simp only [Option.some.injEq, Prod.mk.injEq] at h
          exact ⟨_, h.1.symm⟩
        · exact absurd h (by simp)

theorem jsonParse_some (text : JSString) (v : JValue) (h : jsonParse text = Except.ok v) :
    ∃ r, parseValue (2 * text.length + 2) (skipWs text) = some (v, r) := by
  unfold jsonParse at h
  split at h
  · next v' r hp =>
    split at h
    · cases h; exact ⟨r, hp⟩
    · cases h
  · cases h

/-- A text that starts with `{` parses, if at all, to an object. -/
theorem jsonParse_brace_isObject (s : JSString) (v : JValue)
    (h : jsonParse (123 :: s) = Except.ok v) : ∃ ps, v = JValue.obj ps := by
  obtain ⟨r, hr⟩ := jsonParse_some _ _ h
  have hs : skipWs (123 :: s) = 123 :: s := by simp [skipWs, isJsonWs, List.dropWhile]
  rw [hs] at hr
  exact parseValue_brace _ _ _ _ hr

/-- A text that starts with `[` parses, if at all, to an array. -/
theorem jsonParse_bracket_isArray (s : JSString) (v : JValue)
    (h : jsonParse (91 :: s) = Except.ok v) : ∃ vs, v = JValue.arr vs := by
  obtain ⟨r, hr⟩ := jsonParse_some _ _ h
  have hs : skipWs (91 :: s) = 91 :: s := by simp [skipWs, isJsonWs, List.dropWhile]
  rw [hs] at hr
  exact parseValue_bracket _ _ _ _ hr

/-! ## Lemmas: JSON.parse: the bound on nested calls is never reached -/

theorem length_skipWs_le (s : JSString) : (skipWs s).length ≤ s.length := by
  unfold skipWs
  exact (List.dropWhile_sublist _).length_le

theorem length_dropWhile_le (p : Nat → Bool) (s : JSString) :
    (s.dropWhile p).length ≤ s.length :=
  (List.dropWhile_sublist _).length_le

theorem parseStringBody_length_aux (n : Nat) :
    ∀ s t r, s.length ≤ n → parseStringBody s = some (t, r) → r.length < s.length := by
  induction n with
  | zero =>
    intro s t r hn h
    cases s with
    | nil => simp [parseStringBody] at h
    | cons c rest => simp at hn
  | succ n ih =>
    intro s t r hn h
    cases s with
    | nil => simp [parseStringBody] at h
    | cons c rest =>
      have hrest : rest.length ≤ n := by simpa using hn
      rw [parseStringBody.eq_def] at h
      simp only at h
      split at h
      · simp only [Option.some.injEq, Prod.mk.injEq] at h
        rw [← h.2]; simp
      · split at h
        · split at h
          · exact absurd h (by simp)
          · next e rest' =>
            split at h
            · split at h
              · next a b c' d rest'' =>
                split at h
                · next u t' r' hu hp =>
                  simp only [Option.some.injEq, Prod.mk.injEq] at h
                  have := ih rest'' t' r' (by simp at hrest; omega) hp
                  rw [← h.2]; simp; omega
                · exact absurd h (by simp)
              · exact absurd h (by simp)
            · split at h
              · next u t' r' hu hp =>
                simp only [Option.some.injEq, Prod.mk.injEq] at h
                have := ih rest' t' r' (by simp at hrest; omega) hp
                rw [← h.2]; simp; omega
              · exact absurd h (by simp)
        · split at h
          · exact absurd h (by simp)
          · split at h
            · next t' r' hp =>
              simp only [Option.some.injEq, Prod.mk.injEq] at h
              have := ih rest t' r' hrest hp
              rw [← h.2]; simp; omega
            · exact absurd h (by simp)

theorem parseStringBody_length (s t r : JSString) (h : parseStringBody s = some (t, r)) :
    r.length < s.length :=
  parseStringBody_length_aux s.length s t r (Nat.le_refl _) h

theorem parseNumber_length (s r : JSString) (v : JValue) (h : parseNumber s = some (v, r)) :
    r.length < s.length := by
  have hU : ∀ neg s r v, parseUnsigned neg s = some (v, r) → r.length < s.length := by
    intro neg s r v h
    unfold parseUnsigned at h
    split at h
    · exact absurd h (by simp)
    · next ip r1 hip =>
      split at h
      · exact absurd h (by simp)
      · next fp r2 hfp =>
        split at h
        · exact absurd h (by simp)
        · next e r3 he =>
          simp only [Option.some.injEq, Prod.mk.injEq] at h
          rw [← h.2]
          have h1 : r1.length < s.length := by
            unfold parseIntPart at hip
            split at hip
            · exact absurd hip (by simp)
            · next c rest =>
              split at hip
              · simp only [Option.some.injEq, Prod.mk.injEq] at hip
                rw [← hip.2]; simp
              · split at hip
                · simp only [Option.some.injEq, Prod.mk.injEq] at hip
                  rw [← hip.2]
                  have := length_dropWhile_le isDigit rest
                  simp; omega
                · exact absurd hip (by simp)
          have h2 : r2.length ≤ r1.length := by
            unfold parseFrac at hfp
            split at hfp
            · next c rest =>
              split at hfp
              · split at hfp
                · exact absurd hfp (by simp)
                · simp only [Option.some.injEq, Prod.mk.injEq] at hfp
                  rw [← hfp.2]
                  have := length_dropWhile_le isDigit rest
                  simp; omega
              · simp only [Option.some.injEq, Prod.mk.injEq] at hfp
                rw [← hfp.2]
            · simp only [Option.some.injEq, Prod.mk.injEq] at hfp
              rw [← hfp.2]
          have hD : ∀ neg s e r, parseExpDigits neg s = some (e, r) → r.length ≤ s.length := by
            intro neg s e r hd
            unfold parseExpDigits at hd
            split at hd
            · exact absurd hd (by simp)
            · simp only [Option.some.injEq, Prod.mk.injEq] at hd
              rw [← hd.2]
              exact length_dropWhile_le isDigit s
          have h3 : r3.length ≤ r2.length := by
            unfold parseExp at he
            split at he
            · next c rest =>
              split at he
              · split at he
                · next sg rest' =>
                  split at he
                  · have := hD _ _ _ _ he; simp; omega
                  · split at he
                    · have := hD _ _ _ _ he; simp; omega
                    · have := hD _ _ _ _ he; simp at this ⊢; omega
                · exact absurd he (by simp)
              · simp only [Option.some.injEq, Prod.mk.injEq] at he
                rw [← he.2]
            · simp only [Option.some.injEq, Prod.mk.injEq] at he
              rw [← he.2]
          omega
  unfold parseNumber at h
  split at h
  · next c rest =>
    split at h
    · have := hU _ _ _ _ h; simp; omega
    · exact hU _ _ _ _ h
  · exact absurd h (by simp)

theorem dropKeyword_length (kw s r : JSString) (hkw : kw ≠ [])
    (h : dropKeyword kw s = some r) : r.length < s.length := by
  unfold dropKeyword at h
  split at h
  · next hp =>
    simp only [Option.some.injEq] at h
    rw [← h]
    have hpre : kw <+: s := List.isPrefixOf_iff_prefix.mp hp
    have hlen := hpre.length_le
    have : 0 < kw.length := List.length_pos.mpr hkw
    simp; omega
  · exact absurd h (by simp)

theorem parseValue_step (f : Nat)
    (hE : ∀ s acc vs r, parseElements f s acc = some (vs, r) →
      r.length < s.length ∧ ∀ g, 2 * s.length + 1 ≤ g → parseElements g s acc = some (vs, r))
    (hM : ∀ s acc ps r, parseMembers f s acc = some (ps, r) →
      r.length < s.length ∧ ∀ g, 2 * s.length + 1 ≤ g → parseMembers g s acc = some (ps, r)) :
    ∀ s v r, parseValue (f + 1) s = some (v, r) →
      r.length < s.length ∧ ∀ g, 2 * s.length ≤ g → parseValue g s = some (v, r) := by
  intro s v r h
  cases s with
  | nil => simp [parseValue] at h
  | cons c rest =>
    have hg : ∀ g, 2 * (c :: rest).length ≤ g → ∃ g', g = g' + 1 ∧ 2 * rest.length + 1 ≤ g' := by
      intro g hg
      refine ⟨g - 1, ?_, ?_⟩ <;> simp only [List.length_cons] at hg <;> omega
    simp only [parseValue] at h
    split at h
    · next hc =>
      split at h
      · exact absurd h (by simp)
      · next d rest' hskip =>
        have hlen : (d :: rest').length ≤ rest.length := hskip ▸ length_skipWs_le rest
        split at h
        · next hd =>
          simp only [Option.some.injEq, Prod.mk.injEq] at h
          obtain ⟨rfl, rfl⟩ := h
          refine ⟨by simp only [List.length_cons] at hlen ⊢; omega, ?_⟩
          intro g hg'
          obtain ⟨g', rfl, -⟩ := hg g hg'
          simp [parseValue, hc, hskip, hd]
        · next hd =>
          split at h
          · next ps r0 hpm =>
            simp only [Option.some.injEq, Prod.mk.injEq] at h
            obtain ⟨rfl, rfl⟩ := h
            obtain ⟨hlt, hfuel⟩ := hM _ _ _ _ hpm
            refine ⟨by simp only [List.length_cons] at hlen hlt ⊢; omega, ?_⟩
            intro g hg'
            obtain ⟨g', rfl, hg''⟩ := hg g hg'
            have := hfuel g' (by simp only [List.length_cons] at hlen ⊢; omega)
            simp [parseValue, hc, hskip, hd, this]
          · exact absurd h (by simp)
    · next hc =>
      split at h
      · next hc2 =>
        split at h
        · exact absurd h (by simp)
        · next d rest' hskip =>
          have hlen : (d :: rest').length ≤ rest.length := hskip ▸ length_skipWs_le rest
          split at h
          · next hd =>
            simp only [Option.some.injEq, Prod.mk.injEq] at h
            obtain ⟨rfl, rfl⟩ := h
            refine ⟨by simp only [List.length_cons] at hlen ⊢; omega, ?_⟩
            intro g hg'
            obtain ⟨g', rfl, -⟩ := hg g hg'
            simp [parseValue, hc, hc2, hskip, hd]
          · next hd =>
            split at h
            · next vs r0 hpe =>
              simp only [Option.some.injEq, Prod.mk.injEq] at h
              obtain ⟨rfl, rfl⟩ := h
              obtain ⟨hlt, hfuel⟩ := hE _ _ _ _ hpe
              refine ⟨by simp only [List.length_cons] at hlen hlt ⊢; omega, ?_⟩
              intro g hg'
              obtain ⟨g', rfl, hg''⟩ := hg g hg'
              have := hfuel g' (by simp only [List.length_cons] at hlen ⊢; omega)
              simp [parseValue, hc, hc2, hskip, hd, this]
            · exact absurd h (by simp)
      · next hc2 =>
        have key : ∀ g', parseValue (g' + 1) (c :: rest) = parseValue (f + 1) (c :: rest) := by
          intro g'
          simp only [parseValue, hc, hc2, if_false]
        have h' : parseValue (f + 1) (c :: rest) = some (v, r) := by
          simp only [parseValue, hc, hc2, if_false]
          exact h
        refine ⟨?_, ?_⟩
        · split at h
          · split at h
            · next t r0 hps =>
              simp only [Option.some.injEq, Prod.mk.injEq] at h
              obtain ⟨rfl, rfl⟩ := h
              have := parseStringBody_length _ _ _ hps
              simp only [List.length_cons]; omega
            · exact absurd h (by simp)
          · split at h
            · simp only [Option.map_eq_some', Prod.mk.injEq] at h
              obtain ⟨r0, hr0, -, rfl⟩ := h
              exact dropKeyword_length _ _ _ (by decide) hr0
            · split at h
              · simp only [Option.map_eq_some', Prod.mk.injEq] at h
                obtain ⟨r0, hr0, -, rfl⟩ := h
                exact dropKeyword_length _ _ _ (by decide) hr0
              · split at h
                · simp only [Option.map_eq_some', Prod.mk.injEq] at h
                  obtain ⟨r0, hr0, -, rfl⟩ := h
                  exact dropKeyword_length _ _ _ (by decide) hr0
                · exact parseNumber_length _ _ _ h
        · intro g hg'
          obtain ⟨g', rfl, -⟩ := hg g hg'
          rw [key g', h']

theorem parseElements_step (f : Nat)
    (hV : ∀ s v r, parseValue f s = some (v, r) →
      r.length < s.length ∧ ∀ g, 2 * s.length ≤ g → parseValue g s = some (v, r))
    (hE : ∀ s acc vs r, parseElements f s acc = some (vs, r) →
      r.length < s.length ∧ ∀ g, 2 * s.length + 1 ≤ g → parseElements g s acc = some (vs, r)) :
    ∀ s acc vs r, parseElements (f + 1) s acc = some (vs, r) →
      r.length < s.length ∧
        ∀ g, 2 * s.length + 1 ≤ g → parseElements g s acc = some (vs, r) := by
  intro s acc vs r h
  have hg : ∀ g, 2 * s.length + 1 ≤ g → ∃ g', g = g' + 1 ∧ 2 * s.length ≤ g' := by
    intro g hg
    exact ⟨g - 1, by omega, by omega⟩
  simp only [parseElements] at h
  split at h
  · exact absurd h (by simp)
  · next v r1 hpv =>
    obtain ⟨hlt1, hfuel1⟩ := hV _ _ _ hpv
    split at h
    · exact absurd h (by simp)
    · next d r' hskip =>
      have hlen : (d :: r').length ≤ r1.length := hskip ▸ length_skipWs_le r1
      split at h
      · next hd =>
        obtain ⟨hlt2, hfuel2⟩ := hE _ _ _ _ h
        have hlen2 := length_skipWs_le r'
        refine ⟨by simp only [List.length_cons] at hlen; omega, ?_⟩
        intro g hg'
        obtain ⟨g', rfl, hg''⟩ := hg g hg'
        have e1 := hfuel1 g' hg''
        have e2 := hfuel2 g' (by simp only [List.length_cons] at hlen; omega)
        simp [parseElements, e1, hskip, hd, e2]
      · next hd =>
        split at h
        · next hd2 =>
          simp only [Option.some.injEq, Prod.mk.injEq] at h
          obtain ⟨rfl, rfl⟩ := h
          refine ⟨by simp only [List.length_cons] at hlen; omega, ?_⟩
          intro g hg'
          obtain ⟨g', rfl, hg''⟩ := hg g hg'
          have e1 := hfuel1 g' hg''
          simp [parseElements, e1, hskip, hd, hd2]
        · exact absurd h (by simp)

theorem parseMembers_step (f : Nat)
    (hV : ∀ s v r, parseValue f s = some (v, r) →
      r.length < s.length ∧ ∀ g, 2 * s.length ≤ g → parseValue g s = some (v, r))
    (hM : ∀ s acc ps r, parseMembers f s acc = some (ps, r) →
      r.length < s.length ∧ ∀ g, 2 * s.length + 1 ≤ g → parseMembers g s acc = some (ps, r)) :
    ∀ s acc ps r, parseMembers (f + 1) s acc = some (ps, r) →
      r.length < s.length ∧
        ∀ g, 2 * s.length + 1 ≤ g → parseMembers g s acc = some (ps, r) := by
  intro s acc ps r h
  have hg : ∀ g, 2 * s.length + 1 ≤ g → ∃ g', g = g' + 1 ∧ 2 * s.length ≤ g' := by
    intro g hg
    exact ⟨g - 1, by omega, by omega⟩
  simp only [parseMembers] at h
  split at h
  · exact absurd h (by simp)
  · next q r0 =>
    split at h
    · next hq =>
      split at h
      · exact absurd h (by simp)
      · next k r1 hk =>
        have hl1 := parseStringBody_length _ _ _ hk
        split at h
        · exact absurd h (by simp)
        · next col r2 hskip1 =>
          have hl2 : (col :: r2).length ≤ r1.length := hskip1 ▸ length_skipWs_le r1
          split at h
          · next hcol =>
            split at h
            · exact absurd h (by simp)
            · next v r3 hpv =>
              obtain ⟨hlt3, hfuel3⟩ := hV _ _ _ hpv
              have hl3 := length_skipWs_le r2
              split at h
              · exact absurd h (by simp)
              · next d r4 hskip2 =>
                have hl4 : (d :: r4).length ≤ r3.length := hskip2 ▸ length_skipWs_le r3
                simp only [List.length_cons] at hl2 hl4 hg ⊢
                split at h
                · next hd =>
                  obtain ⟨hlt5, hfuel5⟩ := hM _ _ _ _ h
                  have hl5 := length_skipWs_le r4
                  refine ⟨by omega, ?_⟩
                  intro g hg'
                  obtain ⟨g', rfl, hg''⟩ := hg g hg'
                  have e1 := hfuel3 g' (by omega)
                  have e2 := hfuel5 g' (by omega)
                  simp [parseMembers, hq, hk, hskip1, hcol, e1, hskip2, hd, e2]
                · next hd =>
                  split at h
                  · next hd2 =>
                    simp only [Option.some.injEq, Prod.mk.injEq] at h
                    obtain ⟨rfl, rfl⟩ := h
                    refine ⟨by omega, ?_⟩
                    intro g hg'
                    obtain ⟨g', rfl, hg''⟩ := hg g hg'
                    have e1 := hfuel3 g' (by omega)
                    simp [parseMembers, hq, hk, hskip1, hcol, e1, hskip2, hd, hd2]
                  · exact absurd h (by simp)
          · exact absurd h (by simp)
    · exact absurd h (by simp)

/-- Whatever the parser accepts with some bound on nested calls, it accepts with
every bound from twice the length of the input on, and it consumes input. -/
theorem parse_fuel (f : Nat) :
    (∀ s v r, parseValue f s = some (v, r) →
      r.length < s.length ∧ ∀ g, 2 * s.length ≤ g → parseValue g s = some (v, r)) ∧
    (∀ s acc vs r, parseElements f s acc = some (vs, r) →
      r.length < s.length ∧ ∀ g, 2 * s.length + 1 ≤ g → parseElements g s acc = some (vs, r)) ∧
    (∀ s acc ps r, parseMembers f s acc = some (ps, r) →
      r.length < s.length ∧ ∀ g, 2 * s.length + 1 ≤ g → parseMembers g s acc = some (ps, r)) := by
  induction f with
  | zero =>
    refine ⟨?_, ?_, ?_⟩
    · intro s v r h; simp [parseValue] at h
    · intro s acc vs r h; simp [parseElements] at h
    · intro s acc ps r h; simp [parseMembers] at h
  | succ f ih =>
    obtain ⟨hV, hE, hM⟩ := ih
    exact ⟨parseValue_step f hE hM, parseElements_step f hV hE, parseMembers_step f hV hM⟩

/-- The bound on nested calls used by `jsonParse` is generous enough: a text that the
parser accepts with any bound at all is accepted by `jsonParse`, with the same value. -/
theorem jsonParse_of_parseValue (f : Nat) (text r : JSString) (v : JValue)
    (h : parseValue f (skipWs text) = some (v, r)) (hr : (skipWs r).isEmpty = true) :
    jsonParse text = Except.ok v := by
  have hfuel := ((parse_fuel f).1 _ _ _ h).2 (2 * text.length + 2)
    (by have := length_skipWs_le text; omega)
  unfold jsonParse
  rw [hfuel]
  simp [hr]

/-! ## Lemmas: cleanAndParseResponse -/

/-- The text that `cleanAndParseResponse` searches: the response without its fences. -/
theorem cleanAndParseResponse_cases (T : JSString) :
    cleanAndParseResponse T = Except.ok JValue.null ∨
    ∃ m ps, regexMatch reObject (removeMatches reFence (removeMatches reFenceJson T)) = some m ∧
      jsonParse m = Except.ok (JValue.obj ps) ∧
      cleanAndParseResponse T = Except.ok (JValue.obj ps) := by
  unfold cleanAndParseResponse
  simp only
  split
  · next m hm =>
    split
    · next v hv =>
      obtain ⟨m', rfl⟩ := regexMatch_reObject_head _ _ hm
      obtain ⟨ps, rfl⟩ := jsonParse_brace_isObject _ _ hv
      exact Or.inr ⟨_, ps, hm, hv, rfl⟩
    · exact Or.inl rfl
  · exact Or.inl rfl

theorem cleanAndParseResponse_ok (T : JSString) : ∃ v, cleanAndParseResponse T = Except.ok v := by
  rcases cleanAndParseResponse_cases T with h | ⟨m, ps, -, -, h⟩
  · exact ⟨_, h⟩
  · exact ⟨_, h⟩

/-! ## Lemmas: Fence stripping on a fenced object -/

/-- No fence starts inside `t ++ b` at its first character when `t` is a non-empty
end of a text without fences that ends in `}`. -/
theorem no_fence_at (J t b : JSString) (hfence : ¬ [96, 96, 96] <:+: J)
    (hclose : J.getLast? = some 125) (ht : t <:+ J) (hne : t ≠ []) :
    ¬ [96, 96, 96] <+: t ++ b := by
  intro hp
  have hlast : t.getLast? = some 125 := by
    obtain ⟨u, rfl⟩ := ht
    rw [List.getLast?_append_of_ne_nil _ hne] at hclose
    exact hclose
  match t, hne, ht, hlast, hp with
  | [a], _, _, hl, hp =>
    simp at hl
    subst hl
    simp at hp
  | [a, b'], _, _, hl, hp =>
    simp at hl
    subst hl
    simp at hp
  | a :: b' :: c :: t', _, ht, _, hp =>
    simp only [List.cons_append, List.cons_prefix_cons] at hp
    obtain ⟨rfl, rfl, rfl, -⟩ := hp
    apply hfence
    have : [96, 96, 96] <+: 96 :: 96 :: 96 :: t' := by simp
    exact this.isInfix.trans ht.isInfix

theorem isSpace_no_fence_at (w t b : JSString) (hw : ∀ c ∈ w, isSpace c = true)
    (ht : t <:+ w) (hne : t ≠ []) : ¬ [96, 96, 96] <+: t ++ b := by
  intro hp
  cases t with
  | nil => exact hne rfl
  | cons x t' =>
    simp only [List.cons_append, List.cons_prefix_cons] at hp
    have hx := hw x (ht.subset (List.mem_cons_self _ _))
    rw [← hp.1] at hx
    exact absurd hx (by decide)

/-- A fence pattern deletes nothing from a fence-free text that ends in `}` followed by
whitespace. -/
theorem removeMatchesAux_body (r : Regex) (J w b : JSString)
    (hr : ∀ t n, matchHere r t = some n → [96, 96, 96] <+: t)
    (hfence : ¬ [96, 96, 96] <:+: J) (hclose : J.getLast? = some 125)
    (hw : ∀ c ∈ w, isSpace c = true) :
    removeMatchesAux r 0 (J ++ (w ++ b)) = J ++ (w ++ removeMatchesAux r 0 b) := by
  rw [removeMatchesAux_append_noMatch r J (w ++ b), removeMatchesAux_append_noMatch r w b]
  · intro t ht hne
    exact matchHere_none_of_not_prefix r _ (hr _) (isSpace_no_fence_at w t b hw ht hne)
  · intro t ht hne
    exact matchHere_none_of_not_prefix r _ (hr _) (no_fence_at J t (w ++ b) hfence hclose ht hne)

theorem matchHere_reFenceJson_open (w s : JSString) (hw : ∀ c ∈ w, isSpace c = true) :
    matchHere reFenceJson (utf16 "```json" ++ (w ++ 123 :: s)) = some (7 + w.length) := by
  have h := matchHere_lit_append (utf16 "```json") [RegexItem.star isSpace] (w ++ 123 :: s)
  have hk : matchHere [RegexItem.star isSpace] (w ++ 123 :: s) = some w.length := by
    have : matchHere [RegexItem.star isSpace] (w ++ 123 :: s)
        = starFrom isSpace (matchHere []) (w ++ 123 :: s) := rfl
    rw [this, starFrom_nil_regex]
    have htw : (w ++ 123 :: s).takeWhile isSpace = w := by
      rw [List.takeWhile_append_of_pos (fun c hc => hw c hc)]
      simp [List.takeWhile, isSpace]
    rw [htw]
  have hl : (utf16 "```json").length = 7 := by decide
  rw [hk, hl] at h
  rw [show reFenceJson = Regex.lit (utf16 "```json") ++ [RegexItem.star isSpace] from rfl, h]
  simp [Nat.add_comm]

theorem removeMatches_reFenceJson_open (w s : JSString) (hw : ∀ c ∈ w, isSpace c = true) :
    removeMatches reFenceJson (utf16 "```json" ++ (w ++ 123 :: s))
      = removeMatches reFenceJson (123 :: s) := by
  have hm := matchHere_reFenceJson_open w s hw
  have hcons : utf16 "```json" ++ (w ++ 123 :: s)
      = 96 :: ([96, 96, 106, 115, 111, 110] ++ (w ++ 123 :: s)) := by
    have : utf16 "```json" = [96, 96, 96, 106, 115, 111, 110] := by decide
    rw [this]; rfl
  rw [hcons] at hm ⊢
  unfold removeMatches
  have h7 : 7 + w.length = (6 + w.length) + 1 := by omega
  rw [h7] at hm
  rw [removeMatchesAux, hm]
  simp only
  rw [removeMatchesAux_skip]
  congr 1
  rw [show 6 + w.length = ([96, 96, 106, 115, 111, 110] ++ w).length by simp; omega]
  rw [← List.append_assoc, List.drop_left]

theorem head_last_decompose (J : JSString) (hopen : J.head? = some 123)
    (hclose : J.getLast? = some 125) : ∃ body, J = 123 :: body ++ [125] := by
  cases J with
  | nil => simp at hopen
  | cons x J' =>
    simp only [List.head?_cons, Option.some.injEq] at hopen
    subst hopen
    rcases List.eq_nil_or_concat J' with rfl | ⟨body, y, rfl⟩
    · simp at hclose
    · rw [List.concat_eq_append, ← List.cons_append, List.getLast?_append_of_ne_nil _ (by simp)]
        at hclose
      simp only [List.getLast?_singleton, Option.some.injEq] at hclose
      subst hclose
      exact ⟨body, by simp⟩

/-- The cleaned text of a fenced object is the object followed by the whitespace that
preceded the closing fence. -/
theorem clean_fenced (J w1 w2 : JSString) (hopen : J.head? = some 123)
    (hclose : J.getLast? = some 125) (hfence : ¬ utf16 "```" <:+: J)
    (hw1 : ∀ c ∈ w1, isSpace c = true) (hw2 : ∀ c ∈ w2, isSpace c = true) :
    removeMatches reFence (removeMatches reFenceJson
      (utf16 "```json" ++ w1 ++ J ++ w2 ++ utf16 "```")) = J ++ w2 := by
  obtain ⟨body, hJ⟩ := head_last_decompose J hopen hclose
  have hfence' : ¬ [96, 96, 96] <:+: J := hfence
  have hshape : utf16 "```json" ++ w1 ++ J ++ w2 ++ utf16 "```"
      = utf16 "```json" ++ (w1 ++ 123 :: (body ++ [125] ++ (w2 ++ [96, 96, 96]))) := by
    rw [hJ]
    have : utf16 "```" = [96, 96, 96] := by decide
    rw [this]
    simp
  have hback : 123 :: (body ++ [125] ++ (w2 ++ [96, 96, 96])) = J ++ (w2 ++ [96, 96, 96]) := by
    rw [hJ]; simp
  rw [hshape, removeMatches_reFenceJson_open w1 _ hw1, hback]
  unfold removeMatches
  rw [removeMatchesAux_body reFenceJson J w2 _ (fun t n => matchHere_reFenceJson_prefix t n)
    hfence' hclose hw2]
  have e1 : removeMatchesAux reFenceJson 0 [96, 96, 96] = [96, 96, 96] := by decide
  rw [e1, removeMatchesAux_body reFence J w2 _ (fun t n => matchHere_reFence_prefix t n)
    hfence' hclose hw2]
  have e2 : removeMatchesAux reFence 0 [96, 96, 96] = [] := by decide
  rw [e2]
  simp

theorem cleanAndParseResponse_fenced (J w1 w2 : JSString) (v : JValue)
    (hopen : J.head? = some 123) (hclose : J.getLast? = some 125)
    (hfence : ¬ utf16 "```" <:+: J)
    (hw1 : ∀ c ∈ w1, isSpace c = true) (hw2 : ∀ c ∈ w2, isSpace c = true)
    (hvalid : jsonParse J = Except.ok v) :
    cleanAndParseResponse (utf16 "```json" ++ w1 ++ J ++ w2 ++ utf16 "```") = Except.ok v := by
  unfold cleanAndParseResponse
  simp only
  rw [clean_fenced J w1 w2 hopen hclose hfence hw1 hw2]
  obtain ⟨body, hJ⟩ := head_last_decompose J hopen hclose
  have hm := regexMatch_reObject_body body w2 hw2
  rw [← hJ] at hm
  rw [hm]
  simp only [hvalid]

/-! ## Lemmas: Objects and spread -/

theorem Props.find_set (k q : JSString) (v : JValue) (ps : Props) :
    Props.find q (Props.set k v ps) = if k = q then some v else Props.find q ps := by
  induction ps with
  | nil => simp [Props.set, Props.find]
  | cons kv ps ih =>
    obtain ⟨k', v'⟩ := kv
    by_cases hk : k' = k
    · subst hk
      by_cases hq : k' = q <;> simp [Props.set, Props.find, hq]
    · by_cases hq : k' = q
      · subst hq
        have : ¬ k = k' := fun h => hk h.symm
        simp [Props.set, Props.find, hk, this]
      · simp [Props.set, Props.find, hk, hq, ih]

theorem Props.has_iff_mem (q : JSString) (ps : Props) :
    Props.has q ps = true ↔ q ∈ ps.map Prod.fst := by
  induction ps with
  | nil => simp [Props.has, Props.find]
  | cons kv ps ih =>
    obtain ⟨k', v'⟩ := kv
    by_cases hq : k' = q
    · simp [Props.has, Props.find, hq]
    · have hq' : ¬ q = k' := fun h => hq h.symm
      simpa [Props.has, Props.find, hq, hq'] using ih

theorem Props.find_mem (q : JSString) (v : JValue) (ps : Props)
    (h : Props.find q ps = some v) : (q, v) ∈ ps := by
  induction ps with
  | nil => simp [Props.find] at h
  | cons kv ps ih =>
    obtain ⟨k', v'⟩ := kv
    by_cases hq : k' = q
    · simp only [Props.find, hq, if_true, Option.some.injEq] at h
      simp [hq, h]
    · simp only [Props.find, hq, if_false] at h
      exact List.mem_cons_of_mem _ (ih h)

theorem find_foldl_set (q : JSString) (v : JValue) (l : Props) (t : Props)
    (h : ∀ kv ∈ l, kv.1 = q → kv.2 = v) :
    Props.find q (l.foldl (fun acc kv => Props.set kv.1 kv.2 acc) t)
      = if q ∈ l.map Prod.fst then some v else Props.find q t := by
  induction l generalizing t with
  | nil => simp
  | cons kv l ih =>
    have ih' := ih (Props.set kv.1 kv.2 t) fun kv' hkv' => h kv' (List.mem_cons_of_mem _ hkv')
    simp only [List.foldl_cons, ih', List.map_cons, List.mem_cons, Props.find_set]
    by_cases hl : q ∈ l.map Prod.fst
    · simp [hl]
    · by_cases hk : kv.1 = q
      · have hv := h kv (List.mem_cons_self _ _) hk
        simp [hl, hk, hv]
      · have hk' : ¬ q = kv.1 := fun e => hk e.symm
        simp [hl, hk, hk']

/-- Object spread layers the own properties of an object over the target. -/
theorem find_spreadInto_obj (q : JSString) (t ps : Props) :
    Props.find q (spreadInto t (JValue.obj ps))
      = if Props.has q ps = true then Props.find q ps else Props.find q t := by
  unfold spreadInto JValue.ownProps
  rw [find_foldl_set q (Props.get q ps)]
  · have hmap : (ps.map fun kv => (kv.1, Props.get kv.1 ps)).map Prod.fst = ps.map Prod.fst := by
      simp [List.map_map, Function.comp_def]
    rw [hmap]
    by_cases hh : Props.has q ps = true
    · have hmem := (Props.has_iff_mem q ps).mp hh
      simp only [hmem, hh, if_true]
      unfold Props.has at hh
      unfold Props.get
      cases hf : Props.find q ps with
      | none => simp [hf] at hh
      | some v => rfl
    · have hmem : ¬ q ∈ ps.map Prod.fst := fun h => hh ((Props.has_iff_mem q ps).mpr h)
      simp [hmem, hh]
  · intro kv hkv hq
    simp only [List.mem_map] at hkv
    obtain ⟨kv', -, rfl⟩ := hkv
    simp only at hq ⊢
    rw [hq]

theorem get_spreadInto_obj (q : JSString) (t ps : Props) :
    Props.get q (spreadInto t (JValue.obj ps))
      = if Props.has q ps = true then Props.get q ps else Props.get q t := by
  unfold Props.get
  rw [find_spreadInto_obj]
  by_cases hh : Props.has q ps = true <;> simp [hh]

theorem has_spreadInto_obj (q : JSString) (t ps : Props) :
    Props.has q (spreadInto t (JValue.obj ps)) = (Props.has q ps || Props.has q t) := by
  unfold Props.has
  rw [find_spreadInto_obj]
  by_cases hh : Props.has q ps = true
  · unfold Props.has at hh
    simp [hh, Props.has]
  · simp only [Bool.not_eq_true] at hh
    have hh' := hh
    unfold Props.has at hh'
    simp [hh, hh']

theorem length_mapFrom {α β : Type} (f : Nat → α → β) (k : Nat) (l : List α) :
    (mapFrom f k l).length = l.length := by
  induction l generalizing k with
  | nil => rfl
  | cons x l ih => simp [mapFrom, ih]

theorem getElem?_mapFrom {α β : Type} (f : Nat → α → β) (k : Nat) (l : List α) (i : Nat) :
    (mapFrom f k l)[i]? = (l[i]?).map (f (k + i)) := by
  induction l generalizing k i with
  | nil => simp [mapFrom]
  | cons x l ih =>
    cases i with
    | zero => simp [mapFrom]
    | succ i =>
      simp only [mapFrom, List.getElem?_cons_succ, ih]
      rw [show k + 1 + i = k + (i + 1) by omega]

/-! ## Lemmas: Shot Ingestion -/

theorem shotDefaults_get (id : JValue) :
    ∀ fd ∈ shotFieldDefaults, Props.get (utf16 fd.1) (shotDefaults id) = jstr fd.2 := by
  intro fd hfd
  simp only [shotFieldDefaults, List.mem_cons, List.mem_singleton, List.not_mem_nil,
    or_false] at hfd
  rcases hfd with rfl | rfl | rfl | rfl | rfl | rfl | rfl | rfl | rfl | rfl | rfl | rfl <;> rfl

theorem shotDefaults_has (id : JValue) :
    ∀ f ∈ shotFields, Props.has (utf16 f) (shotDefaults id) = true := by
  intro f hf
  simp only [shotFields, List.mem_cons, List.mem_singleton, List.not_mem_nil, or_false] at hf
  rcases hf with rfl | rfl | rfl | rfl | rfl | rfl | rfl | rfl | rfl | rfl | rfl | rfl | rfl <;>
    rfl

theorem shotDefaults_defined (n : Int) :
    ∀ f ∈ shotFields, Props.get (utf16 f) (shotDefaults (jnum n)) ≠ JValue.undef ∧
      Props.get (utf16 f) (shotDefaults (jnum n)) ≠ JValue.null := by
  intro f hf
  simp only [shotFields, List.mem_cons, List.mem_singleton, List.not_mem_nil, or_false] at hf
  rcases hf with rfl | rfl | rfl | rfl | rfl | rfl | rfl | rfl | rfl | rfl | rfl | rfl | rfl <;>
    exact ⟨fun h => JValue.noConfusion h, fun h => JValue.noConfusion h⟩

theorem shotDefaults_keys (id : JValue) (k : JSString) (hk : k ≠ utf16 "id")
    (h : Props.has k (shotDefaults id) = true) : ∃ f ∈ shotFields, k = utf16 f := by
  have hmem := (Props.has_iff_mem k _).mp h
  simp only [shotDefaults, List.map_cons, List.map_nil, List.mem_cons, List.not_mem_nil,
    or_false] at hmem
  rcases hmem with h | h | h | h | h | h | h | h | h | h | h | h | h
  · exact absurd h hk
  all_goals exact ⟨_, by simp [shotFields], h⟩

theorem ingestShots_arr (p : Platform) (items : List JValue) :
    ingestShots p (JValue.arr items) = Except.ok (JValue.arr (mapFrom (ingestShot p) 0 items)) :=
  rfl

theorem ingestShots_getElem (p : Platform) (records : List Props) (i : Nat) (r : Props)
    (h : records[i]? = some r) :
    (mapFrom (ingestShot p) 0 (records.map JValue.obj))[i]?
      = some (JValue.obj (spreadInto
          (shotDefaults (jnum ((p.now i + (p.rand1000 i).val : Nat) : Int))) (JValue.obj r))) := by
  rw [getElem?_mapFrom, List.getElem?_map, h]
  simp [ingestShot]

theorem recoverShots_isArray (text : JSString) (v : JValue)
    (h : cleanAndParseResponse text = Except.ok v) :
    ∃ items, recoverShots v text = JValue.arr items := by
  have hv : v.isArray = false := by
    rcases cleanAndParseResponse_cases text with h' | ⟨m, ps, -, -, h'⟩ <;>
      · rw [h'] at h
        cases h
        rfl
  unfold recoverShots
  simp only [hv, Bool.not_false, if_true]
  split
  · next m hm =>
    split
    · next w hw =>
      obtain ⟨m', rfl⟩ := regexMatch_reArray_head _ _ hm
      exact jsonParse_bracket_isArray _ _ hw
    · exact ⟨[], rfl⟩
  · exact ⟨[], rfl⟩

theorem recoverShots_empty (text : JSString) (v : JValue)
    (h : cleanAndParseResponse text = Except.ok v)
    (hrec : regexMatch reArray text = none ∨
      ∃ m e, regexMatch reArray text = some m ∧ jsonParse m = Except.error e) :
    recoverShots v text = JValue.arr [] := by
  have hv : v.isArray = false := by
    rcases cleanAndParseResponse_cases text with h' | ⟨m, ps, -, -, h'⟩ <;>
      · rw [h'] at h
        cases h
        rfl
  unfold recoverShots
  simp only [hv, Bool.not_false, if_true]
  rcases hrec with hnone | ⟨m, e, hm, he⟩
  · simp [hnone]
  · simp [hm, he]

/-! ## Lemmas: The facade -/

theorem request_result_ok (g : GenAI) (failure prompt text : JSString)
    (k : JSString → Except JsError JValue) (v : JValue)
    (hg : g prompt = Except.ok text) (hk : k text = Except.ok v) :
    (GeminiService.request ⟨some g⟩ failure prompt k).result = Except.ok v := by
  simp [GeminiService.request, hg, hk]

theorem request_success (g : GenAI) (failure prompt text : JSString)
    (k : JSString → Except JsError JValue) (key : String) (hg : g prompt = Except.ok text)
    (hk : ∃ a, k text = Except.ok (envelope key a)) :
    (GeminiService.request ⟨some g⟩ failure prompt k).success = true := by
  obtain ⟨a, ha⟩ := hk
  have hr := request_result_ok g failure prompt text k _ hg ha
  unfold Outcome.success
  rw [hr]
  rfl

theorem analysisOr_null (fallback : JValue) (text : JSString)
    (h : cleanAndParseResponse text = Except.ok JValue.null) :
    analysisOr fallback text = Except.ok (envelope "analysis" fallback) := by
  simp [analysisOr, h, JValue.or, JValue.truthy]

theorem analysisOr_obj (fallback : JValue) (text : JSString) (ps : Props)
    (h : cleanAndParseResponse text = Except.ok (JValue.obj ps)) :
    analysisOr fallback text = Except.ok (envelope "analysis" (JValue.obj ps)) := by
  simp [analysisOr, h, JValue.or, JValue.truthy]

theorem analysisOr_ok (fallback : JValue) (text : JSString) :
    ∃ a, analysisOr fallback text = Except.ok (envelope "analysis" a) := by
  rcases cleanAndParseResponse_cases text with h | ⟨m, ps, -, -, h⟩
  · exact ⟨_, analysisOr_null _ _ h⟩
  · exact ⟨_, analysisOr_obj _ _ ps h⟩

theorem suggestionsFromResponse_ok (text : JSString) :
    ∃ a, suggestionsFromResponse text = Except.ok (envelope "suggestions" a) := by
  obtain ⟨v, hv⟩ := cleanAndParseResponse_ok text
  simp only [suggestionsFromResponse, hv]
  exact ⟨_, rfl⟩

theorem synonymsFromResponse_ok (text : JSString) :
    ∃ a, synonymsFromResponse text = Except.ok (envelope "synonyms" a) := by
  obtain ⟨v, hv⟩ := cleanAndParseResponse_ok text
  simp only [synonymsFromResponse, hv]
  exact ⟨_, rfl⟩

theorem shotListFromResponse_ok (p : Platform) (text : JSString) :
    ∃ items, shotListFromResponse p text = Except.ok (envelope "shots" (JValue.arr items)) := by
  obtain ⟨v, hv⟩ := cleanAndParseResponse_ok text
  obtain ⟨items, hitems⟩ := recoverShots_isArray text v hv
  exact ⟨mapFrom (ingestShot p) 0 items, by simp [shotListFromResponse, hv, hitems, ingestShots]⟩

/-! ## Lemmas: failures of the facade -/

theorem request_missingKey (failure prompt : JSString) (k : JSString → Except JsError JValue) :
    (GeminiService.request ⟨none⟩ failure prompt k).missingKey = true := by
  rfl

theorem request_failedOnce (g : GenAI) (failure prompt : JSString)
    (k : JSString → Except JsError JValue) (e : JsError) (hg : g prompt = Except.error e) :
    (GeminiService.request ⟨some g⟩ failure prompt k).failedOnce prompt (failure ++ e.message) := by
  simp [GeminiService.request, Outcome.failedOnce, hg]

/-! ## Lemmas: the prompts -/

theorem substring_zero (n : Nat) (s : JSString) : substring 0 n s = s.take n := by
  simp [substring]

theorem grammarDepth_none (level : JSString)
    (h : level ∉ [utf16 "basic", utf16 "standard", utf16 "comprehensive", utf16 "literary"]) :
    grammarDepth level = none := by
  simp only [List.mem_cons, List.mem_singleton, List.not_mem_nil, or_false, not_or] at h
  obtain ⟨h1, h2, h3, h4⟩ := h
  simp only [grammarDepth, h1, h2, h3, h4, if_false]

theorem characterFocus_none (analysisType : JSString)
    (h : analysisType ∉ [utf16 "voice", utf16 "development", utf16 "consistency",
      utf16 "dialogue", utf16 "backstory"]) :
    characterFocus analysisType = none := by
  simp only [List.mem_cons, List.mem_singleton, List.not_mem_nil, or_false, not_or] at h
  obtain ⟨h1, h2, h3, h4, h5⟩ := h
  simp only [characterFocus, h1, h2, h3, h4, h5, if_false]

theorem request_calls (g : GenAI) (failure prompt : JSString)
    (k : JSString → Except JsError JValue) :
    (GeminiService.request ⟨some g⟩ failure prompt k).calls = [prompt] :=
  rfl

/-! ## Lemmas: the object scan on a text without fences -/

theorem removeMatches_of_no_fence (r : Regex) (s : JSString)
    (hr : ∀ t n, matchHere r t = some n → [96, 96, 96] <+: t)
    (hfence : ¬ [96, 96, 96] <:+: s) : removeMatches r s = s := by
  have h := removeMatchesAux_append_noMatch r s [] (by
    intro t ht hne
    rw [List.append_nil]
    apply matchHere_none_of_not_prefix r t (hr t)
    intro hp
    exact hfence (hp.isInfix.trans ht.isInfix))
  simpa [removeMatches, removeMatchesAux] using h

theorem clean_of_no_fence (s : JSString) (hfence : ¬ [96, 96, 96] <:+: s) :
    removeMatches reFence (removeMatches reFenceJson s) = s := by
  rw [removeMatches_of_no_fence reFenceJson s (fun t n => matchHere_reFenceJson_prefix t n) hfence,
    removeMatches_of_no_fence reFence s (fun t n => matchHere_reFence_prefix t n) hfence]

theorem regexMatch_append_of_noMatch (r : Regex) (a b : JSString)
    (h : ∀ t, t <:+ a → t ≠ [] → matchHere r (t ++ b) = none) :
    regexMatch r (a ++ b) = regexMatch r b := by
  induction a with
  | nil => rfl
  | cons x a ih =>
    have hx := h (x :: a) (List.suffix_refl _) (by simp)
    have ih' := ih fun t ht hne => h t (ht.trans (List.suffix_cons x a)) hne
    simp only [List.cons_append] at hx ⊢
    rw [regexMatch, hx]
    exact ih'

theorem matchHere_reObject_none_of_head (t : JSString) (h : t.head? ≠ some 123) :
    matchHere reObject t = none := by
  cases hm : matchHere reObject t with
  | none => rfl
  | some n =>
    obtain ⟨t', rfl, -⟩ := matchHere_reObject_some t n hm
    simp at h

/-- In a text whose first `{` opens `body` and whose last `}` closes it,
`/\{[\s\S]*\}/` matches exactly from that `{` to that `}`. -/
theorem regexMatch_reObject_span (pre body post : JSString) (hpre : 123 ∉ pre)
    (hpost : 125 ∉ post) :
    regexMatch reObject (pre ++ (123 :: body ++ [125]) ++ post) = some (123 :: body ++ [125]) := by
  have hstar : starFrom anyChar (matchHere [RegexItem.chr 125]) (125 :: post) = some 1 := by
    have hnone : starFrom anyChar (matchHere [RegexItem.chr 125]) post = none :=
      starFrom_none _ _ _ fun t ht => by
        cases t with
        | nil => rfl
        | cons x t' =>
          have hx : x ≠ 125 := by
            rintro rfl
            exact hpost (ht.subset (List.mem_cons_self _ _))
          simp [matchHere, hx]
    have hk1 : matchHere [RegexItem.chr 125] (125 :: post) = some 1 := by simp [matchHere]
    rw [starFrom]
    simp only [anyChar, if_true]
    rw [hnone]
    exact hk1
  have h2 := starFrom_anyChar_append (matchHere [RegexItem.chr 125]) body (125 :: post) 1 hstar
  have hm : matchHere reObject (123 :: (body ++ 125 :: post)) = some (body.length + 1 + 1) := by
    have : matchHere reObject (123 :: (body ++ 125 :: post))
        = (starFrom anyChar (matchHere [RegexItem.chr 125]) (body ++ 125 :: post)).map (· + 1) := by
      simp [reObject, matchHere]
    rw [this, h2]
    rfl
  have hl : pre ++ (123 :: body ++ [125]) ++ post = pre ++ (123 :: (body ++ 125 :: post)) := by
    simp
  rw [hl, regexMatch_append_of_noMatch reObject pre _]
  · rw [regexMatch, hm]
    simp only [Option.some.injEq]
    rw [show body.length + 1 + 1 = (123 :: (body ++ [125])).length by simp]
    rw [show 123 :: (body ++ 125 :: post) = (123 :: (body ++ [125])) ++ post by simp,
      List.take_left]
    simp
  · intro t ht hne
    apply matchHere_reObject_none_of_head
    cases t with
    | nil => exact absurd rfl hne
    | cons x t' =>
      have hx : x ≠ 123 := by
        rintro rfl
        exact hpre (ht.subset (List.mem_cons_self _ _))
      simpa using hx

/-- On a text without fences, `cleanAndParseResponse` is decided by the text from
the first `{` to the last `}`. -/
theorem cleanAndParseResponse_span (pre body post : JSString) (hpre : 123 ∉ pre)
    (hpost : 125 ∉ post)
    (hfence : ¬ [96, 96, 96] <:+: pre ++ (123 :: body ++ [125]) ++ post) :
    cleanAndParseResponse (pre ++ (123 :: body ++ [125]) ++ post)
      = match jsonParse (123 :: body ++ [125]) with
        | Except.ok v => Except.ok v
        | Except.error _ => Except.ok JValue.null := by
  unfold cleanAndParseResponse
  simp only
  rw [clean_of_no_fence _ hfence, regexMatch_reObject_span pre body post hpre hpost]

/-! ## Lemmas: CSV quoting and the export of the breakdown -/

theorem replaceMatches_reDquote (s : JSString) :
    replaceMatches reDquote [34, 34] s
      = (s.map fun c => if c = 34 then [34, 34] else [c]).flatten := by
  unfold replaceMatches
  induction s with
  | nil => simp [replaceMatchesAux, reDquote, matchHere]
  | cons x s ih =>
    by_cases hx : x = 34
    · subst hx
      have hm : matchHere reDquote (34 :: s) = some (0 + 1) := by simp [reDquote, matchHere]
      rw [replaceMatchesAux, hm]
      simp only
      rw [ih]
      simp
    · have hm : matchHere reDquote (x :: s) = none := by simp [reDquote, matchHere, hx]
      rw [replaceMatchesAux, hm]
      simp only
      rw [ih]
      simp [hx]

theorem csvQuoted_str (s : JSString) : csvQuoted (JValue.str s) = Except.ok (csvField s) := by
  simp [csvQuoted, csvField, replaceMatches_reDquote]

theorem breakdownRows_strings (category : JSString) (items : List JSString) :
    breakdownRows category (items.map JValue.str)
      = Except.ok (items.map fun item => category ++ [44] ++ csvField item ++ [10]).flatten := by
  induction items with
  | nil => rfl
  | cons item rest ih =>
    simp only [List.map_cons, breakdownRows, csvQuoted_str, ih, List.flatten_cons]

theorem breakdownCsvBody_strings (elements : List (JSString × List JSString)) :
    breakdownCsvBody (elements.map fun p => (p.1, JValue.arr (p.2.map JValue.str)))
      = Except.ok (elements.map fun p =>
          (p.2.map fun item => p.1 ++ [44] ++ csvField item ++ [10]).flatten).flatten := by
  induction elements with
  | nil => rfl
  | cons p rest ih =>
    simp only [List.map_cons, breakdownCsvBody, breakdownRows_strings, ih, List.flatten_cons]

/-! ## Lemmas: the CSV reader on exported rows -/

theorem csvReadAux_unquoted (cs : JSString) (field : JSString) (record : List JSString)
    (records : List (List JSString)) (rest : JSString)
    (hplain : ∀ ch ∈ cs, ch ≠ 34 ∧ ch ≠ 44 ∧ ch ≠ 10 ∧ ch ≠ 13) :
    csvReadAux CsvMode.unquoted field record records (cs ++ 44 :: rest)
      = csvReadAux CsvMode.fieldStart [] (record ++ [field ++ cs]) records rest := by
  induction cs generalizing field with
  | nil => simp [csvReadAux]
  | cons c cs ih =>
    obtain ⟨-, h44, h10, h13⟩ := hplain c (List.mem_cons_self _ _)
    have ih' := ih (field ++ [c]) fun ch hch => hplain ch (List.mem_cons_of_mem _ hch)
    simp only [List.cons_append, csvReadAux, h44, h10, h13, false_and, if_false]
    exact ih'.trans (by rw [List.append_assoc]; rfl)

theorem csvReadAux_fieldStart (cs : JSString) (record : List JSString)
    (records : List (List JSString)) (rest : JSString)
    (hplain : ∀ ch ∈ cs, ch ≠ 34 ∧ ch ≠ 44 ∧ ch ≠ 10 ∧ ch ≠ 13) :
    csvReadAux CsvMode.fieldStart [] record records (cs ++ 44 :: rest)
      = csvReadAux CsvMode.fieldStart [] (record ++ [cs]) records rest := by
  cases cs with
  | nil => simp [csvReadAux]
  | cons c cs =>
    obtain ⟨h34, h44, h10, h13⟩ := hplain c (List.mem_cons_self _ _)
    have hu := csvReadAux_unquoted cs [c] record records rest
      fun ch hch => hplain ch (List.mem_cons_of_mem _ hch)
    simp only [List.cons_append, csvReadAux, h34, h44, h10, h13, false_and, if_false,
      List.nil_append]
    rw [hu]
    simp

theorem csvReadAux_quoted (item field : JSString) (record : List JSString)
    (records : List (List JSString)) (rest : JSString) :
    csvReadAux CsvMode.quoted field record records
        ((item.map fun c => if c = 34 then [34, 34] else [c]).flatten ++ 34 :: 10 :: rest)
      = csvReadAux CsvMode.fieldStart [] [] (records ++ [record ++ [field ++ item]]) rest := by
  induction item generalizing field with
  | nil => simp [csvReadAux]
  | cons x xs ih =>
    by_cases hx : x = 34
    · subst hx
      have ih' := ih (field ++ [34])
      simp only [List.map_cons, if_true, List.flatten_cons, List.cons_append, List.nil_append,
        csvReadAux]
      exact ih'.trans (by rw [List.append_assoc]; rfl)
    · have ih' := ih (field ++ [x])
      simp only [List.map_cons, hx, if_false, List.flatten_cons, List.cons_append,
        List.nil_append, csvReadAux]
      exact ih'.trans (by rw [List.append_assoc]; rfl)

/-- The reader turns an exported row into the record of its category and its item. -/
theorem csvReadAux_row (category item : JSString) (records : List (List JSString))
    (rest : JSString) (hplain : ∀ ch ∈ category, ch ≠ 34 ∧ ch ≠ 44 ∧ ch ≠ 10 ∧ ch ≠ 13) :
    csvReadAux CsvMode.fieldStart [] [] records
        (category ++ [44] ++ csvField item ++ [10] ++ rest)
      = csvReadAux CsvMode.fieldStart [] [] (records ++ [[category, item]]) rest := by
  have hshape : category ++ [44] ++ csvField item ++ [10] ++ rest
      = category ++ 44 :: (34 ::
          ((item.map fun c => if c = 34 then [34, 34] else [c]).flatten ++ 34 :: 10 :: rest)) := by
    simp [csvField]
  rw [hshape, csvReadAux_fieldStart category [] records _ hplain]
  have hq := csvReadAux_quoted item [] [category] records rest
  simp only [List.nil_append, csvReadAux, if_true]
  rw [hq]
  simp

theorem csvReadAux_rows (category : JSString) (items : List JSString)
    (records : List (List JSString)) (rest : JSString)
    (hplain : ∀ ch ∈ category, ch ≠ 34 ∧ ch ≠ 44 ∧ ch ≠ 10 ∧ ch ≠ 13) :
    csvReadAux CsvMode.fieldStart [] [] records
        ((items.map fun item => category ++ [44] ++ csvField item ++ [10]).flatten ++ rest)
      = csvReadAux CsvMode.fieldStart [] [] (records ++ items.map fun item => [category, item])
          rest := by
  induction items generalizing records with
  | nil => simp
  | cons item items ih =>
    have hrow := csvReadAux_row category item records
      ((items.map fun item => category ++ [44] ++ csvField item ++ [10]).flatten ++ rest) hplain
    rw [List.map_cons, List.flatten_cons, List.append_assoc, hrow, ih]
    simp

theorem csvReadAux_body (elements : List (JSString × List JSString))
    (records : List (List JSString))
    (hplain : ∀ p ∈ elements, ∀ ch ∈ p.1, ch ≠ 34 ∧ ch ≠ 44 ∧ ch ≠ 10 ∧ ch ≠ 13) :
    csvReadAux CsvMode.fieldStart [] [] records
        (elements.map fun p =>
          (p.2.map fun item => p.1 ++ [44] ++ csvField item ++ [10]).flatten).flatten
      = records ++ (elements.map fun p => p.2.map fun item => [p.1, item]).flatten := by
  induction elements generalizing records with
  | nil => simp [csvReadAux]
  | cons p elements ih =>
    have hp := hplain p (List.mem_cons_self _ _)
    have ih' := fun records => ih records fun q hq => hplain q (List.mem_cons_of_mem _ hq)
    simp only [List.map_cons, List.flatten_cons]
    rw [csvReadAux_rows p.1 p.2 records _ hp, ih']
    simp

theorem csvRead_header (body : JSString) :
    csvRead (utf16 "Category,Element\n" ++ body)
      = csvReadAux CsvMode.fieldStart [] [] [[utf16 "Category", utf16 "Element"]] body := by
  have h1 := csvReadAux_fieldStart (utf16 "Category") [] [] (utf16 "Element\n" ++ body)
    (by decide)
  have hshape : utf16 "Category,Element\n" ++ body
      = utf16 "Category" ++ 44 :: (utf16 "Element\n" ++ body) := by
    have : utf16 "Category,Element\n" = utf16 "Category" ++ 44 :: utf16 "Element\n" := by decide
    rw [this]
    simp
  unfold csvRead
  rw [hshape, h1]
  have h2 : utf16 "Element\n" = [69, 108, 101, 109, 101, 110, 116, 10] := by decide
  have h3 : utf16 "Element" = [69, 108, 101, 109, 101, 110, 116] := by decide
  have h4 : utf16 "Category" = [67, 97, 116, 101, 103, 111, 114, 121] := by decide
  rw [h2, h3, h4]
  simp [csvReadAux]

/-! ## Lemmas: grouping the records by category -/

theorem itemsOf_append (c : JSString) (a b : List (List JSString)) :
    itemsOf c (a ++ b) = itemsOf c a ++ itemsOf c b := by
  simp [itemsOf, List.filterMap_append]

theorem itemsOf_rows_same (c : JSString) (items : List JSString) :
    itemsOf c (items.map fun item => [c, item]) = items := by
  induction items with
  | nil => rfl
  | cons item items ih =>
    have : itemsOf c ([c, item] :: items.map fun item => [c, item])
        = item :: itemsOf c (items.map fun item => [c, item]) := by
      simp [itemsOf, List.filterMap_cons]
    rw [List.map_cons, this, ih]

theorem itemsOf_rows_other (c c' : JSString) (items : List JSString) (h : c' ≠ c) :
    itemsOf c (items.map fun item => [c', item]) = [] := by
  induction items with
  | nil => rfl
  | cons item items ih =>
    have : itemsOf c ([c', item] :: items.map fun item => [c', item])
        = itemsOf c (items.map fun item => [c', item]) := by
      simp [itemsOf, List.filterMap_cons, h]
    rw [List.map_cons, this, ih]

theorem itemsOf_absent (c : JSString) (elements : List (JSString × List JSString))
    (h : c ∉ elements.map Prod.fst) :
    itemsOf c (elements.map fun p => p.2.map fun item => [p.1, item]).flatten = [] := by
  induction elements with
  | nil => rfl
  | cons q rest ih =>
    simp only [List.map_cons, List.mem_cons, not_or] at h
    rw [List.map_cons, List.flatten_cons, itemsOf_append,
      itemsOf_rows_other c q.1 q.2 (fun e => h.1 e.symm), ih h.2]
    rfl

theorem itemsOf_present (elements : List (JSString × List JSString))
    (hnodup : (elements.map Prod.fst).Nodup) :
    ∀ p ∈ elements,
      itemsOf p.1 (elements.map fun p => p.2.map fun item => [p.1, item]).flatten = p.2 := by
  induction elements with
  | nil => intro p hp; cases hp
  | cons q rest ih =>
    intro p hp
    simp only [List.map_cons, List.nodup_cons] at hnodup
    rw [List.map_cons, List.flatten_cons, itemsOf_append]
    rcases List.mem_cons.mp hp with rfl | hrest
    · rw [itemsOf_rows_same, itemsOf_absent _ rest hnodup.1]
      simp
    · have hne : q.1 ≠ p.1 := by
        intro e
        apply hnodup.1
        rw [e]
        exact List.mem_map_of_mem Prod.fst hrest
      rw [itemsOf_rows_other p.1 q.1 q.2 hne, ih hnodup.2 p hrest]
      rfl

theorem exportBreakdown_strings (elements : List (JSString × List JSString)) :
    exportBreakdown (elements.map fun p => (p.1, JValue.arr (p.2.map JValue.str)))
      = Except.ok (utf16 "Category,Element\n" ++ (elements.map fun p =>
          (p.2.map fun item => p.1 ++ [44] ++ csvField item ++ [10]).flatten).flatten) := by
  simp only [exportBreakdown, breakdownCsvBody_strings]

/-! ## Lemmas: the keys of the breakdown -/

theorem keys_set_of_mem (k : JSString) (v : JValue) (ps : Props) (h : k ∈ ps.map Prod.fst) :
    (Props.set k v ps).map Prod.fst = ps.map Prod.fst := by
  induction ps with
  | nil => cases h
  | cons kv ps ih =>
    obtain ⟨k', v'⟩ := kv
    by_cases hk : k' = k
    · simp [Props.set, hk]
    · have hmem : k ∈ ps.map Prod.fst := by
        rcases List.mem_cons.mp h with h' | h'
        · exact absurd h'.symm hk
        · exact h'
      simp [Props.set, hk, ih hmem]

theorem keys_set_of_not_mem (k : JSString) (v : JValue) (ps : Props)
    (h : k ∉ ps.map Prod.fst) :
    (Props.set k v ps).map Prod.fst = ps.map Prod.fst ++ [k] := by
  induction ps with
  | nil => rfl
  | cons kv ps ih =>
    obtain ⟨k', v'⟩ := kv
    simp only [List.map_cons, List.mem_cons, not_or] at h
    have hk : ¬ k' = k := fun e => h.1 e.symm
    simp [Props.set, hk, ih h.2]

theorem keys_foldl_set (l t : Props) (hnodup : (l.map Prod.fst).Nodup)
    (hdisj : ∀ k ∈ l.map Prod.fst, k ∉ t.map Prod.fst) :
    (l.foldl (fun acc kv => Props.set kv.1 kv.2 acc) t).map Prod.fst
      = t.map Prod.fst ++ l.map Prod.fst := by
  induction l generalizing t with
  | nil => simp
  | cons kv l ih =>
    simp only [List.map_cons, List.nodup_cons] at hnodup
    have hkv : kv.1 ∉ t.map Prod.fst := hdisj kv.1 (by simp)
    have hstep := keys_set_of_not_mem kv.1 kv.2 t hkv
    rw [List.foldl_cons, ih (Props.set kv.1 kv.2 t) hnodup.2, hstep]
    · simp
    · intro k hk
      rw [hstep]
      simp only [List.mem_append, List.mem_singleton, not_or]
      refine ⟨hdisj k (by simp [hk]), ?_⟩
      rintro rfl
      exact hnodup.1 hk

/-- Spreading an object into an empty literal keeps its keys, in order. -/
theorem keys_spreadInto_nil (ps : Props) (hnodup : (ps.map Prod.fst).Nodup) :
    (spreadInto [] (JValue.obj ps)).map Prod.fst = ps.map Prod.fst := by
  unfold spreadInto JValue.ownProps
  have hmap : (ps.map fun kv => (kv.1, Props.get kv.1 ps)).map Prod.fst = ps.map Prod.fst := by
    simp [List.map_map, Function.comp_def]
  rw [keys_foldl_set _ [] (by rw [hmap]; exact hnodup) (by simp), hmap]
  simp

theorem get_undef_of_not_mem (k : JSString) (ps : Props) (h : k ∉ ps.map Prod.fst) :
    Props.get k ps = JValue.undef := by
  have hh : ¬ Props.has k ps = true := fun hh => h ((Props.has_iff_mem k ps).mp hh)
  have hf : Props.find k ps = none := by simpa [Props.has] using hh
  simp [Props.get, hf]

theorem appendToCategory_keys (category : JSString) (item : JValue) (prev next : Props)
    (hnodup : (prev.map Prod.fst).Nodup)
    (h : appendToCategory category item prev = Except.ok next) :
    category ∈ prev.map Prod.fst ∧ next.map Prod.fst = prev.map Prod.fst := by
  have hmem : category ∈ prev.map Prod.fst := by
    by_contra hnot
    simp [appendToCategory, get_undef_of_not_mem category prev hnot, JValue.iterate] at h
  refine ⟨hmem, ?_⟩
  unfold appendToCategory at h
  split at h
  · cases h
  · simp only [Except.ok.injEq] at h
    rw [← h, keys_set_of_mem _ _ _ (by rw [keys_spreadInto_nil prev hnodup]; exact hmem),
      keys_spreadInto_nil prev hnodup]

theorem removeFromCategory_keys (category : JSString) (index : Nat) (prev next : Props)
    (hnodup : (prev.map Prod.fst).Nodup)
    (h : removeFromCategory category index prev = Except.ok next) :
    next.map Prod.fst = prev.map Prod.fst := by
  have hmem : category ∈ prev.map Prod.fst := by
    by_contra hnot
    simp [removeFromCategory, get_undef_of_not_mem category prev hnot] at h
  unfold removeFromCategory at h
  split at h
  · simp only [Except.ok.injEq] at h
    rw [← h, keys_set_of_mem _ _ _ (by rw [keys_spreadInto_nil prev hnodup]; exact hmem),
      keys_spreadInto_nil prev hnodup]
  · cases h

theorem BreakdownOp.apply_keys (op : BreakdownOp) (st st' : BreakdownState)
    (hnodup : (st.breakdownElements.map Prod.fst).Nodup)
    (h : op.apply st = Except.ok st') :
    st'.breakdownElements.map Prod.fst = st.breakdownElements.map Prod.fst := by
  cases op with
  | tag selectedText elementType =>
    simp only [BreakdownOp.apply, tagElement] at h
    split at h
    · cases h; rfl
    · split at h
      · cases h
      · next elements hel =>
        cases h
        exact (appendToCategory_keys _ _ _ _ hnodup hel).2
  | accept category item =>
    simp only [BreakdownOp.apply, acceptAiSuggestion] at h
    split at h
    · cases h
    · next elements hel =>
      cases h
      exact (appendToCategory_keys _ _ _ _ hnodup hel).2
  | remove category index =>
    simp only [BreakdownOp.apply, removeItem] at h
    split at h
    · cases h
    · next elements hel =>
      cases h
      exact removeFromCategory_keys _ _ _ _ hnodup hel

theorem applyOps_keys (ops : List BreakdownOp) (st st' : BreakdownState)
    (hkeys : st.breakdownElements.map Prod.fst = breakdownCategories.map utf16)
    (h : applyOps ops st = some st') :
    st'.breakdownElements.map Prod.fst = breakdownCategories.map utf16 := by
  induction ops generalizing st with
  | nil =>
    simp only [applyOps, Option.some.injEq] at h
    rw [← h]
    exact hkeys
  | cons op ops ih =>
    simp only [applyOps] at h
    split at h
    · next st1 h1 =>
      have hnodup : (st.breakdownElements.map Prod.fst).Nodup := by
        rw [hkeys]
        decide
      exact ih st1 ((BreakdownOp.apply_keys op st st1 hnodup h1).trans hkeys) h
    · cases h

/-! ## Lemmas: no fence is left after fence stripping -/

theorem matchHere_reFence_of_prefix (s : JSString) (h : [96, 96, 96] <+: s) :
    ∃ n, matchHere reFence s = some (n + 1) := by
  obtain ⟨t, rfl⟩ := h
  have h1 := matchHere_lit_append (utf16 "```") [RegexItem.star isSpace] t
  have h2 : matchHere [RegexItem.star isSpace] t = some (t.takeWhile isSpace).length :=
    starFrom_nil_regex isSpace t
  rw [h2] at h1
  exact ⟨(t.takeWhile isSpace).length + 2, h1⟩

theorem removeMatchesAux_reFence_kept (x : Nat) (s : JSString)
    (h : ¬ [96, 96, 96] <+: x :: s) :
    removeMatchesAux reFence 0 (x :: s) = x :: removeMatchesAux reFence 0 s := by
  have hm := matchHere_none_of_not_prefix reFence (x :: s)
    (fun n hn => matchHere_reFence_prefix _ n hn) h
  rw [removeMatchesAux, hm]

theorem removeMatchesAux_reFence_head (s r : JSString) (h : ¬ [96, 96, 96] <+: s)
    (hout : removeMatchesAux reFence 0 s = 96 :: r) :
    ∃ s', s = 96 :: s' ∧ removeMatchesAux reFence 0 s' = r := by
  cases s with
  | nil => simp [removeMatchesAux] at hout
  | cons x s' =>
    rw [removeMatchesAux_reFence_kept x s' h] at hout
    simp only [List.cons.injEq] at hout
    exact ⟨s', by rw [hout.1], hout.2⟩

/-- A backtick that the second pass keeps is not followed, in the output, by two more. -/
theorem removeMatchesAux_reFence_no_prefix (x : Nat) (s : JSString)
    (h : ¬ [96, 96, 96] <+: x :: s) :
    ¬ [96, 96, 96] <+: x :: removeMatchesAux reFence 0 s := by
  intro hp
  obtain ⟨t, ht⟩ := hp
  simp only [List.cons_append, List.nil_append, List.cons.injEq] at ht
  obtain ⟨hx, hout⟩ := ht
  subst hx
  by_cases h1 : [96, 96, 96] <+: s
  · obtain ⟨u, rfl⟩ := h1
    exact h ⟨96 :: u, rfl⟩
  · obtain ⟨s1, rfl, hout1⟩ := removeMatchesAux_reFence_head s _ h1 hout.symm
    by_cases h2 : [96, 96, 96] <+: s1
    · obtain ⟨u, rfl⟩ := h2
      exact h1 ⟨96 :: u, rfl⟩
    · obtain ⟨s2, rfl, -⟩ := removeMatchesAux_reFence_head s1 _ h2 hout1
      exact h ⟨s2, rfl⟩

theorem removeMatchesAux_reFence_no_fence (n : Nat) :
    ∀ s : JSString, s.length ≤ n → ¬ [96, 96, 96] <:+: removeMatchesAux reFence 0 s := by
  induction n with
  | zero =>
    intro s hs
    have : s = [] := List.length_eq_zero.mp (Nat.le_zero.mp hs)
    subst this
    simp [removeMatchesAux]
  | succ n ih =>
    intro s hs
    cases s with
    | nil => simp [removeMatchesAux]
    | cons x s' =>
      have hlen : s'.length ≤ n := by simpa using hs
      by_cases hp : [96, 96, 96] <+: x :: s'
      · obtain ⟨k, hk⟩ := matchHere_reFence_of_prefix _ hp
        rw [removeMatchesAux, hk]
        simp only
        rw [removeMatchesAux_skip]
        exact ih _ ((List.length_drop _ _).le.trans ((Nat.sub_le _ _).trans hlen))
      · rw [removeMatchesAux_reFence_kept x s' hp, List.infix_cons_iff]
        rintro (h1 | h1)
        · exact removeMatchesAux_reFence_no_prefix x s' hp h1
        · exact ih s' hlen h1

/-! ## Lemmas: the object scan is the span of the specification -/

theorem regexMatch_reObject_none_of_not_mem (s : JSString) (h : 125 ∉ s) :
    regexMatch reObject s = none := by
  cases hm : regexMatch reObject s with
  | none => rfl
  | some m =>
    have hs := regexMatch_reObject_sublist s m hm
    exact absurd (hs.subset (by simp)) h

theorem regexMatch_reObject_eq_objectSpan (s : JSString) :
    regexMatch reObject s = objectSpan s := by
  have hsplit := List.takeWhile_append_dropWhile (fun c => c != 123) s
  have hpre : 123 ∉ s.takeWhile fun c => c != 123 := by
    intro hmem
    have := List.mem_takeWhile_imp hmem
    simp at this
  unfold objectSpan
  generalize s.takeWhile (fun c => c != 123) = pre at hsplit hpre
  cases hd : s.dropWhile (fun c => c != 123) with
  | nil =>
    simp only
    rw [hd, List.append_nil] at hsplit
    cases hm : regexMatch reObject s with
    | none => rfl
    | some m =>
      have hs := regexMatch_reObject_sublist s m hm
      have h123 : (123 : Nat) ∈ s := hs.subset (by simp)
      rw [← hsplit] at h123
      exact absurd h123 hpre
  | cons c rest =>
    have hc : c = 123 := by
      have := List.head_dropWhile_not (fun c => c != 123) s (by rw [hd]; simp)
      simpa [hd] using this
    subst hc
    simp only
    rw [hd] at hsplit
    by_cases h125 : 125 ∈ rest
    · rw [if_pos h125]
      have hrsplit := List.takeWhile_append_dropWhile (fun c => c != 125) rest.reverse
      have hpost : 125 ∉ (rest.reverse.takeWhile fun c => c != 125).reverse := by
        intro hmem
        have := List.mem_takeWhile_imp (List.mem_reverse.mp hmem)
        simp at this
      cases hd2 : rest.reverse.dropWhile (fun c => c != 125) with
      | nil =>
        rw [hd2, List.append_nil] at hrsplit
        have : 125 ∈ rest.reverse := List.mem_reverse.mpr h125
        rw [← hrsplit] at this
        exact absurd (List.mem_reverse.mpr this) hpost
      | cons c2 b =>
        have hc2 : c2 = 125 := by
          have := List.head_dropWhile_not (fun c => c != 125) rest.reverse (by rw [hd2]; simp)
          simpa [hd2] using this
        subst hc2
        rw [hd2] at hrsplit
        have hrest : rest = b.reverse ++ [125]
            ++ (rest.reverse.takeWhile fun c => c != 125).reverse := by
          have := congrArg List.reverse hrsplit
          simpa using this.symm
        have hs : s = pre ++ (123 :: b.reverse ++ [125])
            ++ (rest.reverse.takeWhile fun c => c != 125).reverse := by
          rw [← hsplit]
          conv_lhs => rw [hrest]
          simp
        rw [hs, regexMatch_reObject_span _ _ _ hpre hpost]
        simp
    · rw [if_neg h125, ← hsplit]
      rw [regexMatch_append_of_noMatch reObject _ _]
      · rw [regexMatch]
        have hm : matchHere reObject (123 :: rest) = none := by
          cases hm : matchHere reObject (123 :: rest) with
          | none => rfl
          | some n =>
            obtain ⟨t', ht, hmem⟩ := matchHere_reObject_some _ n hm
            simp only [List.cons.injEq, true_and] at ht
            subst ht
            exact absurd hmem h125
        rw [hm]
        exact regexMatch_reObject_none_of_not_mem rest h125
      · intro t ht hne
        apply matchHere_reObject_none_of_head
        cases t with
        | nil => exact absurd rfl hne
        | cons x t' =>
          have hx : x ≠ 123 := by
            rintro rfl
            exact hpre (ht.subset (List.mem_cons_self _ _))
          simpa using hx

/-! ## Lemmas: the array scan of the recovery pass -/

theorem starFrom_append_of_all (p : Nat → Bool) (k : JSString → Option Nat) (a b : JSString)
    (n : Nat) (ha : ∀ c ∈ a, p c = true) (h : starFrom p k b = some n) :
    starFrom p k (a ++ b) = some (a.length + n) := by
  induction a with
  | nil => simpa using h
  | cons x a ih =>
    have hx : p x = true := ha x (List.mem_cons_self _ _)
    have ih' := ih fun c hc => ha c (List.mem_cons_of_mem _ hc)
    have e : starFrom p k (x :: a ++ b)
        = match starFrom p k (a ++ b) with
          | some n => some (n + 1)
          | none => k (x :: (a ++ b)) := by
      simp [starFrom, hx]
    rw [e, ih']
    exact congrArg some (by simp only [List.length_cons]; omega)

theorem starFrom_of_not (p : Nat → Bool) (k : JSString → Option Nat) (x : Nat) (s : JSString)
    (h : p x = false) : starFrom p k (x :: s) = k (x :: s) := by
  simp [starFrom, h]

/-- The end `\}\s*\]` of the array pattern matches only at a `}` that a `]` follows. -/
theorem matchHere_arrayEnd_some (t : JSString) (n : Nat)
    (h : matchHere [RegexItem.chr 125, RegexItem.star isSpace, RegexItem.chr 93] t = some n) :
    ∃ t', t = 125 :: t' ∧ 93 ∈ t' := by
  obtain ⟨t', m, rfl, hm, -⟩ := matchHere_chr_some _ _ _ _ h
  refine ⟨t', rfl, ?_⟩
  have hm' : starFrom isSpace (matchHere [RegexItem.chr 93]) t' = some m := hm
  obtain ⟨u, k, hu, hk⟩ := starFrom_some_suffix _ _ _ _ hm'
  obtain ⟨u', -, rfl, -, -⟩ := matchHere_chr_some _ _ _ _ hk
  exact hu.subset (List.mem_cons_self _ _)

theorem matchHere_arrayEnd_none_of_head (t : JSString) (h : t.head? ≠ some 125) :
    matchHere [RegexItem.chr 125, RegexItem.star isSpace, RegexItem.chr 93] t = none := by
  cases hm : matchHere [RegexItem.chr 125, RegexItem.star isSpace, RegexItem.chr 93] t with
  | none => rfl
  | some n =>
    obtain ⟨t', rfl, -⟩ := matchHere_arrayEnd_some t n hm
    simp at h

theorem matchHere_arrayEnd (w post : JSString) (hw : ∀ c ∈ w, isSpace c = true) :
    matchHere [RegexItem.chr 125, RegexItem.star isSpace, RegexItem.chr 93]
        (125 :: (w ++ 93 :: post)) = some (w.length + 1 + 1) := by
  have h1 : starFrom isSpace (matchHere [RegexItem.chr 93]) (93 :: post) = some 1 := by
    rw [starFrom_of_not _ _ _ _ (by decide)]
    simp [matchHere]
  have h2 := starFrom_append_of_all isSpace (matchHere [RegexItem.chr 93]) w (93 :: post) 1 hw h1
  have h3 : matchHere [RegexItem.chr 125, RegexItem.star isSpace, RegexItem.chr 93]
        (125 :: (w ++ 93 :: post))
      = (starFrom isSpace (matchHere [RegexItem.chr 93]) (w ++ 93 :: post)).map (· + 1) := by
    simp [matchHere]
  rw [h3, h2]
  rfl

/-- After the last `}` of the array no later end of the pattern is found. -/
theorem starFrom_arrayEnd_none (w post : JSString) (hw : ∀ c ∈ w, isSpace c = true)
    (hpost : 93 ∉ post) :
    starFrom anyChar
        (matchHere [RegexItem.chr 125, RegexItem.star isSpace, RegexItem.chr 93])
        (w ++ 93 :: post) = none := by
  have hbase : starFrom anyChar
      (matchHere [RegexItem.chr 125, RegexItem.star isSpace, RegexItem.chr 93])
      (93 :: post) = none := by
    have h1 : starFrom anyChar
        (matchHere [RegexItem.chr 125, RegexItem.star isSpace, RegexItem.chr 93]) post = none :=
      starFrom_none _ _ _ fun t ht => by
        cases hm : matchHere [RegexItem.chr 125, RegexItem.star isSpace, RegexItem.chr 93] t with
        | none => rfl
        | some n =>
          obtain ⟨t', rfl, h93⟩ := matchHere_arrayEnd_some t n hm
          exact absurd (ht.subset (List.mem_cons_of_mem _ h93)) hpost
    rw [starFrom]
    simp only [anyChar, if_true]
    rw [h1]
    exact matchHere_arrayEnd_none_of_head _ (by simp)
  induction w with
  | nil => exact hbase
  | cons x w ih =>
    have hx : isSpace x = true := hw x (List.mem_cons_self _ _)
    have ih' := ih fun c hc => hw c (List.mem_cons_of_mem _ hc)
    rw [List.cons_append, starFrom]
    simp only [anyChar, if_true]
    rw [ih']
    apply matchHere_arrayEnd_none_of_head
    simp only [List.head?_cons, ne_eq, Option.some.injEq]
    rintro rfl
    exact absurd hx (by decide)

theorem matchHere_reArray_span (w1 body w2 post : JSString)
    (hw1 : ∀ c ∈ w1, isSpace c = true) (hw2 : ∀ c ∈ w2, isSpace c = true)
    (hpost : 93 ∉ post) :
    matchHere reArray (91 :: (w1 ++ 123 :: (body ++ 125 :: (w2 ++ 93 :: post))))
      = some (1 + (w1.length + (1 + (body.length + (w2.length + 1 + 1))))) := by
  have h1 : starFrom anyChar
      (matchHere [RegexItem.chr 125, RegexItem.star isSpace, RegexItem.chr 93])
      (125 :: (w2 ++ 93 :: post)) = some (w2.length + 1 + 1) := by
    rw [starFrom]
    simp only [anyChar, if_true]
    rw [starFrom_arrayEnd_none w2 post hw2 hpost]
    exact matchHere_arrayEnd w2 post hw2
  have h2 := starFrom_anyChar_append
    (matchHere [RegexItem.chr 125, RegexItem.star isSpace, RegexItem.chr 93]) body
    (125 :: (w2 ++ 93 :: post)) _ h1
  have h3 : matchHere [RegexItem.chr 123, RegexItem.star anyChar, RegexItem.chr 125,
        RegexItem.star isSpace, RegexItem.chr 93] (123 :: (body ++ 125 :: (w2 ++ 93 :: post)))
      = some (1 + (body.length + (w2.length + 1 + 1))) := by
    have : matchHere [RegexItem.chr 123, RegexItem.star anyChar, RegexItem.chr 125,
          RegexItem.star isSpace, RegexItem.chr 93] (123 :: (body ++ 125 :: (w2 ++ 93 :: post)))
        = (starFrom anyChar
            (matchHere [RegexItem.chr 125, RegexItem.star isSpace, RegexItem.chr 93])
            (body ++ 125 :: (w2 ++ 93 :: post))).map (· + 1) := by
      simp [matchHere]
    rw [this, h2]
    exact congrArg some (by simp only []; omega)
  have h4 : starFrom isSpace (matchHere [RegexItem.chr 123, RegexItem.star anyChar,
        RegexItem.chr 125, RegexItem.star isSpace, RegexItem.chr 93])
        (123 :: (body ++ 125 :: (w2 ++ 93 :: post)))
      = some (1 + (body.length + (w2.length + 1 + 1))) := by
    rw [starFrom_of_not _ _ _ _ (by decide)]
    exact h3
  have h5 := starFrom_append_of_all isSpace _ w1 _ _ hw1 h4
  have h6 : matchHere reArray (91 :: (w1 ++ 123 :: (body ++ 125 :: (w2 ++ 93 :: post))))
      = (starFrom isSpace (matchHere [RegexItem.chr 123, RegexItem.star anyChar,
          RegexItem.chr 125, RegexItem.star isSpace, RegexItem.chr 93])
          (w1 ++ 123 :: (body ++ 125 :: (w2 ++ 93 :: post)))).map (· + 1) := by
    simp [reArray, matchHere]
  rw [h6, h5]
  exact congrArg some (by simp only []; omega)

theorem matchHere_reArray_none_of_head (t : JSString) (h : t.head? ≠ some 91) :
    matchHere reArray t = none := by
  cases hm : matchHere reArray t with
  | none => rfl
  | some n =>
    obtain ⟨t', m, rfl, -, -⟩ := matchHere_chr_some _ _ _ _ hm
    simp at h

/-- In a text whose first `[` opens an array text that starts with `[`, blanks and `{`
and ends with `}`, blanks and `]`, and which has no `]` after it, the pattern
`/\[\s*\{[\s\S]*\}\s*\]/` matches exactly that array text. -/
theorem regexMatch_reArray_span (pre w1 body w2 post : JSString) (hpre : 91 ∉ pre)
    (hpost : 93 ∉ post) (hw1 : ∀ c ∈ w1, isSpace c = true) (hw2 : ∀ c ∈ w2, isSpace c = true) :
    regexMatch reArray (pre ++ (91 :: w1 ++ (123 :: body ++ [125]) ++ w2 ++ [93]) ++ post)
      = some (91 :: w1 ++ (123 :: body ++ [125]) ++ w2 ++ [93]) := by
  have hl : pre ++ (91 :: w1 ++ (123 :: body ++ [125]) ++ w2 ++ [93]) ++ post
      = pre ++ (91 :: (w1 ++ 123 :: (body ++ 125 :: (w2 ++ 93 :: post)))) := by
    simp
  rw [hl, regexMatch_append_of_noMatch reArray pre _]
  · rw [regexMatch, matchHere_reArray_span w1 body w2 post hw1 hw2 hpost]
    simp only [Option.some.injEq]
    have hlen : 1 + (w1.length + (1 + (body.length + (w2.length + 1 + 1))))
        = (91 :: w1 ++ (123 :: body ++ [125]) ++ w2 ++ [93]).length := by
      simp only [List.length_cons, List.length_append, List.length_nil]
      omega
    rw [hlen, show 91 :: (w1 ++ 123 :: (body ++ 125 :: (w2 ++ 93 :: post)))
      = (91 :: w1 ++ (123 :: body ++ [125]) ++ w2 ++ [93]) ++ post by simp, List.take_left]
  · intro t ht hne
    apply matchHere_reArray_none_of_head
    cases t with
    | nil => exact absurd rfl hne
    | cons x t' =>
      have hx : x ≠ 91 := by
        rintro rfl
        exact hpre (ht.subset (List.mem_cons_self _ _))
      simpa using hx

/-- What `generateShotList` makes of a response: the normaliser never gives an array,
so the shots are those of the recovery pass. -/
theorem shotListFromResponse_recovery (p : Platform) (T : JSString) :
    shotListFromResponse p T
      = (match ingestShots p
          (match regexMatch reArray T with
            | some jsonArrayMatch =>
              match jsonParse jsonArrayMatch with
              | Except.ok v => v
              | Except.error _ => JValue.arr []
            | none => JValue.arr []) with
        | Except.error e => Except.error e
        | Except.ok shots => Except.ok (envelope "shots" shots)) := by
  obtain ⟨v, hv⟩ := cleanAndParseResponse_ok T
  have hv' : v.isArray = false := by
    rcases cleanAndParseResponse_cases T with h | ⟨m, ps, -, -, h⟩ <;>
      · rw [h] at hv
        cases hv
        rfl
  simp only [shotListFromResponse, hv, recoverShots, hv']
  rfl

/-! ## Lemmas: the sequences of the breakdown -/

theorem Props.get_set (k q : JSString) (v : JValue) (ps : Props) :
    Props.get q (Props.set k v ps) = if k = q then v else Props.get q ps := by
  unfold Props.get
  rw [Props.find_set]
  by_cases h : k = q
  · simp only [h, if_true]
  · simp only [h, if_false]

theorem get_spreadInto_nil (q : JSString) (ps : Props) :
    Props.get q (spreadInto [] (JValue.obj ps)) = Props.get q ps := by
  rw [get_spreadInto_obj]
  split
  · rfl
  · next h =>
    have hf : Props.find q ps = none := by simpa [Props.has] using h
    simp [Props.get, hf, Props.find]

theorem filterFrom_ne (index : Nat) (items : List JValue) (k : Nat) :
    filterFrom (fun i => i != index) k items
      = if index < k then items else items.eraseIdx (index - k) := by
  induction items generalizing k with
  | nil => simp [filterFrom]
  | cons x items ih =>
    rw [filterFrom, ih (k + 1)]
    by_cases h1 : index < k
    · have h2 : index < k + 1 := Nat.lt_succ_of_lt h1
      have h3 : (k != index) = true := by simpa using Nat.ne_of_gt h1
      simp [h1, h2, h3]
    · by_cases h4 : index = k
      · subst h4
        simp
      · have h5 : ¬ index < k + 1 := by omega
        have h6 : (k != index) = true := by simpa using fun e : k = index => h4 e.symm
        have h7 : index - k = (index - (k + 1)) + 1 := by omega
        simp only [h1, h5, h6, if_true, if_false]
        rw [h7, List.eraseIdx_cons_succ]

theorem appendToCategory_arr (category : JSString) (item : JValue) (prev : Props)
    (items : List JValue) (h : Props.get category prev = JValue.arr items) :
    appendToCategory category item prev
      = Except.ok (Props.set category (JValue.arr (items ++ [item]))
          (spreadInto [] (JValue.obj prev))) := by
  simp only [appendToCategory, h, JValue.iterate]

theorem removeFromCategory_arr (category : JSString) (index : Nat) (prev : Props)
    (items : List JValue) (h : Props.get category prev = JValue.arr items) :
    removeFromCategory category index prev
      = Except.ok (Props.set category (JValue.arr (items.eraseIdx index))
          (spreadInto [] (JValue.obj prev))) := by
  simp only [removeFromCategory, h, filterFrom_ne, Nat.not_lt_zero, if_false, Nat.sub_zero]

/-- Setting one category in a copy of the breakdown changes that category only. -/
theorem get_set_spread (category : JSString) (v : JValue) (prev : Props) :
    Props.get category (Props.set category v (spreadInto [] (JValue.obj prev))) = v ∧
    ∀ other, other ≠ category →
      Props.get other (Props.set category v (spreadInto [] (JValue.obj prev)))
        = Props.get other prev := by
  constructor
  · rw [Props.get_set, if_pos rfl]
  · intro other hne
    rw [Props.get_set, if_neg fun e => hne e.symm, get_spreadInto_nil]

/-! ## Lemmas: the handlers of the shot list on a list of records -/

theorem numEq_self (m e : Int) : numEq m e m e = true := by
  simp [numEq]

theorem strictEq_self (v : JValue) (h : v.isPrimitive = true) : v.strictEq v = true := by
  cases v with
  | undef => rfl
  | null => rfl
  | bool b => simp [JValue.strictEq]
  | num m e => exact numEq_self m e
  | str s => simp [JValue.strictEq]
  | arr items => cases h
  | obj ps => cases h

theorem filterE_records (f : JValue → Except JsError Bool) (g : Props → Bool)
    (hf : ∀ r, f (JValue.obj r) = Except.ok (g r)) (records : List Props) :
    filterE f (records.map JValue.obj) = Except.ok ((records.filter g).map JValue.obj) := by
  induction records with
  | nil => rfl
  | cons r records ih =>
    simp only [List.map_cons, filterE, hf, ih, List.filter_cons]
    cases g r <;> rfl

theorem filterE_hasOtherId (id : JValue) (records : List Props) :
    filterE (hasOtherId id) (records.map JValue.obj)
      = Except.ok ((records.filter fun r =>
          !(Props.get (utf16 "id") r).strictEq id).map JValue.obj) :=
  filterE_records _ _ (fun _ => rfl) records

theorem filterE_inScene (currentScene : JSString) (records : List Props) :
    filterE (inScene currentScene) (records.map JValue.obj)
      = Except.ok ((records.filter fun r =>
          (Props.get (utf16 "scene") r).strictEq (JValue.str currentScene)).map JValue.obj) :=
  filterE_records _ _ (fun _ => rfl) records

theorem mapFromE_replaceIfId (id record : JValue) (k : Nat) (records : List Props) :
    mapFromE (fun _ shot => replaceIfId id record shot) k (records.map JValue.obj)
      = Except.ok (records.map fun r =>
          if (Props.get (utf16 "id") r).strictEq id then record else JValue.obj r) := by
  induction records generalizing k with
  | nil => rfl
  | cons r records ih =>
    simp only [List.map_cons, mapFromE, ih]
    rfl

theorem shotId_newShot (now : Nat) (st : ShotListState) :
    shotId (newShot now st) = st.editingShotId.or (jnum now) := by
  simp only [shotId, newShot, JValue.getProp, Props.get, Props.find_set]
  rfl

theorem or_of_truthy (a b : JValue) (h : a.truthy = true) : a.or b = a := by
  simp [JValue.or, h]

/-- The state after `addShot` on a list of records. -/
theorem addShot_records (clock : Nat → Nat) (st : ShotListState) (records : List Props)
    (hshots : st.shots = records.map JValue.obj) :
    addShot clock st = Except.ok { st with
      shots :=
        if st.editingShotId.truthy then
          records.map fun r =>
            if (Props.get (utf16 "id") r).strictEq st.editingShotId then newShot (clock 0) st
            else JValue.obj r
        else st.shots ++ [newShot (clock 0) st]
      editingShotId := if st.editingShotId.truthy then JValue.null else st.editingShotId
      currentShot := blankShot (clock (if st.editingShotId.truthy then 0 else 1)) st.currentScene
        (numberToString ((records.filter fun r =>
          (Props.get (utf16 "scene") r).strictEq (JValue.str st.currentScene)).length + 1))
      showShotEditor := false
      selectedScriptSegment := [] } := by
  cases ht : st.editingShotId.truthy with
  | true =>
    simp only [addShot, ht, if_true, hshots, mapFromE_replaceIfId, filterE_inScene,
      List.length_map]
  | false =>
    simp only [addShot, ht, hshots, filterE_inScene, List.length_map]
    rfl

/-! ## Claims -/

/-- C1: for every string `T`, `cleanAndParseResponse T` returns without throwing. Its
result is `null`, or the value that `JSON.parse` gives for the text matched in the
cleaned response; and whenever `JSON.parse` throws on the matched text the error is
caught and the result is `null`. -/
theorem cleanAndParseResponse_never_raises (T : JSString) :
    (∃ v, cleanAndParseResponse T = Except.ok v ∧
      (v = JValue.null ∨
        ∃ m, regexMatch reObject (removeMatches reFence (removeMatches reFenceJson T)) = some m ∧
          jsonParse m = Except.ok v)) ∧
    ∀ m e, regexMatch reObject (removeMatches reFence (removeMatches reFenceJson T)) = some m →
      jsonParse m = Except.error e → cleanAndParseResponse T = Except.ok JValue.null := by
  constructor
  · rcases cleanAndParseResponse_cases T with h | ⟨m, ps, hm, hp, h⟩
    · exact ⟨JValue.null, h, Or.inl rfl⟩
    · exact ⟨JValue.obj ps, h, Or.inr ⟨m, hm, hp⟩⟩
  · intro m e hm he
    simp only [cleanAndParseResponse, hm, he]

/-- Witness of C1: on the response `{oops}` the pattern matches the whole text,
`JSON.parse` throws on it, and the result is `null`. -/
theorem cleanAndParseResponse_never_raises_witness :
    regexMatch reObject (removeMatches reFence (removeMatches reFenceJson
        (utf16 "\x7boops\x7d"))) = some (utf16 "\x7boops\x7d") ∧
      (∃ e, jsonParse (utf16 "\x7boops\x7d") = Except.error e) ∧
      cleanAndParseResponse (utf16 "\x7boops\x7d") = Except.ok JValue.null :=
  ⟨by decide, ⟨_, rfl⟩,
    (cleanAndParseResponse_never_raises (utf16 "\x7boops\x7d")).2 (utf16 "\x7boops\x7d") _
      (by decide) rfl⟩

/-- C2 (as stated, refuted): on the response text `{}` the analysis returned by
`analyzeScriptBreakdown` is the empty object, which has none of the eleven category
keys. -/
theorem analyzeScriptBreakdown_shape_counterexample :
    (analyzeScriptBreakdown ⟨some fun _ => Except.ok (utf16 "\x7b\x7d")⟩ []).result
        = Except.ok (envelope "analysis" (JValue.obj [])) ∧
      breakdownShape (JValue.obj []) = false := by
  constructor
  · rfl
  · rfl

/-- C2 (amended): when the upstream call returns the text `text`, the analysis
returned by `analyzeScriptBreakdown` is the default, which has each of the eleven
category keys mapped to an array, whenever `cleanAndParseResponse` gives `null`;
otherwise it is the parsed object itself, unchanged and unchecked. -/
theorem analyzeScriptBreakdown_analysis (g : GenAI) (scriptText text : JSString)
    (hg : g (breakdownPrompt scriptText) = Except.ok text) :
    breakdownShape breakdownDefault = true ∧
    ((cleanAndParseResponse text = Except.ok JValue.null ∧
        (analyzeScriptBreakdown ⟨some g⟩ scriptText).result
          = Except.ok (envelope "analysis" breakdownDefault)) ∨
      ∃ ps, cleanAndParseResponse text = Except.ok (JValue.obj ps) ∧
        (analyzeScriptBreakdown ⟨some g⟩ scriptText).result
          = Except.ok (envelope "analysis" (JValue.obj ps))) := by
  refine ⟨by rfl, ?_⟩
  rcases cleanAndParseResponse_cases text with h | ⟨m, ps, -, -, h⟩
  · exact Or.inl ⟨h, request_result_ok g _ _ text _ _ hg (analysisOr_null _ _ h)⟩
  · exact Or.inr ⟨ps, h, request_result_ok g _ _ text _ _ hg (analysisOr_obj _ _ ps h)⟩

/-- Witness of C2 (amended): the response `{"props":"lamp"}` is returned as parsed. -/
theorem analyzeScriptBreakdown_analysis_witness :
    breakdownShape breakdownDefault = true ∧
    ((cleanAndParseResponse (utf16 "\x7b\"props\":\"lamp\"\x7d") = Except.ok JValue.null ∧
        (analyzeScriptBreakdown
            ⟨some fun _ => Except.ok (utf16 "\x7b\"props\":\"lamp\"\x7d")⟩ []).result
          = Except.ok (envelope "analysis" breakdownDefault)) ∨
      ∃ ps, cleanAndParseResponse (utf16 "\x7b\"props\":\"lamp\"\x7d")
            = Except.ok (JValue.obj ps) ∧
        (analyzeScriptBreakdown
            ⟨some fun _ => Except.ok (utf16 "\x7b\"props\":\"lamp\"\x7d")⟩ []).result
          = Except.ok (envelope "analysis" (JValue.obj ps))) :=
  analyzeScriptBreakdown_analysis (fun _ => Except.ok (utf16 "\x7b\"props\":\"lamp\"\x7d"))
    [] (utf16 "\x7b\"props\":\"lamp\"\x7d") rfl

/-- C3: for every JSON object text `J` (it begins with `{`, ends with `}`, contains no
triple backtick, and `JSON.parse` accepts it with value `v`),
`cleanAndParseResponse` applied to `J` inside a json fence, with any whitespace
between the fences and `J`, returns exactly `v`; `v || d` is `v`, so that
`analyzeScriptBreakdown` returns `v` itself as its analysis. -/
theorem cleanAndParseResponse_fenced_object (g : GenAI) (scriptText J w1 w2 : JSString)
    (v : JValue) (hopen : J.head? = some 123) (hclose : J.getLast? = some 125)
    (hfence : ¬ utf16 "```" <:+: J)
    (hw1 : ∀ c ∈ w1, isSpace c = true) (hw2 : ∀ c ∈ w2, isSpace c = true)
    (hvalid : jsonParse J = Except.ok v)
    (hg : g (breakdownPrompt scriptText)
      = Except.ok (utf16 "```json" ++ w1 ++ J ++ w2 ++ utf16 "```")) :
    cleanAndParseResponse (utf16 "```json" ++ w1 ++ J ++ w2 ++ utf16 "```") = Except.ok v ∧
    (∀ d, v.or d = v) ∧
    (analyzeScriptBreakdown ⟨some g⟩ scriptText).result
      = Except.ok (envelope "analysis" v) := by
  have h := cleanAndParseResponse_fenced J w1 w2 v hopen hclose hfence hw1 hw2 hvalid
  obtain ⟨body, hJ⟩ := head_last_decompose J hopen hclose
  rw [hJ] at hvalid
  obtain ⟨ps, rfl⟩ := jsonParse_brace_isObject _ _ hvalid
  refine ⟨h, fun d => by simp [JValue.or, JValue.truthy], ?_⟩
  exact request_result_ok g _ _ _ _ _ hg (analysisOr_obj _ _ ps h)

/-- Witness of C3 (Scenario A): the fenced text `{"props":["lamp"],"wardrobe":[]}`
yields the object with `props = ["lamp"]` and `wardrobe = []`. -/
theorem cleanAndParseResponse_fenced_object_witness :
    cleanAndParseResponse
        (utf16 "```json" ++ [10] ++ utf16 "\x7b\"props\":[\"lamp\"],\"wardrobe\":[]\x7d" ++ [10]
          ++ utf16 "```")
      = Except.ok (jobj [("props", jstrs ["lamp"]), ("wardrobe", JValue.arr [])]) ∧
    (∀ d, (jobj [("props", jstrs ["lamp"]), ("wardrobe", JValue.arr [])]).or d
      = jobj [("props", jstrs ["lamp"]), ("wardrobe", JValue.arr [])]) ∧
    (analyzeScriptBreakdown
        ⟨some fun _ => Except.ok
          (utf16 "```json" ++ [10] ++ utf16 "\x7b\"props\":[\"lamp\"],\"wardrobe\":[]\x7d"
            ++ [10] ++ utf16 "```")⟩ []).result
      = Except.ok (envelope "analysis"
          (jobj [("props", jstrs ["lamp"]), ("wardrobe", JValue.arr [])])) :=
  cleanAndParseResponse_fenced_object _ [] (utf16 "\x7b\"props\":[\"lamp\"],\"wardrobe\":[]\x7d")
    [10] [10] _ (by decide) (by decide) (by decide) (by decide) (by decide) (by rfl) rfl

/-- C4: for every response text in which no `{` is followed later by a `}`,
`cleanAndParseResponse` returns `null` and `analyzeScriptBreakdown` returns the full
default object: all eleven categories present, each an empty sequence. -/
theorem analyzeScriptBreakdown_no_json (g : GenAI) (scriptText T : JSString)
    (hno : ¬ List.Sublist [123, 125] T)
    (hg : g (breakdownPrompt scriptText) = Except.ok T) :
    cleanAndParseResponse T = Except.ok JValue.null ∧
    (analyzeScriptBreakdown ⟨some g⟩ scriptText).result
      = Except.ok (envelope "analysis" breakdownDefault) ∧
    ∀ c ∈ breakdownCategories,
      breakdownDefault.getProp (utf16 c) = Except.ok (JValue.arr []) := by
  have hnull : cleanAndParseResponse T = Except.ok JValue.null := by
    rcases cleanAndParseResponse_cases T with h | ⟨m, ps, hm, -, -⟩
    · exact h
    · exfalso
      apply hno
      exact (regexMatch_reObject_sublist _ _ hm).trans
        ((removeMatches_sublist _ _).trans (removeMatches_sublist _ _))
  refine ⟨hnull, request_result_ok g _ _ T _ _ hg (analysisOr_null _ _ hnull), ?_⟩
  intro c hc
  simp only [breakdownCategories, List.mem_cons, List.mem_singleton, List.not_mem_nil,
    or_false] at hc
  rcases hc with rfl | rfl | rfl | rfl | rfl | rfl | rfl | rfl | rfl | rfl | rfl <;> rfl

/-- Witness of C4 (Scenario B): the response `I cannot process this request.` -/
theorem analyzeScriptBreakdown_no_json_witness :
    cleanAndParseResponse (utf16 "I cannot process this request.") = Except.ok JValue.null ∧
    (analyzeScriptBreakdown
        ⟨some fun _ => Except.ok (utf16 "I cannot process this request.")⟩ []).result
      = Except.ok (envelope "analysis" breakdownDefault) ∧
    ∀ c ∈ breakdownCategories,
      breakdownDefault.getProp (utf16 c) = Except.ok (JValue.arr []) :=
  analyzeScriptBreakdown_no_json (fun _ => Except.ok (utf16 "I cannot process this request."))
    [] (utf16 "I cannot process this request.") (by decide) rfl

/-- C5: Shot Ingestion is an element-wise layering over the defaults. For every
sequence of partial shot records the result has the same length, and for each of the
twelve non-identifier fields the `i`-th result carries the `i`-th element's value of
the field when the element has it and the documented default otherwise. -/
theorem ingestShots_layering (p : Platform) (records : List Props) :
    ∃ out : List JValue, ingestShots p (JValue.arr (records.map JValue.obj)) = Except.ok (JValue.arr out) ∧
      out.length = records.length ∧
      ∀ (i : Nat) (r : Props), records[i]? = some r →
        ∃ o : Props, out[i]? = some (JValue.obj o) ∧
          ∀ fd ∈ shotFieldDefaults,
            Props.get (utf16 fd.1) o
              = if Props.has (utf16 fd.1) r = true then Props.get (utf16 fd.1) r
                else jstr fd.2 := by
  refine ⟨_, ingestShots_arr p _, by simp [length_mapFrom], ?_⟩
  intro i r hr
  refine ⟨_, ingestShots_getElem p records i r hr, ?_⟩
  intro fd hfd
  rw [get_spreadInto_obj, shotDefaults_get _ fd hfd]

/-- Witness of C5 (Scenario C): the one-element batch whose element has only a
description gives one record with that description, type `MS` and lens `50mm`. -/
theorem ingestShots_layering_witness :
    ∃ o, ingestShots ⟨fun _ => 1700000000000, fun _ => 5, fun _ => 7⟩
          (JValue.arr [JValue.obj [(utf16 "description", jstr "Wide shot of the house")]])
        = Except.ok (JValue.arr [JValue.obj o]) ∧
      Props.get (utf16 "description") o = jstr "Wide shot of the house" ∧
      Props.get (utf16 "type") o = jstr "MS" ∧
      Props.get (utf16 "lens") o = jstr "50mm" := by
  obtain ⟨out, h1, h2, h3⟩ := ingestShots_layering ⟨fun _ => 1700000000000, fun _ => 5, fun _ => 7⟩
    [[(utf16 "description", jstr "Wide shot of the house")]]
  obtain ⟨o, ho, hf⟩ := h3 0 _ rfl
  match out, h2, ho with
  | [x], _, ho =>
    simp only [List.getElem?_cons_zero, Option.some.injEq] at ho
    subst ho
    refine ⟨o, h1, ?_, ?_, ?_⟩
    · exact hf ("description", "Shot description") (by simp [shotFieldDefaults])
    · exact hf ("type", "MS") (by simp [shotFieldDefaults])
    · exact hf ("lens", "50mm") (by simp [shotFieldDefaults])

/-- C6 (the code at its failing input): for the response `[{},{}]`, with the clock
at the same millisecond and the same random draw at both callbacks, both records
get the identifier `1700000000500`. -/
theorem generateShotList_duplicate_ids :
    (generateShotList ⟨some fun _ => Except.ok (utf16 "[\x7b\x7d,\x7b\x7d]")⟩
        ⟨fun _ => 1700000000000, fun _ => 500, fun _ => 0⟩ []).result
      = Except.ok (envelope "shots" (JValue.arr
          [JValue.obj (shotDefaults (jnum 1700000000500)),
           JValue.obj (shotDefaults (jnum 1700000000500))])) := by
  rfl

/-- C7 (as stated, refuted): for the response `[{"notes":null}]` the ingested record
has `notes` equal to `null`. -/
theorem ingestShot_null_counterexample :
    ∃ o, (generateShotList ⟨some fun _ => Except.ok (utf16 "[\x7b\"notes\":null\x7d]")⟩
          ⟨fun _ => 1700000000000, fun _ => 5, fun _ => 7⟩ []).result
        = Except.ok (envelope "shots" (JValue.arr [JValue.obj o])) ∧
      Props.get (utf16 "notes") o = JValue.null :=
  ⟨Props.set (utf16 "notes") JValue.null (shotDefaults (jnum 1700000000005)), by rfl, by rfl⟩

/-- C7 (amended): for every partial shot record `r` whose property values are JSON
values (none is `undefined`), each of the thirteen ShotRecord fields of the ingested
record is present and defined, and is non-null unless `r` itself carries `null` for
that field. -/
theorem ingestShot_fields_defined (p : Platform) (i : Nat) (r : Props)
    (hjson : ∀ kv ∈ r, kv.2 ≠ JValue.undef) :
    ∃ o, ingestShot p i (JValue.obj r) = JValue.obj o ∧
      ∀ f ∈ shotFields,
        Props.has (utf16 f) o = true ∧ Props.get (utf16 f) o ≠ JValue.undef ∧
        (Props.get (utf16 f) r ≠ JValue.null → Props.get (utf16 f) o ≠ JValue.null) := by
  refine ⟨_, rfl, ?_⟩
  intro f hf
  have hdef := shotDefaults_defined ((p.now i + (p.rand1000 i).val : Nat) : Int) f hf
  have hhas := shotDefaults_has (jnum ((p.now i + (p.rand1000 i).val : Nat) : Int)) f hf
  rw [has_spreadInto_obj, get_spreadInto_obj, hhas]
  refine ⟨by simp, ?_, ?_⟩
  · by_cases hh : Props.has (utf16 f) r = true
    · simp only [hh, if_true]
      unfold Props.has at hh
      cases hfind : Props.find (utf16 f) r with
      | none => simp [hfind] at hh
      | some v =>
        have := hjson _ (Props.find_mem _ _ _ hfind)
        simpa [Props.get, hfind] using this
    · simp only [hh, if_false]
      exact hdef.1
  · intro hnull
    by_cases hh : Props.has (utf16 f) r = true
    · simpa only [hh, if_true] using hnull
    · simp only [hh, if_false]
      exact hdef.2

/-- Witness of C7 (amended): a record that supplies only a description. -/
theorem ingestShot_fields_defined_witness :
    ∃ o, ingestShot ⟨fun _ => 1700000000000, fun _ => 5, fun _ => 7⟩ 0
          (JValue.obj [(utf16 "description", jstr "Wide shot of the house")]) = JValue.obj o ∧
      ∀ f ∈ shotFields,
        Props.has (utf16 f) o = true ∧ Props.get (utf16 f) o ≠ JValue.undef ∧
        (Props.get (utf16 f) [(utf16 "description", jstr "Wide shot of the house")]
            ≠ JValue.null → Props.get (utf16 f) o ≠ JValue.null) :=
  ingestShot_fields_defined ⟨fun _ => 1700000000000, fun _ => 5, fun _ => 7⟩ 0
    [(utf16 "description", jstr "Wide shot of the house")]
    (by
      intro kv hkv
      simp only [List.mem_singleton] at hkv
      subst hkv
      exact fun h => JValue.noConfusion h)

/-- C8: applying Shot Ingestion to a sequence of already-complete ShotRecords (each
has all thirteen fields) yields a sequence of the same length whose `i`-th record
agrees with the `i`-th input on every property other than the identifier. -/
theorem ingestShots_complete (p : Platform) (records : List Props)
    (hcomplete : ∀ r ∈ records, ∀ f ∈ shotFields, Props.has (utf16 f) r = true) :
    ∃ out : List JValue, ingestShots p (JValue.arr (records.map JValue.obj)) = Except.ok (JValue.arr out) ∧
      out.length = records.length ∧
      ∀ (i : Nat) (r : Props), records[i]? = some r →
        ∃ o : Props, out[i]? = some (JValue.obj o) ∧
          ∀ k, k ≠ utf16 "id" → Props.get k o = Props.get k r := by
  refine ⟨_, ingestShots_arr p _, by simp [length_mapFrom], ?_⟩
  intro i r hr
  refine ⟨_, ingestShots_getElem p records i r hr, ?_⟩
  intro k hk
  rw [get_spreadInto_obj]
  by_cases hh : Props.has k r = true
  · simp [hh]
  · simp only [hh, if_false]
    have hnot : ¬ Props.has k (shotDefaults
        (jnum ((p.now i + (p.rand1000 i).val : Nat) : Int))) = true := by
      intro hd
      obtain ⟨f, hf, rfl⟩ := shotDefaults_keys _ k hk hd
      exact hh (hcomplete r (List.getElem?_mem hr) f hf)
    have h1 : Props.find k (shotDefaults
        (jnum ((p.now i + (p.rand1000 i).val : Nat) : Int))) = none := by
      simpa [Props.has] using hnot
    have h2 : Props.find k r = none := by simpa [Props.has] using hh
    unfold Props.get
    rw [h1, h2]
    simp

/-- Witness of C8: a complete record with its own description. -/
theorem ingestShots_complete_witness :
    ∃ out : List JValue,
      ingestShots ⟨fun _ => 1700000000000, fun _ => 5, fun _ => 7⟩
          (JValue.arr ([Props.set (utf16 "description") (jstr "Wide shot of the house")
            (shotDefaults (jnum 42))].map JValue.obj)) = Except.ok (JValue.arr out) ∧
      out.length = [Props.set (utf16 "description") (jstr "Wide shot of the house")
            (shotDefaults (jnum 42))].length ∧
      ∀ (i : Nat) (r : Props),
        [Props.set (utf16 "description") (jstr "Wide shot of the house")
            (shotDefaults (jnum 42))][i]? = some r →
        ∃ o : Props, out[i]? = some (JValue.obj o) ∧
          ∀ k, k ≠ utf16 "id" → Props.get k o = Props.get k r :=
  ingestShots_complete ⟨fun _ => 1700000000000, fun _ => 5, fun _ => 7⟩
    [Props.set (utf16 "description") (jstr "Wide shot of the house") (shotDefaults (jnum 42))]
    (by decide)

/-- C9: when no array is recovered from the response text (the array pattern finds
no match, or its match does not parse), `generateShotList` resolves to
`{ success: true, shots: [] }`, and `runAiShotSuggestions` on a non-blank script ends
in the state that differs from the initial one only in `error`, which is the
"AI could not generate any shots" message, and `loading`, which is `false`. That
message is neither the invalid-format message nor a generation-failure message. -/
theorem generateShotList_no_shots (g : GenAI) (api ui : Platform) (st : ShotListState)
    (text : JSString) (hscript : (trim st.script).isEmpty = false)
    (hg : g (shotListPrompt st.script) = Except.ok text)
    (hrec : regexMatch reArray text = none ∨
      ∃ m e, regexMatch reArray text = some m ∧ jsonParse m = Except.error e) :
    (generateShotList ⟨some g⟩ api st.script).result
        = Except.ok (jobj [("success", JValue.bool true), ("shots", JValue.arr [])]) ∧
    runAiShotSuggestions ⟨some g⟩ api ui st
        = { st with error := msgNoShots, loading := false } ∧
    (runAiShotSuggestions ⟨some g⟩ api ui st).shots = st.shots ∧
    msgNoShots ≠ msgInvalidFormat ∧
    ∀ m, msgNoShots ≠ utf16 "Shot list generation failed: " ++ m := by
  obtain ⟨v, hv⟩ := cleanAndParseResponse_ok text
  have hshots : shotListFromResponse api text
      = Except.ok (jobj [("success", JValue.bool true), ("shots", JValue.arr [])]) := by
    simp only [shotListFromResponse, hv, recoverShots_empty text v hv hrec, ingestShots, mapFrom]
    rfl
  have hres : (generateShotList ⟨some g⟩ api st.script).result
      = Except.ok (jobj [("success", JValue.bool true), ("shots", JValue.arr [])]) :=
    request_result_ok g _ _ text _ _ hg hshots
  have hrun : runAiShotSuggestions ⟨some g⟩ api ui st
      = { st with error := msgNoShots, loading := false } := by
    unfold runAiShotSuggestions
    simp only [hscript, hres]
    rfl
  refine ⟨hres, hrun, by rw [hrun], by decide, ?_⟩
  intro m h
  have := congrArg List.head? h
  simp [msgNoShots, utf16, utf16Char] at this

/-- Witness of C9 (Scenario D): a response without any array literal. -/
theorem generateShotList_no_shots_witness :
    (generateShotList ⟨some fun _ => Except.ok (utf16 "I cannot process this request.")⟩
        ⟨fun _ => 1700000000000, fun _ => 5, fun _ => 7⟩ (utf16 "INT. HOUSE - DAY")).result
        = Except.ok (jobj [("success", JValue.bool true), ("shots", JValue.arr [])]) ∧
    (runAiShotSuggestions ⟨some fun _ => Except.ok (utf16 "I cannot process this request.")⟩
        ⟨fun _ => 1700000000000, fun _ => 5, fun _ => 7⟩
        ⟨fun _ => 1700000000000, fun _ => 5, fun _ => 7⟩
        ⟨utf16 "INT. HOUSE - DAY", [jobj [("id", jnum 1)]], utf16 "1", JValue.null, false,
          JValue.null, utf16 "script", false, [], (0, 0), []⟩).error = msgNoShots ∧
    (runAiShotSuggestions ⟨some fun _ => Except.ok (utf16 "I cannot process this request.")⟩
        ⟨fun _ => 1700000000000, fun _ => 5, fun _ => 7⟩
        ⟨fun _ => 1700000000000, fun _ => 5, fun _ => 7⟩
        ⟨utf16 "INT. HOUSE - DAY", [jobj [("id", jnum 1)]], utf16 "1", JValue.null, false,
          JValue.null, utf16 "script", false, [], (0, 0), []⟩).shots = [jobj [("id", jnum 1)]] := by
  have h := generateShotList_no_shots
    (fun _ => Except.ok (utf16 "I cannot process this request."))
    ⟨fun _ => 1700000000000, fun _ => 5, fun _ => 7⟩
    ⟨fun _ => 1700000000000, fun _ => 5, fun _ => 7⟩
    ⟨utf16 "INT. HOUSE - DAY", [jobj [("id", jnum 1)]], utf16 "1", JValue.null, false,
      JValue.null, utf16 "script", false, [], (0, 0), []⟩
    (utf16 "I cannot process this request.") (by decide) rfl (Or.inl (by decide))
  exact ⟨h.1, by rw [h.2.1], h.2.2.1⟩

/-- C10: a malformed response is never an error. With a configured credential, if the
upstream call made by a facade method that normalises its response succeeds with any
text `text`, the method resolves to an envelope whose `success` is `true`; this holds
for each of the eleven such methods and every response text. -/
theorem malformed_response_never_fails (g : GenAI) (text : JSString) (p : Platform)
    (a b c : JSString) (traits : List JSString) :
    (g (grammarPrompt a b (grammarDepth b)) = Except.ok text →
      (checkGrammarAdvanced ⟨some g⟩ a b).success = true) ∧
    (g (characterPrompt a b (characterFocus c)) = Except.ok text →
      (analyzeCharacter ⟨some g⟩ a b c).success = true) ∧
    (g (characterSuggestionsPrompt a traits b) = Except.ok text →
      (generateCharacterSuggestions ⟨some g⟩ a traits b).success = true) ∧
    (g (plotPrompt a (plotGuide b)) = Except.ok text →
      (analyzePlotStructure ⟨some g⟩ a b).success = true) ∧
    (g (manuscriptPrompt a) = Except.ok text →
      (analyzeManuscript ⟨some g⟩ a).success = true) ∧
    (g (scenePrompt a b) = Except.ok text →
      (analyzeScene ⟨some g⟩ a b).success = true) ∧
    (g (readabilityPrompt a b) = Except.ok text →
      (analyzeReadability ⟨some g⟩ a b).success = true) ∧
    (g (tonePrompt a) = Except.ok text →
      (analyzeTone ⟨some g⟩ a).success = true) ∧
    (g (synonymsPrompt a b) = Except.ok text →
      (getSynonyms ⟨some g⟩ a b).success = true) ∧
    (g (breakdownPrompt a) = Except.ok text →
      (analyzeScriptBreakdown ⟨some g⟩ a).success = true) ∧
    (g (shotListPrompt a) = Except.ok text →
      (generateShotList ⟨some g⟩ p a).success = true) := by
  refine ⟨?_, ?_, ?_, ?_, ?_, ?_, ?_, ?_, ?_, ?_, ?_⟩
  · exact fun hg => request_success g _ _ text _ "analysis" hg (analysisOr_ok _ text)
  · exact fun hg => request_success g _ _ text _ "analysis" hg (analysisOr_ok _ text)
  · exact fun hg => request_success g _ _ text _ "suggestions" hg (suggestionsFromResponse_ok text)
  · exact fun hg => request_success g _ _ text _ "analysis" hg (analysisOr_ok _ text)
  · exact fun hg => request_success g _ _ text _ "analysis" hg (analysisOr_ok _ text)
  · exact fun hg => request_success g _ _ text _ "analysis" hg (analysisOr_ok _ text)
  · exact fun hg => request_success g _ _ text _ "analysis" hg (analysisOr_ok _ text)
  · exact fun hg => request_success g _ _ text _ "analysis" hg (analysisOr_ok _ text)
  · exact fun hg => request_success g _ _ text _ "synonyms" hg (synonymsFromResponse_ok text)
  · exact fun hg => request_success g _ _ text _ "analysis" hg (analysisOr_ok _ text)
  · intro hg
    obtain ⟨items, hitems⟩ := shotListFromResponse_ok p text
    exact request_success g _ _ text _ "shots" hg ⟨_, hitems⟩

/-- Witness of C10: the response `[{oops}]`, in which both patterns find a match that
`JSON.parse` rejects, given to `generateShotList`, `getSynonyms` and
`checkGrammarAdvanced`. -/
theorem malformed_response_never_fails_witness :
    (generateShotList ⟨some fun _ => Except.ok (utf16 "[\x7boops\x7d]")⟩
        ⟨fun _ => 1700000000000, fun _ => 5, fun _ => 7⟩ (utf16 "INT. HOUSE")).success = true ∧
    (getSynonyms ⟨some fun _ => Except.ok (utf16 "[\x7boops\x7d]")⟩
        (utf16 "large") (utf16 "a large house")).success = true ∧
    (checkGrammarAdvanced ⟨some fun _ => Except.ok (utf16 "[\x7boops\x7d]")⟩
        (utf16 "INT. HOUSE") (utf16 "basic")).success = true := by
  have h1 := malformed_response_never_fails (fun _ => Except.ok (utf16 "[\x7boops\x7d]"))
    (utf16 "[\x7boops\x7d]") ⟨fun _ => 1700000000000, fun _ => 5, fun _ => 7⟩
    (utf16 "INT. HOUSE") (utf16 "basic") [] []
  have h2 := malformed_response_never_fails (fun _ => Except.ok (utf16 "[\x7boops\x7d]"))
    (utf16 "[\x7boops\x7d]") ⟨fun _ => 1700000000000, fun _ => 5, fun _ => 7⟩
    (utf16 "large") (utf16 "a large house") [] []
  exact ⟨h1.2.2.2.2.2.2.2.2.2.2 rfl, h2.2.2.2.2.2.2.2.2.1 rfl, h1.1 rfl⟩

/-- C11: when no API key has been configured (`genAI` is `null`), each of the fifteen
facade methods, on every argument, fails with an error whose message begins
`API key not set`, and has sent nothing upstream. -/
theorem missing_key_fails_first (svc : GeminiService) (h : svc.genAI = none)
    (p : Platform) (ratio : Nat → Nat → JSString) (options : ParaphraseOptions)
    (a b c : JSString) (traits : List JSString) :
    (advancedParaphrase svc a options).missingKey = true ∧
    (checkGrammarAdvanced svc a b).missingKey = true ∧
    (analyzeCharacter svc a b c).missingKey = true ∧
    (generateCharacterSuggestions svc a traits b).missingKey = true ∧
    (analyzePlotStructure svc a b).missingKey = true ∧
    (analyzeManuscript svc a).missingKey = true ∧
    (analyzeScene svc a b).missingKey = true ∧
    (analyzeReadability svc a b).missingKey = true ∧
    (paraphraseText svc a b c).missingKey = true ∧
    (summarizeText svc ratio a b).missingKey = true ∧
    (analyzeTone svc a).missingKey = true ∧
    (getSynonyms svc a b).missingKey = true ∧
    (humanizeText svc a).missingKey = true ∧
    (analyzeScriptBreakdown svc a).missingKey = true ∧
    (generateShotList svc p a).missingKey = true := by
  obtain ⟨genAI⟩ := svc
  simp only at h
  subst h
  refine ⟨?_, ?_, ?_, ?_, ?_, ?_, ?_, ?_, ?_, ?_, ?_, ?_, ?_, ?_, ?_⟩ <;> rfl

/-- Witness of C11: the service as constructed, before `setApiKey`. -/
theorem missing_key_fails_first_witness :
    (generateShotList GeminiService.new ⟨fun _ => 1700000000000, fun _ => 5, fun _ => 7⟩
        (utf16 "INT. HOUSE")).result = Except.error ⟨utf16 "API key not set"⟩ ∧
    (generateShotList GeminiService.new ⟨fun _ => 1700000000000, fun _ => 5, fun _ => 7⟩
        (utf16 "INT. HOUSE")).calls = [] ∧
    (paraphraseText GeminiService.new (utf16 "INT. HOUSE") (utf16 "Formal") []).missingKey
      = true :=
  ⟨rfl, rfl,
    (missing_key_fails_first GeminiService.new rfl
      ⟨fun _ => 1700000000000, fun _ => 5, fun _ => 7⟩ (fun _ _ => [])
      ⟨[], [], [], []⟩ (utf16 "INT. HOUSE") (utf16 "Formal") [] []).2.2.2.2.2.2.2.2.1⟩

/-- C12: when the upstream call of a facade method fails with an error `e`, the
method fails with the error whose message is its own prefix followed by the message
of `e`, and it has issued exactly that one upstream call; this holds for each of the
fifteen methods. -/
theorem upstream_failure_surfaces_once (g : GenAI) (e : JsError) (p : Platform)
    (ratio : Nat → Nat → JSString) (options : ParaphraseOptions) (a b c : JSString)
    (traits : List JSString) :
    (g (advancedParaphrasePrompt a options) = Except.error e →
      (advancedParaphrase ⟨some g⟩ a options).failedOnce (advancedParaphrasePrompt a options)
        (utf16 "Advanced paraphrasing failed: " ++ e.message)) ∧
    (g (grammarPrompt a b (grammarDepth b)) = Except.error e →
      (checkGrammarAdvanced ⟨some g⟩ a b).failedOnce (grammarPrompt a b (grammarDepth b))
        (utf16 "Grammar check failed: " ++ e.message)) ∧
    (g (characterPrompt a b (characterFocus c)) = Except.error e →
      (analyzeCharacter ⟨some g⟩ a b c).failedOnce (characterPrompt a b (characterFocus c))
        (utf16 "Character analysis failed: " ++ e.message)) ∧
    (g (characterSuggestionsPrompt a traits b) = Except.error e →
      (generateCharacterSuggestions ⟨some g⟩ a traits b).failedOnce
        (characterSuggestionsPrompt a traits b)
        (utf16 "Character suggestions failed: " ++ e.message)) ∧
    (g (plotPrompt a (plotGuide b)) = Except.error e →
      (analyzePlotStructure ⟨some g⟩ a b).failedOnce (plotPrompt a (plotGuide b))
        (utf16 "Plot analysis failed: " ++ e.message)) ∧
    (g (manuscriptPrompt a) = Except.error e →
      (analyzeManuscript ⟨some g⟩ a).failedOnce (manuscriptPrompt a)
        (utf16 "Manuscript analysis failed: " ++ e.message)) ∧
    (g (scenePrompt a b) = Except.error e →
      (analyzeScene ⟨some g⟩ a b).failedOnce (scenePrompt a b)
        (utf16 "Scene analysis failed: " ++ e.message)) ∧
    (g (readabilityPrompt a b) = Except.error e →
      (analyzeReadability ⟨some g⟩ a b).failedOnce (readabilityPrompt a b)
        (utf16 "Readability analysis failed: " ++ e.message)) ∧
    (g (paraphrasePrompt a b c) = Except.error e →
      (paraphraseText ⟨some g⟩ a b c).failedOnce (paraphrasePrompt a b c)
        (utf16 "Paraphrasing failed: " ++ e.message)) ∧
    (g (summarizePrompt a b) = Except.error e →
      (summarizeText ⟨some g⟩ ratio a b).failedOnce (summarizePrompt a b)
        (utf16 "Summarization failed: " ++ e.message)) ∧
    (g (tonePrompt a) = Except.error e →
      (analyzeTone ⟨some g⟩ a).failedOnce (tonePrompt a)
        (utf16 "Tone analysis failed: " ++ e.message)) ∧
    (g (synonymsPrompt a b) = Except.error e →
      (getSynonyms ⟨some g⟩ a b).failedOnce (synonymsPrompt a b)
        (utf16 "Synonyms failed: " ++ e.message)) ∧
    (g (humanizePrompt a) = Except.error e →
      (humanizeText ⟨some g⟩ a).failedOnce (humanizePrompt a)
        (utf16 "Humanization failed: " ++ e.message)) ∧
    (g (breakdownPrompt a) = Except.error e →
      (analyzeScriptBreakdown ⟨some g⟩ a).failedOnce (breakdownPrompt a)
        (utf16 "Script breakdown failed: " ++ e.message)) ∧
    (g (shotListPrompt a) = Except.error e →
      (generateShotList ⟨some g⟩ p a).failedOnce (shotListPrompt a)
        (utf16 "Shot list generation failed: " ++ e.message)) := by
  refine ⟨?_, ?_, ?_, ?_, ?_, ?_, ?_, ?_, ?_, ?_, ?_, ?_, ?_, ?_, ?_⟩ <;>
    exact fun hg => request_failedOnce g _ _ _ e hg

/-- Witness of C12: the upstream call fails with `quota exceeded`. -/
theorem upstream_failure_surfaces_once_witness :
    (generateShotList ⟨some fun _ => Except.error ⟨utf16 "quota exceeded"⟩⟩
        ⟨fun _ => 1700000000000, fun _ => 5, fun _ => 7⟩ (utf16 "INT. HOUSE")).failedOnce
      (shotListPrompt (utf16 "INT. HOUSE"))
      (utf16 "Shot list generation failed: quota exceeded") ∧
    (analyzeScriptBreakdown ⟨some fun _ => Except.error ⟨utf16 "quota exceeded"⟩⟩
        (utf16 "INT. HOUSE")).failedOnce
      (breakdownPrompt (utf16 "INT. HOUSE"))
      (utf16 "Script breakdown failed: quota exceeded") := by
  have h := upstream_failure_surfaces_once (fun _ => Except.error ⟨utf16 "quota exceeded"⟩)
    ⟨utf16 "quota exceeded"⟩ ⟨fun _ => 1700000000000, fun _ => 5, fun _ => 7⟩
    (fun _ _ => []) ⟨[], [], [], []⟩ (utf16 "INT. HOUSE") [] [] []
  exact ⟨h.2.2.2.2.2.2.2.2.2.2.2.2.2.2 rfl, h.2.2.2.2.2.2.2.2.2.2.2.2.2.1 rfl⟩

/-- C13: in the breakdown CSV export every item is emitted as the field made of a
double quote, the item with each double quote doubled, and a closing double quote:
for every breakdown whose items are strings the text is the header followed, for
each category and each of its items in order, by the line
`category,` field; and the item `He said, "go now"` gives the field
`"He said, ""go now"""`. -/
theorem exportBreakdown_fields (elements : List (JSString × List JSString)) :
    exportBreakdown (elements.map fun p => (p.1, JValue.arr (p.2.map JValue.str)))
      = Except.ok (utf16 "Category,Element\n" ++ (elements.map fun p =>
          (p.2.map fun item => p.1 ++ [44] ++ csvField item ++ [10]).flatten).flatten) ∧
    csvField (utf16 "He said, \"go now\"") = utf16 "\"He said, \"\"go now\"\"\"" ∧
    exportBreakdown [(utf16 "props", JValue.arr [jstr "He said, \"go now\""])]
      = Except.ok (utf16 "Category,Element\nprops,\"He said, \"\"go now\"\"\"\n") :=
  ⟨exportBreakdown_strings elements, by decide, by rfl⟩

/-- C14: for every breakdown with the eleven fixed categories and arbitrary strings as
items, reading the exported text with the CSV reader and dropping the header record
gives, in order, one record `[category, item]` for each item; so grouping the records
by category gives back the items of every category. -/
theorem exportBreakdown_roundtrip (elements : List (JSString × List JSString))
    (hkeys : elements.map Prod.fst = breakdownCategories.map utf16) :
    ∃ text,
      exportBreakdown (elements.map fun p => (p.1, JValue.arr (p.2.map JValue.str)))
        = Except.ok text ∧
      csvDataRows text = (elements.map fun p => p.2.map fun item => [p.1, item]).flatten ∧
      ∀ p ∈ elements, itemsOf p.1 (csvDataRows text) = p.2 := by
  have hplain : ∀ p ∈ elements, ∀ ch ∈ p.1, ch ≠ 34 ∧ ch ≠ 44 ∧ ch ≠ 10 ∧ ch ≠ 13 := by
    intro p hp
    have hmem : p.1 ∈ breakdownCategories.map utf16 := by
      rw [← hkeys]
      exact List.mem_map_of_mem Prod.fst hp
    have hall : ∀ c ∈ breakdownCategories.map utf16,
        ∀ ch ∈ c, ch ≠ 34 ∧ ch ≠ 44 ∧ ch ≠ 10 ∧ ch ≠ 13 := by decide
    exact hall p.1 hmem
  have hnodup : (elements.map Prod.fst).Nodup := by
    rw [hkeys]
    decide
  have hrows : csvDataRows (utf16 "Category,Element\n" ++ (elements.map fun p =>
        (p.2.map fun item => p.1 ++ [44] ++ csvField item ++ [10]).flatten).flatten)
      = (elements.map fun p => p.2.map fun item => [p.1, item]).flatten := by
    unfold csvDataRows
    rw [csvRead_header, csvReadAux_body elements _ hplain]
    rfl
  refine ⟨_, exportBreakdown_strings elements, hrows, ?_⟩
  rw [hrows]
  exact itemsOf_present elements hnodup

/-- Witness of C14: a breakdown whose `cast` holds items with a comma, double quotes
and a line break. -/
theorem exportBreakdown_roundtrip_witness :
    ∃ text,
      exportBreakdown ([(utf16 "props", [utf16 "lamp"]), (utf16 "wardrobe", []),
          (utf16 "cast", [utf16 "Bob, \"the\" man", utf16 "two\r\nlines", []]),
          (utf16 "locations", []), (utf16 "sfx", []), (utf16 "vehicles", []),
          (utf16 "animals", []), (utf16 "stunts", []), (utf16 "makeup", []),
          (utf16 "equipment", []), (utf16 "extras", [])].map
            fun p => (p.1, JValue.arr (p.2.map JValue.str))) = Except.ok text ∧
      itemsOf (utf16 "cast") (csvDataRows text)
        = [utf16 "Bob, \"the\" man", utf16 "two\r\nlines", []] := by
  obtain ⟨text, h1, -, h3⟩ := exportBreakdown_roundtrip
    [(utf16 "props", [utf16 "lamp"]), (utf16 "wardrobe", []),
      (utf16 "cast", [utf16 "Bob, \"the\" man", utf16 "two\r\nlines", []]),
      (utf16 "locations", []), (utf16 "sfx", []), (utf16 "vehicles", []),
      (utf16 "animals", []), (utf16 "stunts", []), (utf16 "makeup", []),
      (utf16 "equipment", []), (utf16 "extras", [])] (by decide)
  exact ⟨text, h1, h3 (utf16 "cast", [utf16 "Bob, \"the\" man", utf16 "two\r\nlines", []])
    (by simp)⟩

/-- C15 (the code at its failing input): for a shot whose `framing` is
`Medium, tight`, `exportShotList` writes the framing without quotes, and the data row
reads as thirteen fields under the twelve-column header. -/
theorem exportShotList_unquoted_comma :
    exportShotList (fun _ => [])
        [jobj [("scene", jstr "1"), ("shotNumber", jstr "1"), ("description", jstr "Wide"),
          ("type", jstr "MS"), ("angle", jstr "Eye Level"), ("movement", jstr "Static"),
          ("equipment", jstr "Tripod"), ("lens", jstr "50mm"),
          ("framing", jstr "Medium, tight"), ("duration", jstr "5s"),
          ("frameRate", jstr "24 fps"), ("notes", jstr "")]]
      = Except.ok (shotListHeader ++ utf16
          "1,1,\"Wide\",MS,Eye Level,Static,\"Tripod\",50mm,Medium, tight,5s,24 fps,\"\"\n") ∧
    (csvRead (shotListHeader ++ utf16
        "1,1,\"Wide\",MS,Eye Level,Static,\"Tripod\",50mm,Medium, tight,5s,24 fps,\"\"\n")).map
        List.length = [12, 13] := by
  refine ⟨by rfl, by decide⟩

/-- C16: the script embedded in the prompt of `generateShotList` is the first
`min(|s|, 15000)` characters of the script: there are two fixed texts between which
the prompt holds `s.take 15000` for every script `s`; that text has length
`min(|s|, 15000)`, is `s` itself when `|s| <= 15000` and a prefix of `s` always. -/
theorem shotListPrompt_truncates :
    ∃ pre post : JSString, ∀ s : JSString,
      shotListPrompt s = pre ++ s.take 15000 ++ post ∧
      (s.take 15000).length = min s.length 15000 ∧
      (s.length ≤ 15000 → s.take 15000 = s) ∧
      s.take 15000 <+: s := by
  refine ⟨shotListPromptHead, shotListPromptTail, fun s => ⟨?_, ?_, ?_, ?_⟩⟩
  · rw [← substring_zero]
    rfl
  · rw [List.length_take, Nat.min_comm]
  · exact fun h => List.take_of_length_le h
  · exact List.take_prefix _ _

/-- Witness of C16: two scripts of 15001 characters that differ only in the last one
get the same prompt. -/
theorem shotListPrompt_truncates_witness :
    shotListPrompt (List.replicate 15000 65 ++ [66])
      = shotListPrompt (List.replicate 15000 65 ++ [67]) := by
  obtain ⟨pre, post, h⟩ := shotListPrompt_truncates
  rw [(h _).1, (h _).1]
  have e : ∀ c : Nat, (List.replicate 15000 65 ++ [c]).take 15000 = List.replicate 15000 65 :=
    fun c => List.take_left' (List.length_replicate 15000 65)
  rw [e 66, e 67]

/-- C17 (as stated, refuted): with a key configured and the level `expert`, which is
none of the four, `checkGrammarAdvanced` does not fail: it issues one upstream call
and returns a success envelope. -/
theorem checkGrammarAdvanced_unknown_level_counterexample :
    (checkGrammarAdvanced ⟨some fun _ => Except.ok (utf16 "\x7b\x7d")⟩ (utf16 "Some text")
        (utf16 "expert")).success = true ∧
    (checkGrammarAdvanced ⟨some fun _ => Except.ok (utf16 "\x7b\x7d")⟩ (utf16 "Some text")
        (utf16 "expert")).calls.length = 1 :=
  ⟨by rfl, by rfl⟩

/-- C17 (amended): for every level outside the four, `checkGrammarAdvanced` with a
key configured raises no configuration error: it issues exactly one upstream call, and
its outcome is that of the call, a success envelope when the call succeeds and the
error `Grammar check failed: ` followed by the upstream message when it fails.
Likewise `analyzeCharacter` for an analysis type outside the five, with the prefix
`Character analysis failed: `. -/
theorem unknown_enum_not_rejected (g : GenAI) (text name level analysisType : JSString)
    (hlevel : level ∉ [utf16 "basic", utf16 "standard", utf16 "comprehensive",
      utf16 "literary"])
    (htype : analysisType ∉ [utf16 "voice", utf16 "development", utf16 "consistency",
      utf16 "dialogue", utf16 "backstory"]) :
    ((checkGrammarAdvanced ⟨some g⟩ text level).missingKey = false ∧
      ∃ prompt, (checkGrammarAdvanced ⟨some g⟩ text level).calls = [prompt] ∧
        (∀ t, g prompt = Except.ok t →
          (checkGrammarAdvanced ⟨some g⟩ text level).success = true) ∧
        (∀ e, g prompt = Except.error e →
          (checkGrammarAdvanced ⟨some g⟩ text level).result
            = Except.error ⟨utf16 "Grammar check failed: " ++ e.message⟩)) ∧
    ((analyzeCharacter ⟨some g⟩ text name analysisType).missingKey = false ∧
      ∃ prompt, (analyzeCharacter ⟨some g⟩ text name analysisType).calls = [prompt] ∧
        (∀ t, g prompt = Except.ok t →
          (analyzeCharacter ⟨some g⟩ text name analysisType).success = true) ∧
        (∀ e, g prompt = Except.error e →
          (analyzeCharacter ⟨some g⟩ text name analysisType).result
            = Except.error ⟨utf16 "Character analysis failed: " ++ e.message⟩)) := by
  have h1 := grammarDepth_none level hlevel
  have h2 := characterFocus_none analysisType htype
  have hkey : ∀ o : Outcome, o.calls.length = 1 → o.missingKey = false := by
    intro o ho
    cases hc : o.calls with
    | nil => rw [hc] at ho; cases ho
    | cons c cs =>
      unfold Outcome.missingKey
      cases o.result <;> simp [hc]
  have hc1 : (checkGrammarAdvanced ⟨some g⟩ text level).calls
      = [grammarPrompt text level none] := by
    unfold checkGrammarAdvanced
    rw [h1]
    rfl
  have hc2 : (analyzeCharacter ⟨some g⟩ text name analysisType).calls
      = [characterPrompt text name none] := by
    unfold analyzeCharacter
    rw [h2]
    rfl
  refine ⟨⟨hkey _ (by rw [hc1]; rfl), grammarPrompt text level none, hc1, ?_, ?_⟩,
    ⟨hkey _ (by rw [hc2]; rfl), characterPrompt text name none, hc2, ?_, ?_⟩⟩
  · intro t ht
    unfold checkGrammarAdvanced
    rw [h1]
    exact request_success g _ _ t _ "analysis" ht (analysisOr_ok _ t)
  · intro e he
    unfold checkGrammarAdvanced
    rw [h1]
    exact (request_failedOnce g _ _ _ e he).1
  · intro t ht
    unfold analyzeCharacter
    rw [h2]
    exact request_success g _ _ t _ "analysis" ht (analysisOr_ok _ t)
  · intro e he
    unfold analyzeCharacter
    rw [h2]
    exact (request_failedOnce g _ _ _ e he).1

/-- Witness of C17 (amended): the level `expert` and the analysis type `mood`, with an
upstream call that succeeds and with one that fails. -/
theorem unknown_enum_not_rejected_witness :
    (checkGrammarAdvanced ⟨some fun _ => Except.ok (utf16 "no json")⟩ (utf16 "Some text")
        (utf16 "expert")).success = true ∧
    (analyzeCharacter ⟨some fun _ => Except.ok (utf16 "no json")⟩ (utf16 "Some text")
        (utf16 "Ann") (utf16 "mood")).success = true ∧
    (checkGrammarAdvanced ⟨some fun _ => Except.error ⟨utf16 "quota exceeded"⟩⟩
        (utf16 "Some text") (utf16 "expert")).result
      = Except.error ⟨utf16 "Grammar check failed: quota exceeded"⟩ := by
  obtain ⟨⟨-, p1, -, h1, -⟩, ⟨-, p2, -, h2, -⟩⟩ :=
    unknown_enum_not_rejected (fun _ => Except.ok (utf16 "no json")) (utf16 "Some text")
      (utf16 "Ann") (utf16 "expert") (utf16 "mood") (by decide) (by decide)
  obtain ⟨⟨-, p3, -, -, h3⟩, -⟩ :=
    unknown_enum_not_rejected (fun _ => Except.error ⟨utf16 "quota exceeded"⟩)
      (utf16 "Some text") (utf16 "Ann") (utf16 "expert") (utf16 "mood") (by decide) (by decide)
  exact ⟨h1 _ rfl, h2 _ rfl, h3 _ rfl⟩

/-- C18 (as stated, refuted): on the response `[{"props":["lamp"]}]`, whose payload is
an array, `analyzeScriptBreakdown` returns the object inside the array as its
analysis, not the default record. -/
theorem analyzeScriptBreakdown_array_counterexample :
    (analyzeScriptBreakdown
        ⟨some fun _ => Except.ok (utf16 "[\x7b\"props\":[\"lamp\"]\x7d]")⟩ []).result
      = Except.ok (envelope "analysis" (jobj [("props", jstrs ["lamp"])])) ∧
    jobj [("props", jstrs ["lamp"])] ≠ breakdownDefault := by
  refine ⟨by rfl, ?_⟩
  intro h
  have h' := congrArg (fun v => match v with
    | JValue.obj ps => ps.length
    | _ => 0) h
  exact absurd h' (by decide)

/-- C18 (amended): when the response, which has no code fence, holds a `{` and a later
`}` (as an array of objects does), `analyzeScriptBreakdown` decides on the text from
the first `{` to the last `}`: if `JSON.parse` rejects that text the analysis is the
default record, and if it accepts it the analysis is the parsed object, whatever
surrounds it. -/
theorem analyzeScriptBreakdown_span (g : GenAI) (scriptText pre body post : JSString)
    (hpre : 123 ∉ pre) (hpost : 125 ∉ post)
    (hfence : ¬ utf16 "```" <:+: pre ++ (123 :: body ++ [125]) ++ post)
    (hg : g (breakdownPrompt scriptText) = Except.ok (pre ++ (123 :: body ++ [125]) ++ post)) :
    (∀ e, jsonParse (123 :: body ++ [125]) = Except.error e →
      (analyzeScriptBreakdown ⟨some g⟩ scriptText).result
        = Except.ok (envelope "analysis" breakdownDefault)) ∧
    (∀ v, jsonParse (123 :: body ++ [125]) = Except.ok v →
      (analyzeScriptBreakdown ⟨some g⟩ scriptText).result
        = Except.ok (envelope "analysis" v)) := by
  have hc := cleanAndParseResponse_span pre body post hpre hpost hfence
  constructor
  · intro e he
    rw [he] at hc
    exact request_result_ok g _ _ _ _ _ hg (analysisOr_null _ _ hc)
  · intro v hv
    rw [hv] at hc
    obtain ⟨ps, rfl⟩ := jsonParse_brace_isObject _ _ hv
    exact request_result_ok g _ _ _ _ _ hg (analysisOr_obj _ _ ps hc)

/-- Witness of C18 (amended): the array `[{"a":1},{"b":2}]` of two objects, for which
the text from the first `{` to the last `}` is not JSON, gives the default record. -/
theorem analyzeScriptBreakdown_span_witness :
    (analyzeScriptBreakdown
        ⟨some fun _ => Except.ok (utf16 "[\x7b\"a\":1\x7d,\x7b\"b\":2\x7d]")⟩ []).result
      = Except.ok (envelope "analysis" breakdownDefault) :=
  (analyzeScriptBreakdown_span (fun _ => Except.ok (utf16 "[\x7b\"a\":1\x7d,\x7b\"b\":2\x7d]"))
    [] [91] (utf16 "\"a\":1\x7d,\x7b\"b\":2") [93] (by decide) (by decide) (by decide) rfl).1
    _ rfl

/-- C19 (the code at its failing input): on a response that is a JSON array of one
suggestion object, `generateCharacterSuggestions` returns its fixed fallback, not the
array; on the response `["big", "large"]`, `getSynonyms` returns the comma-split
texts `[big` and `large]`, not the array. -/
theorem array_responses_not_parsed :
    (generateCharacterSuggestions
        ⟨some fun _ => Except.ok (utf16
          "[\x7b\"category\":\"Dialogue\",\"description\":\"d\",\"example\":\"e\"\x7d]")⟩
        (utf16 "Ann") [utf16 "brave"] (utf16 "dialogue")).result
      = Except.ok (envelope "suggestions" suggestionsDefault) ∧
    jsonParse (utf16 "[\x7b\"category\":\"Dialogue\",\"description\":\"d\",\"example\":\"e\"\x7d]")
      = Except.ok (JValue.arr [jobj [("category", jstr "Dialogue"), ("description", jstr "d"),
          ("example", jstr "e")]]) ∧
    (getSynonyms ⟨some fun _ => Except.ok (utf16 "[\"big\", \"large\"]")⟩
        (utf16 "large") (utf16 "a large house")).result
      = Except.ok (envelope "synonyms" (jstrs ["[big", "large]"])) ∧
    jsonParse (utf16 "[\"big\", \"large\"]") = Except.ok (jstrs ["big", "large"]) := by
  refine ⟨by rfl, by rfl, by rfl, by rfl⟩

/-- C20: starting from the initial state, after any sequence of `tagElement`,
`acceptAiSuggestion` and remove-item operations that all succeed, the keys of
`breakdownElements` are exactly the eleven categories, in their order; and
`acceptAiSuggestion` with a category that is none of the eleven, such as a name taken
from the AI response, throws instead of adding a key. -/
theorem breakdown_keys_fixed (ops : List BreakdownOp) (st : BreakdownState)
    (h : applyOps ops BreakdownState.initial = some st) :
    st.breakdownElements.map Prod.fst = breakdownCategories.map utf16 ∧
    ∀ category item, category ∉ breakdownCategories.map utf16 →
      ∃ e, acceptAiSuggestion category item st = Except.error e := by
  have hkeys := applyOps_keys ops BreakdownState.initial st (by decide) h
  refine ⟨hkeys, ?_⟩
  intro category item hnot
  rw [← hkeys] at hnot
  simp only [acceptAiSuggestion, appendToCategory, get_undef_of_not_mem category _ hnot,
    JValue.iterate]
  exact ⟨_, rfl⟩

/-- Witness of C20: tagging a selection, accepting a suggestion and removing an item. -/
theorem breakdown_keys_fixed_witness :
    (applyOps [BreakdownOp.tag (utf16 " lamp ") (utf16 "props"),
        BreakdownOp.accept (utf16 "cast") (jstr "Bob"),
        BreakdownOp.remove (utf16 "props") 0] BreakdownState.initial).map
        (fun st => st.breakdownElements)
      = some (Props.set (utf16 "cast") (JValue.arr [jstr "Bob"]) initialBreakdownElements) ∧
    ∃ e, acceptAiSuggestion (utf16 "characters") (jstr "Bob")
        { BreakdownState.initial with
          selectedText := utf16 " lamp "
          breakdownElements :=
            Props.set (utf16 "cast") (JValue.arr [jstr "Bob"]) initialBreakdownElements }
      = Except.error e :=
  ⟨by rfl,
    (breakdown_keys_fixed [BreakdownOp.tag (utf16 " lamp ") (utf16 "props"),
        BreakdownOp.accept (utf16 "cast") (jstr "Bob"),
        BreakdownOp.remove (utf16 "props") 0]
      { BreakdownState.initial with
        selectedText := utf16 " lamp "
        breakdownElements :=
          Props.set (utf16 "cast") (JValue.arr [jstr "Bob"]) initialBreakdownElements }
      (by rfl)).2 (utf16 "characters") (jstr "Bob") (by decide)⟩

/-- C21 (the code at its failing inputs): distinct identifiers are not preserved by
adding a shot nor by appending AI-generated shots. From the initial state, two calls of
`addShot` at which `Date.now()` returns the same value leave two records with the same
`id`; and two runs of `runAiShotSuggestions` on the response `[{"id":1}]` leave two
records with the `id` 1. In both cases the identifiers were pairwise distinct before
the last operation. -/
theorem shot_ids_not_preserved :
    (∃ st1 st2, addShot (fun _ => 1800) (ShotListState.initial 1700) = Except.ok st1 ∧
      addShot (fun _ => 1800) st1 = Except.ok st2 ∧
      distinctIds st1.shots ∧
      st2.shots.map shotId = [jnum 1800, jnum 1800] ∧
      ¬ distinctIds st2.shots) ∧
    (∃ st1 st2,
      runAiShotSuggestions (GeminiService.answering "[\x7b\"id\":1\x7d]")
        (Platform.constant 1700000000000) (Platform.constant 1700000000100)
        { ShotListState.initial 1700 with script := utf16 "INT. HOUSE" } = st1 ∧
      runAiShotSuggestions (GeminiService.answering "[\x7b\"id\":1\x7d]")
        (Platform.constant 1700000060000) (Platform.constant 1700000060100) st1 = st2 ∧
      distinctIds st1.shots ∧
      st2.shots.map shotId = [jnum 1, jnum 1] ∧
      ¬ distinctIds st2.shots) := by
  refine ⟨⟨_, _, rfl, rfl, ?_, rfl, ?_⟩, ⟨_, _, rfl, rfl, ?_, rfl, ?_⟩⟩
  · unfold distinctIds
    decide
  · unfold distinctIds
    decide
  · unfold distinctIds
    decide
  · unfold distinctIds
    decide

/-- C22: on a shot list of records and a primitive identifier `id`, `deleteShot(id)`
changes nothing but the list, from which it removes exactly the records whose `id` is
`=== id`, keeping the others in order; and `addShot` in update mode (`editingShotId`
is `id`, which is truthy) gives a list of the same length in which exactly the records
whose `id` is `=== id` are replaced by the edited record, whose `id` is `id`, every
other record staying where it was. -/
theorem edit_delete_keyed_on_id (clock : Nat → Nat) (st : ShotListState)
    (records : List Props) (id : JValue)
    (hshots : st.shots = records.map JValue.obj) (hprim : id.isPrimitive = true) :
    deleteShot id st
      = Except.ok { st with
          shots := (records.filter fun r =>
            !(Props.get (utf16 "id") r).strictEq id).map JValue.obj } ∧
    (st.editingShotId = id → id.truthy = true →
      ∃ st', addShot clock st = Except.ok st' ∧
        st'.shots = (records.map fun r =>
          if (Props.get (utf16 "id") r).strictEq id then newShot (clock 0) st
          else JValue.obj r) ∧
        st'.shots.length = records.length ∧
        shotId (newShot (clock 0) st) = id ∧
        (shotId (newShot (clock 0) st)).strictEq id = true) := by
  constructor
  · simp only [deleteShot, hshots, filterE_hasOtherId]
  · intro hedit htruthy
    have hid : shotId (newShot (clock 0) st) = id := by
      rw [shotId_newShot, hedit, or_of_truthy _ _ htruthy]
    have ht : st.editingShotId.truthy = true := by rw [hedit]; exact htruthy
    refine ⟨_, addShot_records clock st records hshots, ?_, ?_, hid, ?_⟩
    · simp only [hedit, htruthy, if_true]
    · simp only [ht, if_true, List.length_map]
    · rw [hid]
      exact strictEq_self id hprim

/-- Witness of C22: a list of the records 1, 2, 1 (by identifier); deleting 1 leaves
the record 2, and updating with `editingShotId = 2` replaces the middle record only. -/
theorem edit_delete_keyed_on_id_witness :
    (deleteShot (jnum 1)
        { ShotListState.initial 1700 with
          shots := [jobj [("id", jnum 1)], jobj [("id", jnum 2)], jobj [("id", jnum 1)]]
          editingShotId := jnum 2 }).toOption.map (fun st => st.shots)
      = some [jobj [("id", jnum 2)]] ∧
    (addShot (fun _ => 1800)
        { ShotListState.initial 1700 with
          shots := [jobj [("id", jnum 1)], jobj [("id", jnum 2)], jobj [("id", jnum 1)]]
          editingShotId := jnum 2 }).toOption.map (fun st => st.shots.map shotId)
      = some [jnum 1, jnum 2, jnum 1] := by
  have h1 := (edit_delete_keyed_on_id (fun _ => 1800)
    { ShotListState.initial 1700 with
      shots := [jobj [("id", jnum 1)], jobj [("id", jnum 2)], jobj [("id", jnum 1)]]
      editingShotId := jnum 2 }
    [[(utf16 "id", jnum 1)], [(utf16 "id", jnum 2)], [(utf16 "id", jnum 1)]] (jnum 1)
    rfl rfl).1
  obtain ⟨st', h2, h3, -⟩ := (edit_delete_keyed_on_id (fun _ => 1800)
    { ShotListState.initial 1700 with
      shots := [jobj [("id", jnum 1)], jobj [("id", jnum 2)], jobj [("id", jnum 1)]]
      editingShotId := jnum 2 }
    [[(utf16 "id", jnum 1)], [(utf16 "id", jnum 2)], [(utf16 "id", jnum 1)]] (jnum 2)
    rfl rfl).2 rfl rfl
  constructor
  · rw [h1]
    rfl
  · rw [h2]
    simp only [Except.toOption, Option.map_some', h3]
    rfl

/-- C23: greedy object extraction. With `C` the fence-stripped text, the match of
`/\{[\s\S]*\}/` in `C` is the text from the first `{` to the last `}` of `C`, and there
is a match exactly when some `}` follows the first `{` (`objectSpan`, which on
`pre ++ {body} ++ post` with no `{` in `pre` and no `}` in `post` is `{body}`);
`cleanAndParseResponse` returns what `JSON.parse` makes of that text and `null` when
there is none or it is rejected, so its result is non-null exactly when that whole text
is valid JSON. Two sibling objects, or braces in the prose before or after the payload,
give `null`. -/
theorem cleanAndParseResponse_greedy (T : JSString) :
    regexMatch reObject (removeMatches reFence (removeMatches reFenceJson T))
      = objectSpan (removeMatches reFence (removeMatches reFenceJson T)) ∧
    (∀ pre body post : JSString, 123 ∉ pre → 125 ∉ post →
      objectSpan (pre ++ (123 :: body ++ [125]) ++ post) = some (123 :: body ++ [125])) ∧
    (cleanAndParseResponse T
      = match objectSpan (removeMatches reFence (removeMatches reFenceJson T)) with
        | some m =>
          match jsonParse m with
          | Except.ok v => Except.ok v
          | Except.error _ => Except.ok JValue.null
        | none => Except.ok JValue.null) ∧
    (cleanAndParseResponse T ≠ Except.ok JValue.null ↔
      ∃ m v, objectSpan (removeMatches reFence (removeMatches reFenceJson T)) = some m ∧
        jsonParse m = Except.ok v) ∧
    cleanAndParseResponse (utf16 "\x7b\"a\":1\x7d \x7b\"b\":2\x7d") = Except.ok JValue.null ∧
    cleanAndParseResponse (utf16 "Use \x7bbraces\x7d: \x7b\"a\":1\x7d") = Except.ok JValue.null ∧
    cleanAndParseResponse (utf16 "\x7b\"a\":1\x7d (see \x7bx\x7d)") = Except.ok JValue.null := by
  have heq := regexMatch_reObject_eq_objectSpan
    (removeMatches reFence (removeMatches reFenceJson T))
  refine ⟨heq, ?_, ?_, ?_, by rfl, by rfl, by rfl⟩
  · intro pre body post hpre hpost
    rw [← regexMatch_reObject_eq_objectSpan]
    exact regexMatch_reObject_span pre body post hpre hpost
  · rw [← heq]
    rfl
  · constructor
    · intro hne
      rcases cleanAndParseResponse_cases T with h | ⟨m, ps, hm, hp, -⟩
      · exact absurd h hne
      · exact ⟨m, _, heq ▸ hm, hp⟩
    · rintro ⟨m, v, hm, hv⟩ hnull
      rw [← heq] at hm
      obtain ⟨m', rfl⟩ := regexMatch_reObject_head _ _ hm
      obtain ⟨ps, rfl⟩ := jsonParse_brace_isObject _ _ hv
      simp only [cleanAndParseResponse, hm, hv] at hnull
      cases hnull

/-- C24: array recovery. For every response, `generateShotList` ingests what the scan
of the raw response for `/\[\s*\{[\s\S]*\}\s*\]/` gives, and the empty sequence when
the matched text does not parse. When the response is `pre ++ A ++ post`, where `A` is
a valid JSON array text that starts with `[`, blanks and `{` and ends with `}`, blanks
and `]` (its first and last elements are objects), `pre` holds no `[` and `post` no
`]`, the match is `A` and the shots are the elements of `A`, in order and as many,
each spread over the defaults. -/
theorem array_recovery (p : Platform) (g : GenAI)
    (scriptText pre w1 body w2 post : JSString) (items : List JValue)
    (hpre : 91 ∉ pre) (hpost : 93 ∉ post)
    (hw1 : ∀ c ∈ w1, isSpace c = true) (hw2 : ∀ c ∈ w2, isSpace c = true)
    (hvalid : jsonParse (91 :: w1 ++ (123 :: body ++ [125]) ++ w2 ++ [93])
      = Except.ok (JValue.arr items))
    (hg : g (shotListPrompt scriptText)
      = Except.ok (pre ++ (91 :: w1 ++ (123 :: body ++ [125]) ++ w2 ++ [93]) ++ post)) :
    regexMatch reArray (pre ++ (91 :: w1 ++ (123 :: body ++ [125]) ++ w2 ++ [93]) ++ post)
      = some (91 :: w1 ++ (123 :: body ++ [125]) ++ w2 ++ [93]) ∧
    (generateShotList ⟨some g⟩ p scriptText).result
      = Except.ok (envelope "shots" (JValue.arr (mapFrom (ingestShot p) 0 items))) ∧
    (mapFrom (ingestShot p) 0 items).length = items.length ∧
    (∀ i, (mapFrom (ingestShot p) 0 items)[i]? = (items[i]?).map (ingestShot p i)) ∧
    (∀ T m e, regexMatch reArray T = some m → jsonParse m = Except.error e →
      shotListFromResponse p T = Except.ok (envelope "shots" (JValue.arr []))) := by
  have hm := regexMatch_reArray_span pre w1 body w2 post hpre hpost hw1 hw2
  refine ⟨hm, ?_, length_mapFrom _ _ _, ?_, ?_⟩
  · apply request_result_ok g _ _ _ _ _ hg
    rw [shotListFromResponse_recovery, hm]
    simp only [hvalid, ingestShots]
  · intro i
    rw [getElem?_mapFrom, Nat.zero_add]
  · intro T m e hT he
    rw [shotListFromResponse_recovery, hT]
    simp only [he, ingestShots, mapFrom]

/-- Witness of C24: an array of an object, a number and an object inside a sentence
gives three records. -/
theorem array_recovery_witness :
    (generateShotList
        (GeminiService.answering
          "Shots: [ \x7b\"lens\":\"35mm\"\x7d, 5, \x7b\"scene\":\"2\"\x7d ] as asked (2 \x7bplus\x7d).")
        (Platform.constant 1700000000000) (utf16 "INT. HOUSE")).result
      = Except.ok (envelope "shots" (JValue.arr (mapFrom
          (ingestShot (Platform.constant 1700000000000)) 0
          [jobj [("lens", jstr "35mm")], jnum 5, jobj [("scene", jstr "2")]]))) :=
  (array_recovery (Platform.constant 1700000000000)
    (fun _ => Except.ok (utf16
      "Shots: [ \x7b\"lens\":\"35mm\"\x7d, 5, \x7b\"scene\":\"2\"\x7d ] as asked (2 \x7bplus\x7d)."))
    (utf16 "INT. HOUSE") (utf16 "Shots: ") (utf16 " ")
    (utf16 "\"lens\":\"35mm\"\x7d, 5, \x7b\"scene\":\"2\"") (utf16 " ")
    (utf16 " as asked (2 \x7bplus\x7d).")
    [jobj [("lens", jstr "35mm")], jnum 5, jobj [("scene", jstr "2")]]
    (by decide) (by decide) (by decide) (by decide) (by rfl) (by rfl)).2.1

/-- C25: for every response text, the cleaned text of `cleanAndParseResponse` (all
matches of ```` ```json\s* ```` removed, then all matches of ```` ```\s* ````) holds
no three consecutive backticks; so it is for a tagged fence, a bare fence and a run of
seven backticks. -/
theorem fence_stripping_leaves_no_fence (T : JSString) :
    ¬ utf16 "```" <:+: removeMatches reFence (removeMatches reFenceJson T) ∧
    removeMatches reFence (removeMatches reFenceJson (utf16 "```json\n[1]\n```")) = utf16 "[1]\n" ∧
    removeMatches reFence (removeMatches reFenceJson (utf16 "```\n[1]\n```")) = utf16 "[1]\n" ∧
    removeMatches reFence (removeMatches reFenceJson (utf16 "```````")) = utf16 "`" :=
  ⟨removeMatchesAux_reFence_no_fence _ _ (Nat.le_refl _), by decide, by decide, by decide⟩

/-- C26: in a breakdown whose `category` holds the sequence `items`, `tagElement` (with
a selection and `category` chosen) gives that category the sequence `items` followed
by the trimmed selection, `acceptAiSuggestion` gives it `items` followed by the item,
and the remove button of index `index` gives it `items` without the element at that
index, the rest in order; in all three the value of every other key is unchanged. -/
theorem breakdown_append_remove (st : BreakdownState) (category : JSString)
    (items : List JValue)
    (hitems : Props.get category st.breakdownElements = JValue.arr items) :
    (∀ selectedText : JSString, selectedText ≠ [] → category ≠ [] →
      ∃ st', tagElement { st with selectedText := selectedText, elementType := category }
          = Except.ok st' ∧
        Props.get category st'.breakdownElements
          = JValue.arr (items ++ [JValue.str (trim selectedText)]) ∧
        ∀ other, other ≠ category →
          Props.get other st'.breakdownElements = Props.get other st.breakdownElements) ∧
    (∀ item, ∃ st', acceptAiSuggestion category item st = Except.ok st' ∧
        Props.get category st'.breakdownElements = JValue.arr (items ++ [item]) ∧
        ∀ other, other ≠ category →
          Props.get other st'.breakdownElements = Props.get other st.breakdownElements) ∧
    (∀ index, ∃ st', removeItem category index st = Except.ok st' ∧
        Props.get category st'.breakdownElements = JValue.arr (items.eraseIdx index) ∧
        ∀ other, other ≠ category →
          Props.get other st'.breakdownElements = Props.get other st.breakdownElements) := by
  refine ⟨?_, ?_, ?_⟩
  · intro selectedText hsel hcat
    have h1 : selectedText.isEmpty = false := by
      cases selectedText with
      | nil => exact absurd rfl hsel
      | cons _ _ => rfl
    have h2 : category.isEmpty = false := by
      cases category with
      | nil => exact absurd rfl hcat
      | cons _ _ => rfl
    have hs := get_set_spread category (JValue.arr (items ++ [JValue.str (trim selectedText)]))
      st.breakdownElements
    refine ⟨{ st with
        selectedText := selectedText, elementType := category,
        breakdownElements := Props.set category
          (JValue.arr (items ++ [JValue.str (trim selectedText)]))
          (spreadInto [] (JValue.obj st.breakdownElements)),
        showTagPopup := false }, ?_, hs.1, hs.2⟩
    simp only [tagElement, h1, h2, Bool.or_self, Bool.false_eq_true, if_false,
      appendToCategory_arr _ _ _ _ hitems]
  · intro item
    have hs := get_set_spread category (JValue.arr (items ++ [item])) st.breakdownElements
    refine ⟨{ st with
        breakdownElements := Props.set category (JValue.arr (items ++ [item]))
          (spreadInto [] (JValue.obj st.breakdownElements)) }, ?_, hs.1, hs.2⟩
    simp only [acceptAiSuggestion, appendToCategory_arr _ _ _ _ hitems]
  · intro index
    have hs := get_set_spread category (JValue.arr (items.eraseIdx index)) st.breakdownElements
    refine ⟨{ st with
        breakdownElements := Props.set category (JValue.arr (items.eraseIdx index))
          (spreadInto [] (JValue.obj st.breakdownElements)) }, ?_, hs.1, hs.2⟩
    simp only [removeItem, removeFromCategory_arr _ _ _ _ hitems]

/-- Witness of C26: in a breakdown whose `cast` is `Ann`, `Bob`, `Cy`, accepting `Dee`
puts it last, removing index 1 leaves `Ann`, `Cy`, and `props` stays empty. -/
theorem breakdown_append_remove_witness :
    ∃ st1 st2,
      acceptAiSuggestion (utf16 "cast") (jstr "Dee")
        { BreakdownState.initial with
          breakdownElements := Props.set (utf16 "cast") (jstrs ["Ann", "Bob", "Cy"])
            initialBreakdownElements } = Except.ok st1 ∧
      Props.get (utf16 "cast") st1.breakdownElements = jstrs ["Ann", "Bob", "Cy", "Dee"] ∧
      removeItem (utf16 "cast") 1
        { BreakdownState.initial with
          breakdownElements := Props.set (utf16 "cast") (jstrs ["Ann", "Bob", "Cy"])
            initialBreakdownElements } = Except.ok st2 ∧
      Props.get (utf16 "cast") st2.breakdownElements = jstrs ["Ann", "Cy"] ∧
      Props.get (utf16 "props") st2.breakdownElements = JValue.arr [] := by
  have h := breakdown_append_remove
    { BreakdownState.initial with
      breakdownElements := Props.set (utf16 "cast") (jstrs ["Ann", "Bob", "Cy"])
        initialBreakdownElements }
    (utf16 "cast") [jstr "Ann", jstr "Bob", jstr "Cy"] rfl
  obtain ⟨st1, h1, h2, -⟩ := h.2.1 (jstr "Dee")
  obtain ⟨st2, h3, h4, h5⟩ := h.2.2 1
  exact ⟨st1, st2, h1, h2, h3, h4, (h5 (utf16 "props") (by decide)).trans rfl⟩

/-- C27: for every response text the result of `cleanAndParseResponse` is `null` or an
object, never an array (the matched text starts with `{`); so for every response
`generateCharacterSuggestions` returns its fallback suggestions, `getSynonyms` the
comma-split response, and `generateShotList` ingests what its array recovery finds. -/
theorem cleanAndParseResponse_never_array (p : Platform) (T : JSString) :
    (cleanAndParseResponse T = Except.ok JValue.null ∨
      ∃ ps, cleanAndParseResponse T = Except.ok (JValue.obj ps)) ∧
    (∀ v, cleanAndParseResponse T = Except.ok v → v.isArray = false) ∧
    (∀ m, regexMatch reObject (removeMatches reFence (removeMatches reFenceJson T)) = some m →
      m.head? = some 123) ∧
    suggestionsFromResponse T = Except.ok (envelope "suggestions" suggestionsDefault) ∧
    synonymsFromResponse T = Except.ok (envelope "synonyms"
      (JValue.arr (((splitOn 44 T).map fun s =>
        JValue.str (removeMatches reQuote (trim s))).take 8))) ∧
    shotListFromResponse p T
      = (match ingestShots p
          (match regexMatch reArray T with
            | some jsonArrayMatch =>
              match jsonParse jsonArrayMatch with
              | Except.ok v => v
              | Except.error _ => JValue.arr []
            | none => JValue.arr []) with
        | Except.error e => Except.error e
        | Except.ok shots => Except.ok (envelope "shots" shots)) := by
  have hcases : cleanAndParseResponse T = Except.ok JValue.null ∨
      ∃ ps, cleanAndParseResponse T = Except.ok (JValue.obj ps) := by
    rcases cleanAndParseResponse_cases T with h | ⟨m, ps, -, -, h⟩
    · exact Or.inl h
    · exact Or.inr ⟨ps, h⟩
  have hnot : ∀ v, cleanAndParseResponse T = Except.ok v → v.isArray = false := by
    intro v hv
    rcases hcases with h | ⟨ps, h⟩
    · rw [h] at hv
      cases hv
      rfl
    · rw [h] at hv
      cases hv
      rfl
  obtain ⟨v, hv⟩ := cleanAndParseResponse_ok T
  have hv' := hnot v hv
  refine ⟨hcases, hnot, ?_, ?_, ?_, shotListFromResponse_recovery p T⟩
  · intro m hm
    obtain ⟨m', rfl⟩ := regexMatch_reObject_head _ _ hm
    rfl
  · simp [suggestionsFromResponse, hv, hv']
  · simp [synonymsFromResponse, hv, hv']

/-- C28: in the record that `generateShotList` builds from a recovered element, the
`id` is the element's own `id` when the element has one, and the generated value
`Date.now() + Math.floor(Math.random() * 1000)` exactly when it has none; so the
response `[{"id":"A1"},{}]` gives the ids `A1` and the generated number. -/
theorem ingestShot_id_override (p : Platform) (i : Nat) (ps : Props) :
    (Props.has (utf16 "id") ps = true →
      (ingestShot p i (JValue.obj ps)).getProp (utf16 "id")
        = Except.ok (Props.get (utf16 "id") ps)) ∧
    (Props.has (utf16 "id") ps = false →
      (ingestShot p i (JValue.obj ps)).getProp (utf16 "id")
        = Except.ok (jnum ((p.now i + (p.rand1000 i).val : Nat) : Int))) ∧
    (generateShotList ⟨some fun _ => Except.ok (utf16 "[\x7b\"id\":\"A1\"\x7d,\x7b\x7d]")⟩
        ⟨fun _ => 1700000000000, fun _ => 5, fun _ => 7⟩ (utf16 "INT. HOUSE")).result
      = Except.ok (envelope "shots" (JValue.arr [
          JValue.obj (shotDefaults (jstr "A1")),
          JValue.obj (shotDefaults (jnum 1700000000005))])) := by
  refine ⟨?_, ?_, by rfl⟩
  · intro h
    simp only [ingestShot, JValue.getProp, get_spreadInto_obj, h, if_true]
  · intro h
    simp only [ingestShot, JValue.getProp, get_spreadInto_obj, h]
    rfl

/-- C29 (the code at its failing input): on the response `[{"notes":null}]`,
`runAiShotSuggestions` appends one record whose `notes` is `null`, and `exportShotList`
on that shot list throws a `TypeError` instead of building the CSV text; the same
holds for the response `[{"description":5}]`. -/
theorem exportShotList_throws_on_ingested (other : JValue → JSString) :
    (∃ st shot,
      runAiShotSuggestions (GeminiService.answering "[\x7b\"notes\":null\x7d]")
        (Platform.constant 1700000000000) (Platform.constant 1700000000100)
        { ShotListState.initial 1700 with script := utf16 "INT. HOUSE" } = st ∧
      st.shots = [shot] ∧
      shot.getProp (utf16 "notes") = Except.ok JValue.null ∧
      exportShotList other st.shots = Except.error ⟨utf16 "replace is not a function"⟩) ∧
    (∃ st shot,
      runAiShotSuggestions (GeminiService.answering "[\x7b\"description\":5\x7d]")
        (Platform.constant 1700000000000) (Platform.constant 1700000000100)
        { ShotListState.initial 1700 with script := utf16 "INT. HOUSE" } = st ∧
      st.shots = [shot] ∧
      shot.getProp (utf16 "description") = Except.ok (jnum 5) ∧
      exportShotList other st.shots = Except.error ⟨utf16 "replace is not a function"⟩) :=
  ⟨⟨_, _, rfl, rfl, rfl, rfl⟩, ⟨_, _, rfl, rfl, rfl, rfl⟩⟩

/-- C30: when `addShot` resets the form of the editor, in add mode as in update mode,
the `shotNumber` of the new form is the decimal text of one plus the number of records
whose `scene` is `=== currentScene` in the shot list as it was before the call (the
record just added is not counted), and its `scene` is `currentScene`. -/
theorem addShot_next_shot_number (clock : Nat → Nat) (st : ShotListState)
    (records : List Props) (hshots : st.shots = records.map JValue.obj) :
    ∃ st', addShot clock st = Except.ok st' ∧
      st'.currentShot.getProp (utf16 "shotNumber")
        = Except.ok (JValue.str (numberToString
            ((records.filter fun r =>
              (Props.get (utf16 "scene") r).strictEq (JValue.str st.currentScene)).length + 1))) ∧
      st'.currentShot.getProp (utf16 "scene") = Except.ok (JValue.str st.currentScene) ∧
      (st.editingShotId.truthy = false → st'.shots = st.shots ++ [newShot (clock 0) st]) := by
  refine ⟨_, addShot_records clock st records hshots, rfl, rfl, ?_⟩
  intro ht
  simp only [ht]
  rfl

/-- Witness of C30: after the first shot of scene `1` is added to the empty list, the
suggested next shot number is again `1`. -/
theorem addShot_next_shot_number_witness :
    ∃ st', addShot (fun _ => 1800) (ShotListState.initial 1700) = Except.ok st' ∧
      st'.shots.length = 1 ∧
      st'.currentShot.getProp (utf16 "shotNumber") = Except.ok (jstr "1") ∧
      st'.currentShot.getProp (utf16 "scene") = Except.ok (jstr "1") := by
  obtain ⟨st', h1, h2, h3, h4⟩ :=
    addShot_next_shot_number (fun _ => 1800) (ShotListState.initial 1700) [] rfl
  refine ⟨st', h1, ?_, h2, h3⟩
  rw [h4 rfl]
  rfl

end Lexicraft
